import Mathlib

/-! Molten liquid-glass plugin: the render path and the adaptive-colour publisher.

A shallow embedding of the member functions of `CLiquidGlassDecoration` found in
`src/plugins/liquid-glass-plugin/src/LiquidGlassDecoration.cpp` (`sampleBackground`,
`calculateLuminance`, `reportLuminance` with hysteresis and publish cadence 15,
`applyLiquidGlassEffect`, `renderPass`), of `reportLuminance` of
`src/effects/liquid-glass-plugin/src/LiquidGlassDecoration.cpp` (threshold variant, publish
cadence 5), of `CLiquidGlassLayerEffect::sampleBackground` and `matchesPattern` of
`src/effects/liquid-glass-plugin/src/LiquidGlassLayerSurface.cpp`, of the pass element
(`LiquidGlassPassElement.cpp`) with `draw`, `damageEntire` and `boundingBox`, and of the
window callbacks `onNewWindow` and `onCloseWindow` of `main.cpp`.

Modelling conventions.
* `std::string` is a `List Char` (`Str`); every `Char` stands for one C++ `char`.
* `float` and `double` are modelled by `ℚ`: arithmetic and comparisons are exact, the literals
  `0.45f`, `0.55f`, `0.5f`, `0.2126f`, ... denote the decimal numbers they are written as, and
  NaN / infinities are not values. An `int` is an `Int`; overflow is not modelled.
* `std::unordered_map<std::string, V>` is an association list `UMap V`; `operator[]=`
  overwrites the binding of an existing key in place and appends a new key at the end. The
  iteration order of the range-`for` is the list order (C++ leaves it unspecified).
* The file-scope statics are the fields of `Globals`; the file operations issued by a call
  are returned as a list of `IoEvent`s and the calls to the graphics surface as a list of
  `GlCall`s, both in program order.
* A weak handle is an `Option` at the point of use (`none` once it no longer resolves); the
  decorations alive on the host are a list of objects with identity and owner, and the
  tracking list holds identities.
* A `std::string` operation outside its precondition (`back()` or `front()` of an empty
  string, `substr` beyond the end) is a value of `StrFault` in an `Except`.
-/

namespace Molten

/-- A C++ `std::string`, one `Char` per `char`. -/
abbrev Str := List Char

/-! ## `std::unordered_map<std::string, V>` -/

/-- An unordered map with string keys, as an association list. -/
abbrev UMap (V : Type) := List (Str × V)

namespace UMap

/-- The value bound to `k` (`m.find(k)`), if any. -/
def find {V : Type} : UMap V → Str → Option V
  | [], _ => none
  | (k', v) :: rest, k => if k' = k then some v else find rest k

/-- The number of bindings of `k`, `m.count(k)`, as a truth value. -/
def count {V : Type} (m : UMap V) (k : Str) : Bool := (find m k).isSome

/-- The assignment `m[k] = v`: overwrite the binding of `k`, or insert a new one. -/
def assign {V : Type} : UMap V → Str → V → UMap V
  | [], k, v => [(k, v)]
  | (k', v') :: rest, k, v =>
    if k' = k then (k, v) :: rest else (k', v') :: assign rest k v

/-- The keys of the map, in iteration order. -/
def keys {V : Type} (m : UMap V) : List Str := m.map Prod.fst

end UMap

/-! ## `std::string::find` and `std::to_string(float)` -/

/-- The value `std::string::npos`, that is `size_t(-1)`. -/
def npos : Nat := 2 ^ 64 - 1

/-- Search for `pat` in `s`, where `s` is the suffix of the subject starting at `pos`. -/
def findFrom (pat : Str) : Str → Nat → Nat
  | [], pos => if pat = [] then pos else npos
  | c :: cs, pos => if pat.isPrefixOf (c :: cs) then pos else findFrom pat cs (pos + 1)

/-- The call `s.find(pat)`: index of the first occurrence of `pat` in `s`, or `npos`. -/
def strFind (s pat : Str) : Nat := findFrom pat s 0

/-- The call `s.substr(pos)` for `pos ≤ s.size()`. -/
def substr (s : Str) (pos : Nat) : Str := s.drop pos

/-- Decimal digits of `n`, most significant first, pushed in front of `acc`. -/
def digitsAux : Nat → Nat → Str → Str
  | 0, _, acc => acc
  | fuel + 1, n, acc =>
    let acc := Char.ofNat (48 + n % 10) :: acc
    if n / 10 = 0 then acc else digitsAux fuel (n / 10) acc

/-- The decimal numeral of `n` (what `%d` prints). -/
def natDigits (n : Nat) : Str := digitsAux (n + 1) n []

/-- A natural number below `10 ^ 6` written with exactly six decimal digits. -/
def sixDigits (n : Nat) : Str :=
  let ds := natDigits n
  List.replicate (6 - ds.length) '0' ++ ds

/-- The magnitude `|q| * 10 ^ 6` rounded to the nearest integer, ties to even. -/
def roundMicro (q : ℚ) : Nat :=
  let n := q.num.natAbs * 10 ^ 6
  let f := n / q.den
  let r := n % q.den
  if 2 * r < q.den then f
  else if q.den < 2 * r then f + 1
  else if f % 2 = 0 then f else f + 1

/-- The call `std::to_string(float)`, i.e. `printf("%f")`: sign, integer part, point and six
fractional digits. -/
def to_string (q : ℚ) : Str :=
  let m := roundMicro q
  (if q < 0 then ['-'] else []) ++ natDigits (m / 10 ^ 6) ++ ['.'] ++ sixDigits (m % 10 ^ 6)

/-! ## File operations issued by the publish step -/

/-- A file operation, with the outcome the environment gave it. -/
inductive IoEvent
  /-- The constructor `std::ofstream file(path)`; `isOpen` is what `file.is_open()` returns. -/
  | ofstreamOpen (path : Str) (isOpen : Bool)
  /-- The insertion `file << text`. -/
  | write (path : Str) (text : Str)
  /-- The call `file.close()`. -/
  | close (path : Str)
  /-- The call `std::rename(src, dst)`; `ok` tells whether it returned 0. -/
  | rename (src dst : Str) (ok : Bool)
  deriving DecidableEq

/-- What the environment answers to the file operations of one call. -/
structure Env where
  /-- Whether opening the temporary file succeeds. -/
  openOk : Bool
  /-- Whether `std::rename` succeeds. -/
  renameOk : Bool
  deriving DecidableEq

/-- The temporary path of the snapshot. -/
def tmpPath : Str := "/tmp/molten-adaptive-colors.json.tmp".toList

/-- The canonical path of the snapshot. -/
def finalPath : Str := "/tmp/molten-adaptive-colors.json".toList

/-- The tail of `reportLuminance` under the comment "Write atomically". -/
def writeAtomically (env : Env) (json : Str) : List IoEvent :=
  if env.openOk then
    [IoEvent.ofstreamOpen tmpPath true, IoEvent.write tmpPath json, IoEvent.close tmpPath,
      IoEvent.rename tmpPath finalPath env.renameOk]
  else
    [IoEvent.ofstreamOpen tmpPath false]

/-- The fixed marker a window title has to start with. -/
def marker : Str := "molten-glass-".toList

/-- The text appended to `json` for one region once `isDark` is known
(the five `json +=` statements that close the loop body in both variants). -/
def entryJson (name : Str) (lum : ℚ) (isDark : Bool) : Str :=
  let json : Str := []
  let json := json ++ ("\"".toList ++ name ++ "\":\x7b".toList)
  let json := json ++ ("\"luminance\":".toList ++ to_string lum ++ ",".toList)
  let json := json ++ ("\"isDark\":".toList ++ (if isDark then "true" else "false").toList
    ++ ",".toList)
  let json := json ++ ("\"textColor\":\"".toList
    ++ (if isDark then "#ffffff" else "#000000").toList ++ "\",".toList)
  let json := json ++ ("\"iconColor\":\"".toList
    ++ (if isDark then "#ffffff" else "#000000").toList ++ "\"".toList)
  json ++ "\x7d".toList

namespace plugins

/-- The constant `DARK_THRESHOLD = 0.45f`. -/
def DARK_THRESHOLD : ℚ := 45 / 100

/-- The constant `LIGHT_THRESHOLD = 0.55f`. -/
def LIGHT_THRESHOLD : ℚ := 55 / 100

/-- The file-scope statics of `src/plugins/.../LiquidGlassDecoration.cpp`. -/
structure Globals where
  g_luminanceData : UMap ℚ
  g_isDarkState : UMap Bool
  g_luminanceWriteCounter : Int
  deriving DecidableEq

/-- The statics at process start. -/
def Globals.init : Globals := ⟨[], [], 0⟩

/-- The block "Apply hysteresis": the new `isDark` from `currentIsDark` and `lum`. -/
def hysteresis (currentIsDark : Bool) (lum : ℚ) : Bool :=
  if currentIsDark && decide (lum > LIGHT_THRESHOLD) then false
  else if !currentIsDark && decide (lum < DARK_THRESHOLD) then true
  else currentIsDark

/-- The expression `g_isDarkState.count(name) ? g_isDarkState[name] : true`. -/
def currentIsDark (isDarkState : UMap Bool) (name : Str) : Bool :=
  if UMap.count isDarkState name then (UMap.find isDarkState name).getD true else true

/-- The variables the "Build JSON" loop reads and writes. -/
structure JsonLoop where
  json : Str
  first : Bool
  g_isDarkState : UMap Bool
  deriving DecidableEq

/-- One iteration of `for (const auto& [name, lum] : g_luminanceData)`. -/
def jsonLoopBody (st : JsonLoop) (e : Str × ℚ) : JsonLoop :=
  let name := e.1
  let lum := e.2
  let json := if !st.first then st.json ++ ",".toList else st.json
  let cur := currentIsDark st.g_isDarkState name
  let isDark := hysteresis cur lum
  { json := json ++ entryJson name lum isDark
    first := false
    g_isDarkState := UMap.assign st.g_isDarkState name isDark }

/-- The section "Build JSON": returns the loop variables after `json += "}"`. -/
def buildJson (luminanceData : UMap ℚ) (isDarkState : UMap Bool) : JsonLoop :=
  let st := luminanceData.foldl jsonLoopBody ⟨"\x7b".toList, true, isDarkState⟩
  { st with json := st.json ++ "\x7d".toList }

/-- The function `CLiquidGlassDecoration::reportLuminance` of `src/plugins`: the statics after
the call and the file operations it issued. -/
def reportLuminance (env : Env) (windowTitle : Str) (luminance : ℚ) (g : Globals) :
    Globals × List IoEvent :=
  if strFind windowTitle marker = 0 then
    let region := substr windowTitle 13
    let data := UMap.assign g.g_luminanceData region luminance
    let counter := g.g_luminanceWriteCounter + 1
    if counter < 15 then
      ({ g with g_luminanceData := data, g_luminanceWriteCounter := counter }, [])
    else
      let st := buildJson data g.g_isDarkState
      ({ g_luminanceData := data, g_isDarkState := st.g_isDarkState,
         g_luminanceWriteCounter := 0 }, writeAtomically env st.json)
  else
    (g, [])

/-- A sequence of `reportLuminance` calls, oldest first: the statics after the last one. -/
def runReports (env : Env) (calls : List (Str × ℚ)) (g : Globals) : Globals :=
  calls.foldl (fun s c => (reportLuminance env c.1 c.2 s).1) g

end plugins

namespace effects

/-- The file-scope statics of `src/effects/.../LiquidGlassDecoration.cpp`. -/
structure Globals where
  g_luminanceData : UMap ℚ
  g_luminanceWriteCounter : Int
  deriving DecidableEq

/-- The statics at process start. -/
def Globals.init : Globals := ⟨[], 0⟩

/-- The variables the "Build JSON" loop reads and writes. -/
structure JsonLoop where
  json : Str
  first : Bool
  deriving DecidableEq

/-- One iteration of `for (const auto& [name, lum] : g_luminanceData)`. -/
def jsonLoopBody (st : JsonLoop) (e : Str × ℚ) : JsonLoop :=
  let name := e.1
  let lum := e.2
  let json := if !st.first then st.json ++ ",".toList else st.json
  let isDark := decide (lum < 5 / 10)
  { json := json ++ entryJson name lum isDark
    first := false }

/-- The section "Build JSON": the text after `json += "}"`. -/
def buildJson (luminanceData : UMap ℚ) : Str :=
  let st := luminanceData.foldl jsonLoopBody ⟨"\x7b".toList, true⟩
  st.json ++ "\x7d".toList

/-- The function `CLiquidGlassDecoration::reportLuminance` of `src/effects`: the statics after
the call and the file operations it issued. -/
def reportLuminance (env : Env) (windowTitle : Str) (luminance : ℚ) (g : Globals) :
    Globals × List IoEvent :=
  if strFind windowTitle marker = 0 then
    let region := substr windowTitle 13
    let data := UMap.assign g.g_luminanceData region luminance
    let counter := g.g_luminanceWriteCounter + 1
    if counter < 5 then
      ({ g_luminanceData := data, g_luminanceWriteCounter := counter }, [])
    else
      ({ g_luminanceData := data, g_luminanceWriteCounter := 0 },
        writeAtomically env (buildJson data))
  else
    (g, [])

/-- A sequence of `reportLuminance` calls, oldest first: the statics after the last one. -/
def runReports (env : Env) (calls : List (Str × ℚ)) (g : Globals) : Globals :=
  calls.foldl (fun s c => (reportLuminance env c.1 c.2 s).1) g

end effects

/-! ## Well-formedness of JSON text (the grammar of RFC 8259) -/

namespace Json

/-- Drop leading JSON white space. -/
def skipWs : Str → Str
  | [] => []
  | c :: cs => if c = ' ' ∨ c = '\t' ∨ c = '\n' ∨ c = '\r' then skipWs cs else c :: cs

/-- Whether `c` is a hexadecimal digit. -/
def isHexDigit (c : Char) : Bool :=
  ('0' ≤ c ∧ c ≤ '9') ∨ ('a' ≤ c ∧ c ≤ 'f') ∨ ('A' ≤ c ∧ c ≤ 'F')

/-- The rest of the input after a string body and its closing quote; the opening quote has
been consumed. `fuel` bounds the number of characters read. -/
def stringBody : Nat → Str → Option Str
  | 0, _ => none
  | _ + 1, [] => none
  | fuel + 1, c :: cs =>
    if c = '\"' then some cs
    else if c = '\\' then
      match cs with
      | [] => none
      | e :: r =>
        if e = 'u' then
          match r with
          | h1 :: h2 :: h3 :: h4 :: r4 =>
            if isHexDigit h1 && isHexDigit h2 && isHexDigit h3 && isHexDigit h4 then
              stringBody fuel r4
            else none
          | _ => none
        else if e ∈ ['\"', '\\', '/', 'b', 'f', 'n', 'r', 't'] then stringBody fuel r
        else none
    else if c.toNat < 32 then none
    else stringBody fuel cs

/-- Drop leading decimal digits. -/
def skipDigits : Str → Str
  | [] => []
  | c :: cs => if c.isDigit then skipDigits cs else c :: cs

/-- The rest of the input after one or more decimal digits. -/
def digits1 : Str → Option Str
  | [] => none
  | c :: cs => if c.isDigit then some (skipDigits cs) else none

/-- The rest of the input after the optional fraction and exponent of a number. -/
def fracExp (s : Str) : Option Str :=
  let afterFrac : Option Str :=
    match s with
    | '.' :: r => digits1 r
    | _ => some s
  match afterFrac with
  | none => none
  | some t =>
    match t with
    | 'e' :: '+' :: r => digits1 r
    | 'e' :: '-' :: r => digits1 r
    | 'e' :: r => digits1 r
    | 'E' :: '+' :: r => digits1 r
    | 'E' :: '-' :: r => digits1 r
    | 'E' :: r => digits1 r
    | _ => some t

/-- The rest of the input after a number. -/
def number (s : Str) : Option Str :=
  let body : Str := match s with
    | '-' :: r => r
    | _ => s
  match body with
  | '0' :: r => fracExp r
  | c :: r => if c.isDigit then fracExp (skipDigits r) else none
  | [] => none

mutual

/-- The rest of the input after one JSON value (no leading white space). -/
def value : Nat → Str → Option Str
  | 0, _ => none
  | fuel + 1, s =>
    match s with
    | '\x7b' :: r =>
      match skipWs r with
      | '\x7d' :: r1 => some r1
      | r1 => members fuel r1
    | '[' :: r =>
      match skipWs r with
      | ']' :: r1 => some r1
      | r1 => elements fuel r1
    | '\"' :: r => stringBody r.length r
    | 't' :: 'r' :: 'u' :: 'e' :: r => some r
    | 'f' :: 'a' :: 'l' :: 's' :: 'e' :: r => some r
    | 'n' :: 'u' :: 'l' :: 'l' :: r => some r
    | _ => number s

/-- The rest of the input after the members of an object and its closing brace. -/
def members : Nat → Str → Option Str
  | 0, _ => none
  | fuel + 1, s =>
    match skipWs s with
    | '\"' :: r =>
      match stringBody r.length r with
      | none => none
      | some r1 =>
        match skipWs r1 with
        | ':' :: r2 =>
          match value fuel (skipWs r2) with
          | none => none
          | some r3 =>
            match skipWs r3 with
            | ',' :: r4 => members fuel r4
            | '\x7d' :: r4 => some r4
            | _ => none
        | _ => none
    | _ => none

/-- The rest of the input after the elements of an array and its closing bracket. -/
def elements : Nat → Str → Option Str
  | 0, _ => none
  | fuel + 1, s =>
    match value fuel (skipWs s) with
    | none => none
    | some r =>
      match skipWs r with
      | ',' :: r1 => elements fuel r1
      | ']' :: r1 => some r1
      | _ => none

end

/-- Whether `s` is a well-formed JSON text: one value surrounded by optional white space. -/
def isJson (s : Str) : Bool :=
  match value (s.length + 1) (skipWs s) with
  | some r => skipWs r == []
  | none => false

end Json

/-! ## Reference definitions used to state the properties -/

/-- The entries `es` written one after the other, each preceded by a comma. -/
def commaBefore (es : List Str) : Str := (es.map (fun e => ",".toList ++ e)).flatten

/-- The hysteresis rule in the words of the specification (section 4.4): from dark a
luminance above 0.55 flips to light, from light a luminance below 0.45 flips to dark,
otherwise the state stays. -/
def specIsDark (prev : Bool) (lum : ℚ) : Bool :=
  if prev = true ∧ lum > 55 / 100 then false
  else if prev = false ∧ lum < 45 / 100 then true
  else prev

/-- One region's entry as the published-snapshot contract of the specification (section 6)
spells it: the `luminance` decimal, `isDark` as the literal `true` or `false`, and both
colours `#ffffff` when dark, `#000000` when light. -/
def specEntry (name : Str) (lum : ℚ) (isDark : Bool) : Str :=
  if isDark then
    "\"".toList ++ name ++ "\":\x7b\"luminance\":".toList ++ to_string lum
      ++ ",\"isDark\":true,\"textColor\":\"#ffffff\",\"iconColor\":\"#ffffff\"\x7d".toList
  else
    "\"".toList ++ name ++ "\":\x7b\"luminance\":".toList ++ to_string lum
      ++ ",\"isDark\":false,\"textColor\":\"#000000\",\"iconColor\":\"#000000\"\x7d".toList

/-- The title of a surface whose region key holds a double quote. -/
def quoteTitle : Str := "molten-glass-a\"b".toList

/-- The title of a surface with the plain region key "ab". -/
def plainTitle : Str := "molten-glass-ab".toList

/-- The part of a region's entry that follows its `luminance` field. -/
def entryRest (isDark : Bool) : Str :=
  if isDark then "\"isDark\":true,\"textColor\":\"#ffffff\",\"iconColor\":\"#ffffff\"\x7d".toList
  else "\"isDark\":false,\"textColor\":\"#000000\",\"iconColor\":\"#000000\"\x7d".toList

/-- The number of calls in `calls` whose title carries the marker (the counted calls). -/
def countedCalls (calls : List (Str × ℚ)) : Nat :=
  calls.countP (fun c => decide (marker <+: c.1))

/-- The title of the surface of region "notch". -/
def notchTitle : Str := "molten-glass-notch".toList

/-- The region key "notch". -/
def notch : Str := "notch".toList

/-- The entry texts the `src/effects` loop emits for the table `data`. -/
def effectsEntriesOf (data : UMap ℚ) : List Str :=
  data.map (fun e => entryJson e.1 e.2 (decide (e.2 < 5 / 10)))

namespace plugins

/-- The entry texts the loop emits for the table `data` when the states before the loop
are `s`. -/
def entriesOf (data : UMap ℚ) (s : UMap Bool) : List Str :=
  data.map (fun e => entryJson e.1 e.2 (hysteresis (currentIsDark s e.1) e.2))

end plugins

/-! ## File-system meaning of the file operations -/

/-- A file system: the content of every existing path. -/
abbrev FileSystem := UMap Str

namespace UMap

/-- The map without any binding of `k` (`m.erase(k)`). -/
def erase {V : Type} : UMap V → Str → UMap V
  | [], _ => []
  | (k', v) :: rest, k => if k' = k then erase rest k else (k', v) :: erase rest k

end UMap

/-- The file system once the file operation `e` has completed. Opening with `std::ofstream`
creates or truncates the file, and a successful `std::rename` moves the content of `src`
over `dst` in one step. Of the text of an insertion `file << text` the first `stored`
characters reach the file: the whole text when `stored` is at least its length, a proper
prefix when the stream fails before (a full disk, an I/O error); the code looks neither at
the state of the stream after `<<` nor at the outcome of `close()`. -/
def fsApply (stored : Nat) (fs : FileSystem) : IoEvent → FileSystem
  | IoEvent.ofstreamOpen path true => UMap.assign fs path []
  | IoEvent.ofstreamOpen _ false => fs
  | IoEvent.write path text =>
    UMap.assign fs path ((UMap.find fs path).getD [] ++ text.take stored)
  | IoEvent.close _ => fs
  | IoEvent.rename src dst true =>
    match UMap.find fs src with
    | some content => UMap.assign (UMap.erase fs src) dst content
    | none => fs
  | IoEvent.rename _ _ false => fs

/-- The file systems another process can observe while the operation `e` is in progress: the
stored part of the text of a write reaches the file prefix by prefix, every other operation
is a single step. -/
def fsDuring (stored : Nat) (fs : FileSystem) : IoEvent → List FileSystem
  | IoEvent.write path text =>
    (text.take stored).inits.map (fun p => UMap.assign fs path ((UMap.find fs path).getD [] ++ p))
  | _ => []

/-- Every file system observable from `fs` on while the operations `es` run, in order. -/
def fsTrace (stored : Nat) (fs : FileSystem) : List IoEvent → List FileSystem
  | [] => [fs]
  | e :: es => fs :: (fsDuring stored fs e ++ fsTrace stored (fsApply stored fs e) es)

/-- The file system after all the operations `es`. -/
def fsRun (stored : Nat) (fs : FileSystem) (es : List IoEvent) : FileSystem :=
  es.foldl (fsApply stored) fs

/-- The snapshot text of the first publish of a process whose only region is "notch" at
luminance 0.6. -/
def notchSnapshot : Str :=
  "\x7b\"notch\":\x7b\"luminance\":0.600000,\"isDark\":false,".toList
    ++ "\"textColor\":\"#000000\",\"iconColor\":\"#000000\"\x7d\x7d".toList

/-! ## The graphics surface of the host

`CBox`, `CFramebuffer` and the OpenGL entry points belong to the host. They are modelled by
the interface the plugin uses: the calls a function issues are returned as a list of
`GlCall`s in program order, and `glApply` gives the effect of a call on the framebuffer
bindings. A `double` is a rational number and an `int` an integer; conversions that C++
applies implicitly are written out with `toInt`. -/

/-- A box of the host (`CBox`): position and size, as `double`s. -/
structure CBox where
  x : ℚ
  y : ℚ
  width : ℚ
  height : ℚ
  deriving DecidableEq

/-- The conversion of a `double` to `int` (`static_cast<int>` or an `int` parameter):
truncation toward zero. -/
def toInt (q : ℚ) : Int := if 0 ≤ q then ⌊q⌋ else ⌈q⌉

/-- The RGBA bytes `glReadPixels` stores for one pixel. -/
structure Pixel where
  r : Fin 256
  g : Fin 256
  b : Fin 256
  a : Fin 256
  deriving DecidableEq

/-- The binding points of `glBindFramebuffer`. -/
inductive FbTarget
  | GL_FRAMEBUFFER
  | GL_READ_FRAMEBUFFER
  | GL_DRAW_FRAMEBUFFER
  deriving DecidableEq

/-- A call to the graphics surface. -/
inductive GlCall
  /-- The call `fb.alloc(w, h, drmFormat)` on a capture buffer. -/
  | fbAlloc (w h : Int) (drmFormat : Nat)
  /-- The call `glBindFramebuffer(target, fb)`. -/
  | bindFramebuffer (target : FbTarget) (fb : Nat)
  /-- The call `glBlitFramebuffer(srcX0, srcY0, srcX1, srcY1, dstX0, dstY0, dstX1, dstY1,
  GL_COLOR_BUFFER_BIT, GL_LINEAR)`. -/
  | blitFramebuffer (srcX0 srcY0 srcX1 srcY1 dstX0 dstY0 dstX1 dstY1 : Int)
  /-- The call `glReadPixels(x, y, 1, 1, GL_RGBA, GL_UNSIGNED_BYTE, pixel)`. -/
  | readPixels (x y : Int)
  /-- The call `glGetIntegerv(GL_FRAMEBUFFER_BINDING, &prevFB)`. -/
  | getFramebufferBinding
  /-- The call `glActiveTexture(GL_TEXTURE0)`. -/
  | activeTexture
  /-- The call `tex->bind()`. -/
  | bindTexture (tex : Nat)
  /-- The call `glEnable(GL_BLEND)`. -/
  | enableBlend
  /-- The call `glBlendFunc(GL_SRC_ALPHA, GL_ONE_MINUS_SRC_ALPHA)`. -/
  | blendFunc
  /-- The call `useProgram(shader.program)`. -/
  | useProgram
  /-- A uniform of the shader set to `values`. -/
  | uniform (name : Str) (values : List ℚ)
  /-- The call `glBindVertexArray`. -/
  | bindVertexArray
  /-- The call `scissor(box)`; `none` stands for `scissor(nullptr)`. -/
  | scissor (box : Option CBox)
  /-- The call `glDrawArrays(GL_TRIANGLE_STRIP, 0, 4)`. -/
  | drawArrays
  deriving DecidableEq

/-- The framebuffer bindings of the GL context. -/
structure GlBindings where
  readFramebuffer : Nat
  drawFramebuffer : Nat
  deriving DecidableEq

/-- The effect of one call on the framebuffer bindings: `GL_FRAMEBUFFER` sets both binding
points, the two other targets one each; no other call of the plugin rebinds a framebuffer. -/
def glApply (s : GlBindings) : GlCall → GlBindings
  | GlCall.bindFramebuffer FbTarget.GL_FRAMEBUFFER fb => ⟨fb, fb⟩
  | GlCall.bindFramebuffer FbTarget.GL_READ_FRAMEBUFFER fb => { s with readFramebuffer := fb }
  | GlCall.bindFramebuffer FbTarget.GL_DRAW_FRAMEBUFFER fb => { s with drawFramebuffer := fb }
  | _ => s

/-- The framebuffer bindings after the calls `cs`. -/
def glRun (s : GlBindings) (cs : List GlCall) : GlBindings := cs.foldl glApply s

/-- A framebuffer of the host (`CFramebuffer`), as far as the plugin looks at it. -/
structure CFramebuffer where
  /-- The stored size `m_size` (a `Vector2D` of `double`s). -/
  m_size : ℚ × ℚ
  /-- The pixel format `m_drmFormat`. -/
  m_drmFormat : Nat
  /-- What `isAllocated()` returns. -/
  allocated : Bool
  /-- What `getFBID()` returns. -/
  fbID : Nat
  /-- What `getTexture()` returns; `none` is the null handle. -/
  tex : Option Nat
  deriving DecidableEq

/-- A default-constructed framebuffer: never allocated, size 0 x 0. -/
def CFramebuffer.fresh : CFramebuffer := ⟨(0, 0), 0, false, 0, none⟩

/-- The call `fb.alloc(w, h, drmFormat)`; `ok` tells whether the host could allocate. On
success the buffer is allocated with stored size `(w, h)` and the requested format, on
failure it is left unallocated. -/
def CFramebuffer.alloc (fb : CFramebuffer) (w h : Int) (drmFormat : Nat) (ok : Bool) :
    CFramebuffer :=
  if ok then
    { fb with m_size := ((w : ℚ), (h : ℚ)), m_drmFormat := drmFormat, allocated := true,
              tex := some (fb.tex.getD fb.fbID) }
  else
    { fb with allocated := false }

namespace plugins

/-- The data members of a `CLiquidGlassDecoration` (`LiquidGlassDecoration.hpp`) that the
render path mutates; the weak window reference is resolved by the host at each frame. -/
structure Decoration where
  m_sampleFB : CFramebuffer
  m_lastLuminance : ℚ
  m_luminanceUpdateCounter : Int
  deriving DecidableEq

/-- A newly constructed decoration: `m_lastLuminance = 0.5f`,
`m_luminanceUpdateCounter = 0`. -/
def Decoration.fresh : Decoration := ⟨CFramebuffer.fresh, 5 / 10, 0⟩

/-- The relative luminance `0.2126f * r + 0.7152f * g + 0.0722f * b` of a pixel, with
`r = pixel[0] / 255.0f` and so on. -/
def relativeLuminance (pixel : Pixel) : ℚ :=
  let r : ℚ := (pixel.r.val : ℚ) / 255
  let g : ℚ := (pixel.g.val : ℚ) / 255
  let b : ℚ := (pixel.b.val : ℚ) / 255
  2126 / 10000 * r + 7152 / 10000 * g + 722 / 10000 * b

/-- The accumulators of the sampling loops of `calculateLuminance`, and the calls issued. -/
structure SampleAcc where
  totalLuminance : ℚ
  sampleCount : Int
  calls : List GlCall

/-- The body of the inner sampling loop at `(x, y)`. -/
def sampleStep (readPixel : Int → Int → Pixel) (acc : SampleAcc) (x y : Int) : SampleAcc :=
  let pixel := readPixel x y
  let luminance := relativeLuminance pixel
  { totalLuminance := acc.totalLuminance + luminance
    sampleCount := acc.sampleCount + 1
    calls := acc.calls ++ [GlCall.readPixels x y] }

/-- The loop `for (int x = ...; x < width; x += stepX)` from the value `x` on; `fuel` bounds
the number of iterations. -/
def sampleRow (readPixel : Int → Int → Pixel) (width stepX y : Int) :
    Nat → Int → SampleAcc → SampleAcc
  | 0, _, acc => acc
  | fuel + 1, x, acc =>
    if x < width then
      sampleRow readPixel width stepX y fuel (x + stepX) (sampleStep readPixel acc x y)
    else acc

/-- The loop `for (int y = ...; y < height; y += stepY)` from the value `y` on; `fuel` bounds
the number of iterations. -/
def sampleRows (readPixel : Int → Int → Pixel) (width height stepX stepY : Int) :
    Nat → Int → SampleAcc → SampleAcc
  | 0, _, acc => acc
  | fuel + 1, y, acc =>
    if y < height then
      sampleRows readPixel width height stepX stepY fuel (y + stepY)
        (sampleRow readPixel width stepX y width.toNat 0 acc)
    else acc

/-- The function `CLiquidGlassDecoration::calculateLuminance`: the decoration after the call,
the value returned and the calls issued. `readPixel` is the content of the capture buffer.
The loops get `width` and `height` iterations of fuel; as the steps are at least 16 they
leave by their own condition. Divisions are between positive integers. -/
def calculateLuminance (readPixel : Int → Int → Pixel) (box : CBox) (d : Decoration) :
    Decoration × ℚ × List GlCall :=
  let counter := d.m_luminanceUpdateCounter + 1
  if counter < 10 then
    ({ d with m_luminanceUpdateCounter := counter }, d.m_lastLuminance, [])
  else
    let d := { d with m_luminanceUpdateCounter := 0 }
    let width := toInt box.width
    let height := toInt box.height
    if width ≤ 0 ∨ height ≤ 0 then
      (d, d.m_lastLuminance, [])
    else
      let stepX := max 16 (width / 8)
      let stepY := max 16 (height / 8)
      let acc := sampleRows readPixel width height stepX stepY height.toNat 0
        ⟨0, 0, [GlCall.bindFramebuffer FbTarget.GL_READ_FRAMEBUFFER d.m_sampleFB.fbID]⟩
      let d := if acc.sampleCount > 0 then
          { d with m_lastLuminance := acc.totalLuminance / (acc.sampleCount : ℚ) }
        else d
      (d, d.m_lastLuminance, acc.calls)

/-- A sequence of `calculateLuminance` calls, oldest first: the decoration after the last
one. -/
def runCalculate (calls : List ((Int → Int → Pixel) × CBox)) (d : Decoration) : Decoration :=
  calls.foldl (fun s c => (calculateLuminance c.1 c.2 s).1) d

end plugins

/-! ## Sampling, compositing and the render pass -/

namespace plugins

/-- The function `CLiquidGlassDecoration::sampleBackground` of `src/plugins`: the decoration
after the call and the calls issued. `allocOk` tells whether the host can allocate. -/
def sampleBackground (allocOk : Bool) (sourceFB : CFramebuffer) (box : CBox) (d : Decoration) :
    Decoration × List GlCall :=
  if box.width ≤ 0 ∨ box.height ≤ 0 then
    (d, [])
  else
    let resize : Bool :=
      decide (d.m_sampleFB.m_size.1 ≠ box.width ∨ d.m_sampleFB.m_size.2 ≠ box.height)
    let fb := if resize then
        d.m_sampleFB.alloc (toInt box.width) (toInt box.height) sourceFB.m_drmFormat allocOk
      else d.m_sampleFB
    let calls := if resize then
        [GlCall.fbAlloc (toInt box.width) (toInt box.height) sourceFB.m_drmFormat]
      else []
    if !fb.allocated then
      ({ d with m_sampleFB := fb }, calls)
    else
      let x0 := toInt box.x
      let x1 := toInt (box.x + box.width)
      let y0 := toInt box.y
      let y1 := toInt (box.y + box.height)
      ({ d with m_sampleFB := fb },
        calls ++ [GlCall.bindFramebuffer FbTarget.GL_READ_FRAMEBUFFER sourceFB.fbID,
          GlCall.bindFramebuffer FbTarget.GL_DRAW_FRAMEBUFFER fb.fbID,
          GlCall.blitFramebuffer x0 y0 x1 y1 0 0 (toInt box.width) (toInt box.height),
          GlCall.bindFramebuffer FbTarget.GL_FRAMEBUFFER sourceFB.fbID])

/-- The values of the configuration keys `plugin:liquid-glass:*`. -/
structure Config where
  enabled : Bool
  blur_strength : ℚ
  refraction_strength : ℚ
  chromatic_aberration : ℚ
  fresnel_strength : ℚ
  specular_strength : ℚ
  glass_opacity : ℚ
  edge_thickness : ℚ

/-- The function `CLiquidGlassDecoration::applyLiquidGlassEffect`: the calls issued. `time` is
the clock reading minus `startTime`, `rounding` the corner radius of the window when the weak
reference still resolves; the entries of the projection matrix are left out. -/
def applyLiquidGlassEffect (cfg : Config) (time : ℚ) (rounding : Option ℚ)
    (sourceFB targetFB : CFramebuffer) (rawBox transformedBox : CBox) (windowAlpha : ℚ) :
    List GlCall :=
  if !sourceFB.allocated ∨ !targetFB.allocated then []
  else
    match sourceFB.tex with
    | none => []
    | some tex =>
      [GlCall.bindFramebuffer FbTarget.GL_FRAMEBUFFER targetFB.fbID,
        GlCall.activeTexture,
        GlCall.bindTexture tex,
        GlCall.enableBlend,
        GlCall.blendFunc,
        GlCall.useProgram,
        GlCall.uniform "proj".toList [],
        GlCall.uniform "tex".toList [0],
        GlCall.uniform "topLeft".toList [transformedBox.x, transformedBox.y],
        GlCall.uniform "fullSize".toList [transformedBox.width, transformedBox.height],
        GlCall.uniform "time".toList [time],
        GlCall.uniform "blurStrength".toList [cfg.blur_strength],
        GlCall.uniform "refractionStrength".toList [cfg.refraction_strength],
        GlCall.uniform "chromaticAberration".toList [cfg.chromatic_aberration],
        GlCall.uniform "fresnelStrength".toList [cfg.fresnel_strength],
        GlCall.uniform "specularStrength".toList [cfg.specular_strength],
        GlCall.uniform "glassOpacity".toList [cfg.glass_opacity * windowAlpha],
        GlCall.uniform "edgeThickness".toList [cfg.edge_thickness],
        GlCall.uniform "fullSizeUntransformed".toList [rawBox.width, rawBox.height],
        GlCall.uniform "radius".toList [rounding.getD 0],
        GlCall.bindVertexArray,
        GlCall.scissor (some rawBox),
        GlCall.drawArrays,
        GlCall.scissor none]

/-- What `renderPass` reads of the owning window. -/
structure Window where
  m_title : Str
  rounding : ℚ

/-- What one frame hands to `renderPass`: the window the weak reference resolves to (if it
still does), the current framebuffer of the host, the boxes computed from the window and the
monitor with the host's box operations (`wlrbox` and `transformBox`), the content the capture
buffer shows to `glReadPixels`, and the answers of the environment. -/
structure Frame where
  window : Option Window
  currentFB : Option CFramebuffer
  wlrbox : CBox
  transformBox : CBox
  readPixel : Int → Int → Pixel
  allocOk : Bool
  env : Env
  cfg : Config
  time : ℚ

/-- What `renderPass` leaves behind: the decoration, the statics, and the calls and file
operations issued. -/
structure PassResult where
  deco : Decoration
  globals : Globals
  calls : List GlCall
  fileOps : List IoEvent

/-- The function `CLiquidGlassDecoration::renderPass` of `src/plugins`, from the computed
boxes on. -/
def renderPass (f : Frame) (a : ℚ) (d : Decoration) (g : Globals) : PassResult :=
  match f.window with
  | none => ⟨d, g, [], []⟩
  | some window =>
    match f.currentFB with
    | none => ⟨d, g, [], []⟩
    | some target =>
      if !target.allocated then ⟨d, g, [], []⟩
      else
        let sampled := sampleBackground f.allocOk target f.transformBox d
        let computed := calculateLuminance f.readPixel f.transformBox sampled.1
        let reported := reportLuminance f.env window.m_title computed.2.1 g
        let drawn := applyLiquidGlassEffect f.cfg f.time (some window.rounding)
          computed.1.m_sampleFB target f.wlrbox f.transformBox a
        ⟨computed.1, reported.1, sampled.2 ++ computed.2.2 ++ drawn, reported.2⟩

end plugins

namespace LayerEffect

/-- The static `s_sampleFramebuffers` of `CLiquidGlassLayerEffect`: the capture buffer of
each layer surface that has one; surfaces are named by numbers. -/
structure LayerState where
  s_sampleFramebuffers : Nat → Option CFramebuffer

/-- The capture buffer the map holds for `layerSurface`, an absent entry read as a
default-constructed buffer. -/
def LayerState.buffer (st : LayerState) (layerSurface : Nat) : CFramebuffer :=
  (st.s_sampleFramebuffers layerSurface).getD CFramebuffer.fresh

/-- The assignment `s_sampleFramebuffers[layerSurface] = fb`. -/
def LayerState.store (st : LayerState) (layerSurface : Nat) (fb : CFramebuffer) : LayerState :=
  ⟨fun k => if k = layerSurface then some fb else st.s_sampleFramebuffers k⟩

/-- The function `CLiquidGlassLayerEffect::getOrCreateSampleFB`: `operator[]` inserts a
default-constructed buffer when the surface has none. -/
def getOrCreateSampleFB (st : LayerState) (layerSurface : Nat) : LayerState × CFramebuffer :=
  (st.store layerSurface (st.buffer layerSurface), st.buffer layerSurface)

/-- The function `CLiquidGlassLayerEffect::sampleBackground`
(`src/effects/.../LiquidGlassLayerSurface.cpp`): the static after the call and the calls
issued. `layerSurface` is `none` for a null handle, `hasGlobalState` tells whether
`g_pGlobalState` is set, `currentFB` is the current framebuffer of the host and `gl` the
framebuffer bindings at the call. -/
def sampleBackground (allocOk hasGlobalState : Bool) (currentFB : Option CFramebuffer)
    (gl : GlBindings) (layerSurface : Option Nat) (box : CBox) (st : LayerState) :
    LayerState × List GlCall :=
  match layerSurface with
  | none => (st, [])
  | some ls =>
    if !hasGlobalState then (st, [])
    else
      let created := getOrCreateSampleFB st ls
      let st := created.1
      let sampleFB := created.2
      match currentFB with
      | none => (st, [])
      | some current =>
        if !current.allocated then (st, [])
        else if box.width ≤ 0 ∨ box.height ≤ 0 then (st, [])
        else
          let fbWidth := toInt box.width
          let fbHeight := toInt box.height
          let resize : Bool := !sampleFB.allocated
            || decide (sampleFB.m_size.1 ≠ (fbWidth : ℚ))
            || decide (sampleFB.m_size.2 ≠ (fbHeight : ℚ))
          let fb := if resize then sampleFB.alloc fbWidth fbHeight current.m_drmFormat allocOk
            else sampleFB
          let calls := if resize then [GlCall.fbAlloc fbWidth fbHeight current.m_drmFormat]
            else []
          if resize && !fb.allocated then (st.store ls fb, calls)
          else
            let x0 := max 0 (toInt box.x)
            let x1 := toInt (box.x + box.width)
            let y0 := max 0 (toInt box.y)
            let y1 := toInt (box.y + box.height)
            let prevFB := gl.drawFramebuffer
            (st.store ls fb,
              calls ++ [GlCall.getFramebufferBinding,
                GlCall.bindFramebuffer FbTarget.GL_READ_FRAMEBUFFER current.fbID,
                GlCall.bindFramebuffer FbTarget.GL_DRAW_FRAMEBUFFER fb.fbID,
                GlCall.blitFramebuffer x0 y0 x1 y1 0 0 fbWidth fbHeight,
                GlCall.bindFramebuffer FbTarget.GL_FRAMEBUFFER prevFB])

end LayerEffect

/-! ## Reference definitions for the luminance estimator -/

/-- The values the variable of a loop `for (int v = ...; v < limit; v += step)` takes from
`v` on, within `fuel` iterations. -/
def loopPoints (limit step : Int) : Nat → Int → List Int
  | 0, _ => []
  | fuel + 1, v => if v < limit then v :: loopPoints limit step fuel (v + step) else []

/-- The sampling positions along one axis in the words of the specification: the multiples
`0, step, 2 * step, ...` that lie below `dim`. -/
def specGrid (dim step : Int) : List Int :=
  ((List.range dim.toNat).map (fun (i : Nat) => (i : Int) * step)).filter (fun v => decide (v < dim))

/-- The number of pixel read-backs among the calls `cs`. -/
def readbacks (cs : List GlCall) : Nat :=
  cs.countP (fun c => match c with
    | GlCall.readPixels _ _ => true
    | _ => false)

/-- The calls issued by each of a sequence of `calculateLuminance` calls, oldest first. -/
def calcLogs : List ((Int → Int → Pixel) × CBox) → plugins.Decoration → List (List GlCall)
  | [], _ => []
  | c :: cs, d =>
    (plugins.calculateLuminance c.1 c.2 d).2.2 :: calcLogs cs (plugins.calculateLuminance c.1 c.2 d).1

/-- The number of blits among the calls `cs`. -/
def blits (cs : List GlCall) : Nat :=
  cs.countP (fun c => match c with
    | GlCall.blitFramebuffer _ _ _ _ _ _ _ _ => true
    | _ => false)

/-- The allocation requests `(w, h, drmFormat)` among the calls `cs`, in order. -/
def allocRequests (cs : List GlCall) : List (Int × Int × Nat) :=
  cs.filterMap (fun c => match c with
    | GlCall.fbAlloc w h f => some (w, h, f)
    | _ => none)

/-- The number of draw calls among the calls `cs`. -/
def draws (cs : List GlCall) : Nat :=
  cs.countP (fun c => match c with
    | GlCall.drawArrays => true
    | _ => false)

/-- An allocated 1920 x 1080 framebuffer with id 3, standing for the current framebuffer of
the host. -/
def screenFB : CFramebuffer := ⟨(1920, 1080), 1, true, 3, some 30⟩

/-- A capture buffer allocated by an earlier frame for a 100 x 50 box. -/
def captureFB : CFramebuffer := ⟨(100, 50), 1, true, 5, some 50⟩

/-- A configuration with the effect enabled. -/
def sampleConfig : plugins.Config := ⟨true, 1, 1, 1, 1, 1, 1, 1⟩

/-- A frame for the window titled `molten-glass-notch` whose computed boxes have width 0. -/
def zeroWidthFrame : plugins.Frame :=
  { window := some ⟨notchTitle, 8⟩
    currentFB := some screenFB
    wlrbox := ⟨10, 20, 0, 50⟩
    transformBox := ⟨10, 20, 0, 50⟩
    readPixel := fun _ _ => ⟨0, 0, 0, 255⟩
    allocOk := true
    env := ⟨true, true⟩
    cfg := sampleConfig
    time := 0 }

/-! ## The draw entry point, the pass element and damage -/

namespace plugins

/-- The data of a pass element (`SLiquidGlassData`): the decoration pointer, `none` for a null
pointer and otherwise the identity of the decoration, and the alpha. -/
structure PassElement where
  deco : Option Nat
  a : ℚ
  deriving DecidableEq

/-- The function `CLiquidGlassDecoration::draw`: the pass elements it adds to the render pass
of the host. `self` is the identity of the decoration (`this`). -/
def draw (cfg : Config) (self : Nat) (a : ℚ) : List PassElement :=
  if !cfg.enabled then []
  else [⟨some self, a⟩]

/-- The function `CLiquidGlassPassElement::draw`, with `d` the decoration the pointer refers
to. -/
def PassElement.draw (pe : PassElement) (f : Frame) (d : Decoration) (g : Globals) :
    PassResult :=
  match pe.deco with
  | none => ⟨d, g, [], []⟩
  | some _ => renderPass f pe.a d g

/-- One draw opportunity for a decoration: `draw` queues its pass elements, then the render
pass of the host runs each queued element, in order. -/
def drawFrame (f : Frame) (self : Nat) (a : ℚ) (d : Decoration) (g : Globals) : PassResult :=
  (draw f.cfg self a).foldl
    (fun r pe =>
      let next := pe.draw f r.deco r.globals
      ⟨next.deco, next.globals, r.calls ++ next.calls, r.fileOps ++ next.fileOps⟩)
    ⟨d, g, [], []⟩

/-- The render offset `m_renderOffset` of a workspace. -/
structure Workspace where
  renderOffset : ℚ × ℚ
  isBeingAnimated : Bool
  deriving DecidableEq

/-- What `damageEntire` and `boundingBox` read of the owning window. -/
structure WindowGeometry where
  m_workspace : Option Workspace
  mainSurfaceBox : CBox
  m_pinned : Bool
  m_floatingOffset : ℚ × ℚ
  deriving DecidableEq

/-- The call `box.translate(vec)`. -/
def translate (box : CBox) (vec : ℚ × ℚ) : CBox :=
  { box with x := box.x + vec.1, y := box.y + vec.2 }

/-- The function `CLiquidGlassDecoration::damageEntire`: the boxes handed to `damageBox`.
`owner` is what the weak window reference resolves to. -/
def damageEntire (owner : Option WindowGeometry) : List CBox :=
  match owner with
  | none => []
  | some PWINDOW =>
    let surfaceBox := PWINDOW.mainSurfaceBox
    let surfaceBox :=
      match PWINDOW.m_workspace with
      | some ws =>
        if ws.isBeingAnimated && !PWINDOW.m_pinned then translate surfaceBox ws.renderOffset
        else surfaceBox
      | none => surfaceBox
    [translate surfaceBox PWINDOW.m_floatingOffset]

/-- The function `CLiquidGlassDecoration::updateWindow`. -/
def updateWindow (owner : Option WindowGeometry) : List CBox := damageEntire owner

/-- The function `CLiquidGlassPassElement::boundingBox`; `owner` is what `getOwner()` of the
decoration returns. -/
def PassElement.boundingBox (pe : PassElement) (owner : Option WindowGeometry) : Option CBox :=
  match pe.deco with
  | none => none
  | some _ =>
    match owner with
    | none => none
    | some PWINDOW =>
      let surfaceBox := PWINDOW.mainSurfaceBox
      let surfaceBox :=
        match PWINDOW.m_workspace with
        | some ws =>
          if ws.isBeingAnimated && !PWINDOW.m_pinned then translate surfaceBox ws.renderOffset
          else surfaceBox
        | none => surfaceBox
      some (translate surfaceBox PWINDOW.m_floatingOffset)

end plugins

/-! ## Attaching and detaching decorations (`src/effects/.../main.cpp`) -/

/-- A window decoration alive on the host: its identity, the window that owns it and what
`getDisplayName()` returns. Windows are named by numbers. -/
structure DecoObject where
  ident : Nat
  owner : Nat
  displayName : Str
  deriving DecidableEq

/-- The state the window callbacks work on: the decorations alive on the windows of the host
(`m_windowDecorations` of all windows, each decoration owned by its window), the tracking list
`g_pGlobalState->decorations` of weak pointers, held as identities, and the identity the next
created decoration gets. -/
structure PluginWorld where
  objects : List DecoObject
  decorations : List Nat
  nextId : Nat
  deriving DecidableEq

/-- The list `PWINDOW->m_windowDecorations`. -/
def PluginWorld.windowDecorations (world : PluginWorld) (PWINDOW : Nat) : List DecoObject :=
  world.objects.filter (fun o => o.owner == PWINDOW)

/-- The call `deco.lock()` on a tracked weak pointer: `none` once the decoration is gone. -/
def PluginWorld.lock (world : PluginWorld) (deco : Nat) : Option DecoObject :=
  world.objects.find? (fun o => o.ident == deco)

/-- The value `getDisplayName()` returns for a `CLiquidGlassDecoration`. -/
def liquidGlassName : Str := "LiquidGlass".toList

/-- The callback `onNewWindow`; the host accepts the decoration (`addWindowDecoration` puts it
last among the decorations of a mapped window). -/
def onNewWindow (PWINDOW : Nat) (world : PluginWorld) : PluginWorld :=
  if (world.windowDecorations PWINDOW).any (fun d => d.displayName == liquidGlassName) then
    world
  else
    let deco : DecoObject := ⟨world.nextId, PWINDOW, liquidGlassName⟩
    { objects := world.objects ++ [deco]
      decorations := world.decorations ++ [deco.ident]
      nextId := world.nextId + 1 }

/-- The callback `onCloseWindow`. -/
def onCloseWindow (PWINDOW : Nat) (world : PluginWorld) : PluginWorld :=
  { world with
    decorations := world.decorations.filter (fun deco =>
      !(match world.lock deco with
        | none => true
        | some locked => locked.owner == PWINDOW)) }

/-- A sequence of `openWindow` notifications, oldest first. -/
def attachAll (windows : List Nat) (world : PluginWorld) : PluginWorld :=
  windows.foldl (fun w PWINDOW => onNewWindow PWINDOW w) world

/-- The number of decorations named "LiquidGlass" that the window carries. -/
def liquidGlassCount (world : PluginWorld) (PWINDOW : Nat) : Nat :=
  ((world.windowDecorations PWINDOW).filter (fun d => d.displayName == liquidGlassName)).length

/-- The number of entries of the tracking list that resolve to a decoration owned by the
window. -/
def trackedCount (world : PluginWorld) (PWINDOW : Nat) : Nat :=
  (world.decorations.filter (fun deco =>
    match world.lock deco with
    | none => false
    | some locked => locked.owner == PWINDOW)).length

/-- The identities in use are below `nextId`, and for every window the tracked decorations it
owns are as many as the "LiquidGlass" decorations it carries, at most one. -/
def PluginWorld.consistent (world : PluginWorld) : Prop :=
  (∀ o ∈ world.objects, o.ident < world.nextId) ∧
  (∀ deco ∈ world.decorations, deco < world.nextId) ∧
  ∀ PWINDOW, trackedCount world PWINDOW = liquidGlassCount world PWINDOW ∧
    liquidGlassCount world PWINDOW ≤ 1

/-- The state at plugin start on a host without windows. -/
def PluginWorld.init : PluginWorld := ⟨[], [], 0⟩

/-- A frame for the window titled `molten-glass-notch` with a 100 x 50 box, the window still
resolving. -/
def liveFrame : plugins.Frame :=
  { window := some ⟨notchTitle, 8⟩
    currentFB := some screenFB
    wlrbox := ⟨10, 20, 100, 50⟩
    transformBox := ⟨10, 20, 100, 50⟩
    readPixel := fun _ _ => ⟨0, 0, 0, 255⟩
    allocOk := true
    env := ⟨true, true⟩
    cfg := sampleConfig
    time := 0 }

/-! ## Namespace patterns of the layer effect -/

namespace LayerEffect

/-- What goes wrong in a `std::string` operation outside its precondition. -/
inductive StrFault where
  /-- The call `back()` on an empty string (undefined behaviour). -/
  | backOfEmpty
  /-- The call `front()` on an empty string (undefined behaviour). -/
  | frontOfEmpty
  /-- The call `substr(pos, ...)` with `pos > size()` (throws `std::out_of_range`). -/
  | outOfRange
  deriving DecidableEq

/-- The call `s.back()`. -/
def back (s : Str) : Except StrFault Char :=
  match s.getLast? with
  | some c => .ok c
  | none => .error StrFault.backOfEmpty

/-- The call `s.front()`. -/
def front (s : Str) : Except StrFault Char :=
  match s.head? with
  | some c => .ok c
  | none => .error StrFault.frontOfEmpty

/-- The call `s.substr(pos, n)`: at most `n` characters from `pos` on. -/
def substrLen (s : Str) (pos n : Nat) : Except StrFault Str :=
  if pos ≤ s.length then .ok ((s.drop pos).take n) else .error StrFault.outOfRange

/-- The call `s.substr(pos)`. -/
def substrFrom (s : Str) (pos : Nat) : Except StrFault Str :=
  if pos ≤ s.length then .ok (s.drop pos) else .error StrFault.outOfRange

/-- The second test of the loop body of `matchesPattern` (`pattern.back() == '*'`): whether it
returns `true`. -/
def prefixTest (pattern ns : Str) : Except StrFault Bool :=
  match back pattern with
  | .error e => .error e
  | .ok last =>
    if last = '*' then
      match substrLen pattern 0 (pattern.length - 1) with
      | .error e => .error e
      | .ok pre =>
        match substrLen ns 0 pre.length with
        | .error e => .error e
        | .ok start => .ok (decide (start = pre))
    else .ok false

/-- The third test of the loop body of `matchesPattern` (`pattern.front() == '*'`): whether it
returns `true`. -/
def suffixTest (pattern ns : Str) : Except StrFault Bool :=
  match front pattern with
  | .error e => .error e
  | .ok first =>
    if first = '*' then
      match substrFrom pattern 1 with
      | .error e => .error e
      | .ok suffix =>
        if suffix.length ≤ ns.length then
          match substrFrom ns (ns.length - suffix.length) with
          | .error e => .error e
          | .ok ending => .ok (decide (ending = suffix))
        else .ok false
    else .ok false

/-- The loop body of `matchesPattern` for one pattern: whether it returns `true`. -/
def matchOne (pattern ns : Str) : Except StrFault Bool :=
  if pattern = ns then .ok true
  else
    match prefixTest pattern ns with
    | .error e => .error e
    | .ok true => .ok true
    | .ok false => suffixTest pattern ns

/-- The function `CLiquidGlassLayerEffect::matchesPattern`; the list holds the set
`s_namespacePatterns` in its iteration order. -/
def matchesPattern : List Str → Str → Except StrFault Bool
  | [], _ => .ok false
  | pattern :: rest, ns =>
    match matchOne pattern ns with
    | .error e => .error e
    | .ok true => .ok true
    | .ok false => matchesPattern rest ns

/-- The function `CLiquidGlassLayerEffect::addNamespacePattern`: insertion into the set. -/
def addNamespacePattern (patterns : List Str) (pattern : Str) : List Str :=
  if pattern ∈ patterns then patterns else patterns ++ [pattern]

/-- The function `CLiquidGlassLayerEffect::shouldApplyEffect`; `layerSurface` is the namespace
of the surface, `none` for a null handle. -/
def shouldApplyEffect (enabled : Bool) (patterns : List Str) (layerSurface : Option Str) :
    Except StrFault Bool :=
  match layerSurface with
  | none => .ok false
  | some m_namespace =>
    if !enabled then .ok false
    else matchesPattern patterns m_namespace

end LayerEffect

/-- The three ways a pattern `p` matches a namespace `ns` in the words of the specification:
equality, a trailing `*` over a prefix, a leading `*` over a suffix. -/
def specMatches (p ns : Str) : Prop :=
  p = ns ∨ (p.getLast? = some '*' ∧ p.dropLast <+: ns) ∨ (p.head? = some '*' ∧ p.tail <:+ ns)

/-- The sizes `samplesX` and `samplesY` of `calculateLuminance`:
`(dim + step - 1) / step`. -/
def samplesAlong (dim step : Int) : Int := (dim + step - 1) / step

/-! ## Lemmas on maps -/

namespace UMap

theorem find_nil {V : Type} (k : Str) : find ([] : UMap V) k = none := rfl

theorem find_cons_self {V : Type} (m : UMap V) (k : Str) (v : V) :
    find ((k, v) :: m) k = some v := by
  simp only [find, if_true]

theorem find_cons_ne {V : Type} (m : UMap V) (k k0 : Str) (v : V) (h : k0 ≠ k) :
    find ((k0, v) :: m) k = find m k := by
  simp only [find, h, if_false]

theorem keys_nil {V : Type} : keys ([] : UMap V) = [] := rfl

theorem keys_cons {V : Type} (m : UMap V) (k : Str) (v : V) :
    keys ((k, v) :: m) = k :: keys m := rfl

theorem assign_nil {V : Type} (k : Str) (v : V) : assign ([] : UMap V) k v = [(k, v)] := rfl

theorem assign_cons_self {V : Type} (m : UMap V) (k : Str) (v v0 : V) :
    assign ((k, v0) :: m) k v = (k, v) :: m := by
  simp only [assign, if_true]

theorem assign_cons_ne {V : Type} (m : UMap V) (k k0 : Str) (v v0 : V) (h : k0 ≠ k) :
    assign ((k0, v0) :: m) k v = (k0, v0) :: assign m k v := by
  simp only [assign, h, if_false]

theorem find_assign_self {V : Type} (m : UMap V) (k : Str) (v : V) :
    find (assign m k v) k = some v := by
  induction m with
  | nil => rw [assign_nil, find_cons_self]
  | cons e rest ih =>
    obtain ⟨k0, v0⟩ := e
    by_cases h : k0 = k
    · subst h
      rw [assign_cons_self, find_cons_self]
    · rw [assign_cons_ne _ _ _ _ _ h, find_cons_ne _ _ _ _ h, ih]

theorem find_assign_ne {V : Type} (m : UMap V) (k k1 : Str) (v : V) (h : k1 ≠ k) :
    find (assign m k v) k1 = find m k1 := by
  induction m with
  | nil => rw [assign_nil, find_cons_ne _ _ _ _ (Ne.symm h)]
  | cons e rest ih =>
    obtain ⟨k0, v0⟩ := e
    by_cases h0 : k0 = k
    · subst h0
      rw [assign_cons_self, find_cons_ne _ _ _ _ (Ne.symm h), find_cons_ne _ _ _ _ (Ne.symm h)]
    · rw [assign_cons_ne _ _ _ _ _ h0]
      by_cases h1 : k0 = k1
      · subst h1
        rw [find_cons_self, find_cons_self]
      · rw [find_cons_ne _ _ _ _ h1, find_cons_ne _ _ _ _ h1, ih]

theorem find_eq_none_iff {V : Type} (m : UMap V) (k : Str) :
    find m k = none ↔ k ∉ keys m := by
  induction m with
  | nil => simp only [find_nil, keys_nil, List.not_mem_nil, not_false_eq_true]
  | cons e rest ih =>
    obtain ⟨k0, v0⟩ := e
    by_cases h : k0 = k
    · subst h
      simp only [find_cons_self, keys_cons, List.mem_cons, true_or, not_true_eq_false,
        reduceCtorEq]
    · rw [find_cons_ne _ _ _ _ h, keys_cons, ih]
      simp only [List.mem_cons, not_or, Ne.symm h, not_false_eq_true, true_and, ne_eq]

theorem mem_keys_of_mem {V : Type} (m : UMap V) (k : Str) (v : V) (h : (k, v) ∈ m) :
    k ∈ keys m := by
  induction m with
  | nil => exact absurd h (List.not_mem_nil _)
  | cons e rest ih =>
    obtain ⟨k0, v0⟩ := e
    rw [keys_cons]
    rcases List.mem_cons.mp h with h1 | h1
    · have hk : k = k0 := congrArg Prod.fst h1
      rw [hk]
      exact List.mem_cons_self _ _
    · exact List.mem_cons_of_mem _ (ih h1)

theorem find_of_mem {V : Type} (m : UMap V) (k : Str) (v : V) (hn : (keys m).Nodup)
    (h : (k, v) ∈ m) : find m k = some v := by
  induction m with
  | nil => exact absurd h (List.not_mem_nil _)
  | cons e rest ih =>
    obtain ⟨k0, v0⟩ := e
    rw [keys_cons] at hn
    have hn1 := List.nodup_cons.mp hn
    rcases List.mem_cons.mp h with h1 | h1
    · have hk : k = k0 := congrArg Prod.fst h1
      have hv : v = v0 := congrArg Prod.snd h1
      rw [hk, hv, find_cons_self]
    · have hk : k0 ≠ k := by
        intro hk
        apply hn1.1
        rw [hk]
        exact mem_keys_of_mem rest k v h1
      rw [find_cons_ne _ _ _ _ hk, ih hn1.2 h1]

theorem mem_of_find {V : Type} (m : UMap V) (k : Str) (v : V) (h : find m k = some v) :
    (k, v) ∈ m := by
  induction m with
  | nil => rw [find_nil] at h; exact absurd h (by simp)
  | cons e rest ih =>
    obtain ⟨k0, v0⟩ := e
    by_cases hk : k0 = k
    · subst hk
      rw [find_cons_self] at h
      have hv : v0 = v := Option.some.inj h
      rw [hv]
      exact List.mem_cons_self _ _
    · rw [find_cons_ne _ _ _ _ hk] at h
      exact List.mem_cons_of_mem _ (ih h)

theorem keys_assign {V : Type} (m : UMap V) (k : Str) (v : V) :
    keys (assign m k v) = if k ∈ keys m then keys m else keys m ++ [k] := by
  induction m with
  | nil => simp only [assign_nil, keys_cons, keys_nil, List.not_mem_nil, if_false, List.nil_append]
  | cons e rest ih =>
    obtain ⟨k0, v0⟩ := e
    by_cases h : k0 = k
    · subst h
      rw [assign_cons_self, keys_cons, keys_cons, if_pos (List.mem_cons_self _ _)]
    · rw [assign_cons_ne _ _ _ _ _ h, keys_cons, keys_cons, ih]
      by_cases hm : k ∈ keys rest
      · rw [if_pos hm, if_pos (List.mem_cons_of_mem _ hm)]
      · have hm1 : k ∉ k0 :: keys rest := by
          intro h1
          rcases List.mem_cons.mp h1 with h2 | h2
          · exact h h2.symm
          · exact hm h2
        rw [if_neg hm, if_neg hm1, List.cons_append]

theorem nodup_keys_assign {V : Type} (m : UMap V) (k : Str) (v : V) (hn : (keys m).Nodup) :
    (keys (assign m k v)).Nodup := by
  rw [keys_assign]
  by_cases h : k ∈ keys m
  · rw [if_pos h]; exact hn
  · rw [if_neg h]
    refine List.Nodup.append hn (List.nodup_singleton k) ?_
    intro x hx hx1
    rw [List.mem_singleton] at hx1
    exact h (hx1 ▸ hx)

end UMap

/-! ## Lemmas on the title test and on joining entries -/

theorem findFrom_ne_zero (pat s : Str) (pos : Nat) (h : 0 < pos) : findFrom pat s pos ≠ 0 := by
  induction s generalizing pos with
  | nil =>
    unfold findFrom
    split
    · exact Nat.pos_iff_ne_zero.mp h
    · decide
  | cons c cs ih =>
    unfold findFrom
    split
    · exact Nat.pos_iff_ne_zero.mp h
    · exact ih (pos + 1) (Nat.succ_pos pos)

theorem strFind_eq_zero_iff (s pat : Str) : strFind s pat = 0 ↔ pat <+: s := by
  unfold strFind
  cases s with
  | nil =>
    unfold findFrom
    by_cases hp : pat = []
    · simp only [hp, if_true, List.prefix_nil]
    · simp only [hp, if_false, List.prefix_nil, iff_false]
      decide
  | cons c cs =>
    unfold findFrom
    by_cases hp : pat.isPrefixOf (c :: cs) = true
    · simp only [hp, if_true, true_iff]
      exact List.isPrefixOf_iff_prefix.mp hp
    · simp only [hp, if_false]
      constructor
      · intro h0
        exact absurd h0 (findFrom_ne_zero pat cs 1 Nat.one_pos)
      · intro hpre
        exact absurd (List.isPrefixOf_iff_prefix.mpr hpre) hp

theorem strFind_marker_append (k : Str) : strFind (marker ++ k) marker = 0 :=
  (strFind_eq_zero_iff _ _).mpr (List.prefix_append marker k)

theorem substr_marker_append (k : Str) : substr (marker ++ k) 13 = k := by
  unfold substr
  exact List.drop_left' (by decide)

theorem intercalate_cons (sep e : Str) (es : List Str) :
    List.intercalate sep (e :: es) = e ++ (es.map (fun x => sep ++ x)).flatten := by
  induction es generalizing e with
  | nil => simp [List.intercalate]
  | cons e1 rest ih =>
    have h := ih e1
    simp only [List.intercalate, List.intersperse_cons₂, List.flatten_cons, List.map_cons,
      List.append_assoc] at h ⊢
    rw [h]

/-! ## The "Build JSON" loop of `src/plugins` -/

namespace plugins

theorem currentIsDark_eq (s : UMap Bool) (name : Str) :
    currentIsDark s name = (UMap.find s name).getD true := by
  unfold currentIsDark UMap.count
  cases UMap.find s name <;> rfl

theorem currentIsDark_assign_self (s : UMap Bool) (name : Str) (d : Bool) :
    currentIsDark (UMap.assign s name d) name = d := by
  rw [currentIsDark_eq, UMap.find_assign_self]
  rfl

theorem currentIsDark_assign_ne (s : UMap Bool) (name k : Str) (d : Bool) (h : k ≠ name) :
    currentIsDark (UMap.assign s name d) k = currentIsDark s k := by
  rw [currentIsDark_eq, currentIsDark_eq, UMap.find_assign_ne _ _ _ _ h]

theorem entriesOf_assign (rest : UMap ℚ) (s : UMap Bool) (name : Str) (d : Bool)
    (h : name ∉ UMap.keys rest) :
    entriesOf rest (UMap.assign s name d) = entriesOf rest s := by
  unfold entriesOf
  apply List.map_congr_left
  intro x hx
  have hne : x.1 ≠ name := by
    intro h1
    apply h
    rw [← h1]
    exact UMap.mem_keys_of_mem rest x.1 x.2 hx
  rw [currentIsDark_assign_ne _ _ _ _ hne]

theorem foldl_json (l : UMap ℚ) (st : JsonLoop) (hn : (UMap.keys l).Nodup) :
    (l.foldl jsonLoopBody st).json
      = st.json ++ (if st.first then List.intercalate ",".toList (entriesOf l st.g_isDarkState)
          else commaBefore (entriesOf l st.g_isDarkState)) := by
  induction l generalizing st with
  | nil =>
    cases hf : st.first <;> simp [entriesOf, commaBefore, List.intercalate]
  | cons e rest ih =>
    obtain ⟨name, lum⟩ := e
    rw [UMap.keys_cons] at hn
    have hn1 := List.nodup_cons.mp hn
    rw [List.foldl_cons, ih _ hn1.2]
    have hes : entriesOf ((name, lum) :: rest) st.g_isDarkState
        = entryJson name lum (hysteresis (currentIsDark st.g_isDarkState name) lum)
          :: entriesOf rest st.g_isDarkState := rfl
    have hst : (jsonLoopBody st (name, lum)).g_isDarkState
        = UMap.assign st.g_isDarkState name
            (hysteresis (currentIsDark st.g_isDarkState name) lum) := rfl
    have hfirst : (jsonLoopBody st (name, lum)).first = false := rfl
    rw [hst, hfirst, entriesOf_assign _ _ _ _ hn1.1, hes]
    cases hf : st.first
    · have hj : (jsonLoopBody st (name, lum)).json = st.json ++ ",".toList
          ++ entryJson name lum (hysteresis (currentIsDark st.g_isDarkState name) lum) := by
        simp [jsonLoopBody, hf]
      rw [hj]
      simp [commaBefore]
    · have hj : (jsonLoopBody st (name, lum)).json = st.json
          ++ entryJson name lum (hysteresis (currentIsDark st.g_isDarkState name) lum) := by
        simp [jsonLoopBody, hf]
      rw [hj, intercalate_cons]
      simp [commaBefore]

theorem foldl_isDark (l : UMap ℚ) (st : JsonLoop) (hn : (UMap.keys l).Nodup) (name : Str) :
    UMap.find (l.foldl jsonLoopBody st).g_isDarkState name
      = match UMap.find l name with
        | some lum => some (hysteresis (currentIsDark st.g_isDarkState name) lum)
        | none => UMap.find st.g_isDarkState name := by
  induction l generalizing st with
  | nil => rfl
  | cons e rest ih =>
    obtain ⟨k, lum⟩ := e
    rw [UMap.keys_cons] at hn
    have hn1 := List.nodup_cons.mp hn
    rw [List.foldl_cons, ih _ hn1.2]
    have hst : (jsonLoopBody st (k, lum)).g_isDarkState
        = UMap.assign st.g_isDarkState k (hysteresis (currentIsDark st.g_isDarkState k) lum) :=
      rfl
    rw [hst]
    by_cases hk : k = name
    · subst hk
      rw [UMap.find_cons_self, (UMap.find_eq_none_iff rest k).mpr hn1.1]
      simp only [UMap.find_assign_self]
    · rw [UMap.find_cons_ne _ _ _ _ hk, currentIsDark_assign_ne _ _ _ _ (Ne.symm hk),
        UMap.find_assign_ne _ _ _ _ (Ne.symm hk)]

theorem buildJson_json (data : UMap ℚ) (s : UMap Bool) (hn : (UMap.keys data).Nodup) :
    (buildJson data s).json
      = "\x7b".toList ++ List.intercalate ",".toList (entriesOf data s) ++ "\x7d".toList := by
  unfold buildJson
  simp only []
  rw [foldl_json _ _ hn]
  simp

theorem buildJson_isDark (data : UMap ℚ) (s : UMap Bool) (hn : (UMap.keys data).Nodup)
    (name : Str) :
    UMap.find (buildJson data s).g_isDarkState name
      = match UMap.find data name with
        | some lum => some (hysteresis (currentIsDark s name) lum)
        | none => UMap.find s name := by
  unfold buildJson
  simp only []
  rw [foldl_isDark _ _ hn]

theorem reportLuminance_marker (env : Env) (k : Str) (lum : ℚ) (g : Globals) :
    reportLuminance env (marker ++ k) lum g
      = if g.g_luminanceWriteCounter + 1 < 15 then
          ({ g with g_luminanceData := UMap.assign g.g_luminanceData k lum,
                    g_luminanceWriteCounter := g.g_luminanceWriteCounter + 1 }, [])
        else
          ({ g_luminanceData := UMap.assign g.g_luminanceData k lum,
             g_isDarkState :=
               (buildJson (UMap.assign g.g_luminanceData k lum) g.g_isDarkState).g_isDarkState,
             g_luminanceWriteCounter := 0 },
           writeAtomically env
             (buildJson (UMap.assign g.g_luminanceData k lum) g.g_isDarkState).json) := by
  unfold reportLuminance
  simp only [strFind_marker_append, substr_marker_append, if_true]

theorem reportLuminance_of_not_marker (env : Env) (t : Str) (lum : ℚ) (g : Globals)
    (h : ¬ marker <+: t) : reportLuminance env t lum g = (g, []) := by
  unfold reportLuminance
  have h0 : ¬ strFind t marker = 0 := fun h0 => h ((strFind_eq_zero_iff _ _).mp h0)
  simp only [h0, if_false]

theorem reportLuminance_of_marker (env : Env) (t : Str) (lum : ℚ) (g : Globals)
    (h : marker <+: t) :
    reportLuminance env t lum g = reportLuminance env (marker ++ substr t 13) lum g := by
  obtain ⟨k, hk⟩ := h
  rw [← hk, substr_marker_append]

theorem hysteresis_eq_spec (c : Bool) (lum : ℚ) : hysteresis c lum = specIsDark c lum := by
  unfold hysteresis specIsDark LIGHT_THRESHOLD DARK_THRESHOLD
  cases c <;> simp

theorem hysteresis_dead_zone (c : Bool) (lum : ℚ) (h1 : 45 / 100 ≤ lum) (h2 : lum ≤ 55 / 100) :
    hysteresis c lum = c := by
  unfold hysteresis LIGHT_THRESHOLD DARK_THRESHOLD
  cases c
  · simp [not_lt.mpr h1]
  · simp [not_lt.mpr h2]

theorem hysteresis_dark_flip (lum : ℚ) (h : 55 / 100 < lum) : hysteresis true lum = false := by
  unfold hysteresis LIGHT_THRESHOLD
  simp [h]

theorem hysteresis_light_flip (lum : ℚ) (h : lum < 45 / 100) : hysteresis false lum = true := by
  unfold hysteresis DARK_THRESHOLD
  simp [h]

theorem entriesOf_eq_spec (data : UMap ℚ) (s : UMap Bool) :
    entriesOf data s
      = data.map (fun e => entryJson e.1 e.2 (specIsDark ((UMap.find s e.1).getD true) e.2)) := by
  unfold entriesOf
  apply List.map_congr_left
  intro x _
  rw [hysteresis_eq_spec, currentIsDark_eq]

theorem currentIsDark_buildJson (data : UMap ℚ) (s : UMap Bool) (hn : (UMap.keys data).Nodup)
    (name : Str) :
    currentIsDark (buildJson data s).g_isDarkState name
      = match UMap.find data name with
        | some lum => hysteresis (currentIsDark s name) lum
        | none => currentIsDark s name := by
  rw [currentIsDark_eq, buildJson_isDark _ _ hn]
  cases UMap.find data name with
  | none => simp only [currentIsDark_eq]
  | some lum => rfl

theorem reportLuminance_publish (env : Env) (k : Str) (lum : ℚ) (g : Globals)
    (hc : 15 ≤ g.g_luminanceWriteCounter + 1) :
    reportLuminance env (marker ++ k) lum g
      = ({ g_luminanceData := UMap.assign g.g_luminanceData k lum,
           g_isDarkState :=
             (buildJson (UMap.assign g.g_luminanceData k lum) g.g_isDarkState).g_isDarkState,
           g_luminanceWriteCounter := 0 },
         writeAtomically env
           (buildJson (UMap.assign g.g_luminanceData k lum) g.g_isDarkState).json) := by
  rw [reportLuminance_marker, if_neg (not_lt.mpr hc)]

theorem reportLuminance_quiet (env : Env) (k : Str) (lum : ℚ) (g : Globals)
    (hc : g.g_luminanceWriteCounter + 1 < 15) :
    reportLuminance env (marker ++ k) lum g
      = ({ g with g_luminanceData := UMap.assign g.g_luminanceData k lum,
                  g_luminanceWriteCounter := g.g_luminanceWriteCounter + 1 }, []) := by
  rw [reportLuminance_marker, if_pos hc]

end plugins

/-! ## The hysteresis pass: C1 to C3 -/

/-- C1: in the publish step of `src/plugins` `reportLuminance`, every region of the table
with stored luminance `lum` and previous state `prev` (dark when it has no stored state) gets
as new stored and published `isDark`: false if `prev` is dark and `lum > 0.55`, true if `prev`
is light and `lum < 0.45`, and `prev` otherwise. -/
theorem C1_publish_applies_hysteresis (env : Env) (k : Str) (luminance : ℚ)
    (g : plugins.Globals) (hn : (UMap.keys g.g_luminanceData).Nodup)
    (hc : 15 ≤ g.g_luminanceWriteCounter + 1) :
    (∀ name lum,
        UMap.find (plugins.reportLuminance env (marker ++ k) luminance g).1.g_luminanceData name
          = some lum →
        UMap.find (plugins.reportLuminance env (marker ++ k) luminance g).1.g_isDarkState name
          = some (specIsDark ((UMap.find g.g_isDarkState name).getD true) lum)) ∧
    (plugins.reportLuminance env (marker ++ k) luminance g).2
      = writeAtomically env ("\x7b".toList ++ List.intercalate ",".toList
          ((plugins.reportLuminance env (marker ++ k) luminance g).1.g_luminanceData.map
            (fun e => entryJson e.1 e.2
              (specIsDark ((UMap.find g.g_isDarkState e.1).getD true) e.2)))
          ++ "\x7d".toList) := by
  have hn1 := UMap.nodup_keys_assign g.g_luminanceData k luminance hn
  rw [plugins.reportLuminance_publish env k luminance g hc]
  refine ⟨?_, ?_⟩
  · intro name lum hfind
    simp only [] at hfind ⊢
    rw [plugins.buildJson_isDark _ _ hn1, hfind]
    simp only [plugins.hysteresis_eq_spec, plugins.currentIsDark_eq]
  · simp only []
    rw [plugins.buildJson_json _ _ hn1, plugins.entriesOf_eq_spec]

/-- Witness of C1: region "notch" stored dark, reported 0.6 on a publishing call. -/
theorem C1_publish_applies_hysteresis_witness :
    (UMap.keys (plugins.Globals.mk [(notch, 3 / 10)] [(notch, true)] 14).g_luminanceData).Nodup ∧
    15 ≤ (plugins.Globals.mk [(notch, 3 / 10)] [(notch, true)] 14).g_luminanceWriteCounter + 1 ∧
    UMap.find (plugins.reportLuminance ⟨true, true⟩ (marker ++ notch) (6 / 10)
        (plugins.Globals.mk [(notch, 3 / 10)] [(notch, true)] 14)).1.g_isDarkState notch
      = some (specIsDark ((UMap.find [(notch, true)] notch).getD true) (6 / 10)) :=
  ⟨by decide, by decide,
    (C1_publish_applies_hysteresis ⟨true, true⟩ notch (6 / 10)
      (plugins.Globals.mk [(notch, 3 / 10)] [(notch, true)] 14) (by decide) (by decide)).1
      notch (6 / 10) (by rfl)⟩

/-- C2 fails as stated: after the calls report(0.3), report(0.6) for the fresh region
"notch", neither of which publishes, the classified state of "notch" is still the default
dark, whereas one hysteresis pass of its previous state on 0.6 is light. -/
theorem C2_counterexample :
    plugins.currentIsDark
        (plugins.runReports ⟨true, true⟩ [(notchTitle, 3 / 10), (notchTitle, 6 / 10)]
          plugins.Globals.init).g_isDarkState notch = true ∧
    plugins.hysteresis
        (plugins.currentIsDark
          (plugins.runReports ⟨true, true⟩ [(notchTitle, 3 / 10)]
            plugins.Globals.init).g_isDarkState notch) (6 / 10) = false := by
  constructor <;> decide!

/-- C2 (amended): a report call that carries the marker brings the region's classified state
up to date only when it publishes: a call below the cadence leaves the whole `isDark` table
unchanged, and a publishing call leaves the region at one hysteresis pass of its previous
state (dark when unseen) on the reported luminance. A fresh region "notch" reported 0.3,
0.6, 0.5, 0.4 fifteen times each is dark, light, light, dark right after the respective
fifteenth calls. -/
theorem C2_state_updated_on_publish (env : Env) (k : Str) (luminance : ℚ)
    (g : plugins.Globals) (hn : (UMap.keys g.g_luminanceData).Nodup) :
    (g.g_luminanceWriteCounter + 1 < 15 →
      (plugins.reportLuminance env (marker ++ k) luminance g).1.g_isDarkState
        = g.g_isDarkState) ∧
    (15 ≤ g.g_luminanceWriteCounter + 1 →
      plugins.currentIsDark
          (plugins.reportLuminance env (marker ++ k) luminance g).1.g_isDarkState k
        = plugins.hysteresis (plugins.currentIsDark g.g_isDarkState k) luminance) ∧
    plugins.currentIsDark
        (plugins.runReports ⟨true, true⟩ (List.replicate 15 (notchTitle, 3 / 10))
          plugins.Globals.init).g_isDarkState notch = true ∧
    plugins.currentIsDark
        (plugins.runReports ⟨true, true⟩
          (List.replicate 15 (notchTitle, 3 / 10) ++ List.replicate 15 (notchTitle, 6 / 10))
          plugins.Globals.init).g_isDarkState notch = false ∧
    plugins.currentIsDark
        (plugins.runReports ⟨true, true⟩
          (List.replicate 15 (notchTitle, 3 / 10) ++ List.replicate 15 (notchTitle, 6 / 10)
            ++ List.replicate 15 (notchTitle, 5 / 10))
          plugins.Globals.init).g_isDarkState notch = false ∧
    plugins.currentIsDark
        (plugins.runReports ⟨true, true⟩
          (List.replicate 15 (notchTitle, 3 / 10) ++ List.replicate 15 (notchTitle, 6 / 10)
            ++ List.replicate 15 (notchTitle, 5 / 10) ++ List.replicate 15 (notchTitle, 4 / 10))
          plugins.Globals.init).g_isDarkState notch = true := by
  refine ⟨?_, ?_, by decide!, by decide!, by decide!, by decide!⟩
  · intro hc
    rw [plugins.reportLuminance_quiet env k luminance g hc]
  · intro hc
    rw [plugins.reportLuminance_publish env k luminance g hc]
    simp only []
    rw [plugins.currentIsDark_buildJson _ _ (UMap.nodup_keys_assign _ k luminance hn),
      UMap.find_assign_self]

/-- Witness of C2 (amended): a publishing and a non-publishing call on a table holding
"notch". -/
theorem C2_state_updated_on_publish_witness :
    (UMap.keys (plugins.Globals.mk [(notch, 3 / 10)] [] 14).g_luminanceData).Nodup ∧
    (15 ≤ (plugins.Globals.mk [(notch, 3 / 10)] [] 14).g_luminanceWriteCounter + 1) ∧
    plugins.currentIsDark
        (plugins.reportLuminance ⟨true, true⟩ (marker ++ notch) (6 / 10)
          (plugins.Globals.mk [(notch, 3 / 10)] [] 14)).1.g_isDarkState notch
      = plugins.hysteresis (plugins.currentIsDark [] notch) (6 / 10) :=
  ⟨by decide, by decide,
    (C2_state_updated_on_publish ⟨true, true⟩ notch (6 / 10)
      (plugins.Globals.mk [(notch, 3 / 10)] [] 14) (by decide)).2.1 (by decide)⟩

/-- C3: hysteresis passes whose luminance lies in the dead-zone [0.45, 0.55] never change a
region's state: over any sequence of publish passes in which the region's stored luminance
is in the dead-zone, and over any sequence of passes of the rule itself, from either state;
a dark region stays dark on values in (0.45, 0.55]; a value above 0.55 flips dark to light
and a following dead-zone value leaves it light; symmetrically a value below 0.45 flips
light to dark and a following dead-zone value leaves it dark. -/
theorem C3_dead_zone_stable :
    (∀ (name : Str) (s0 : UMap Bool) (tables : List (UMap ℚ)),
      (∀ t ∈ tables, (UMap.keys t).Nodup ∧
        ∀ lum, UMap.find t name = some lum → 45 / 100 ≤ lum ∧ lum ≤ 55 / 100) →
      plugins.currentIsDark
          (tables.foldl (fun s t => (plugins.buildJson t s).g_isDarkState) s0) name
        = plugins.currentIsDark s0 name) ∧
    (∀ (s : Bool) (lums : List ℚ), (∀ lum ∈ lums, 45 / 100 ≤ lum ∧ lum ≤ 55 / 100) →
      lums.foldl plugins.hysteresis s = s) ∧
    (∀ lums : List ℚ, (∀ lum ∈ lums, 45 / 100 < lum ∧ lum ≤ 55 / 100) →
      lums.foldl plugins.hysteresis true = true) ∧
    (∀ l1 l2 : ℚ, 55 / 100 < l1 → 45 / 100 ≤ l2 → l2 ≤ 55 / 100 →
      plugins.hysteresis true l1 = false ∧
      plugins.hysteresis (plugins.hysteresis true l1) l2 = false) ∧
    (∀ l1 l2 : ℚ, l1 < 45 / 100 → 45 / 100 ≤ l2 → l2 ≤ 55 / 100 →
      plugins.hysteresis false l1 = true ∧
      plugins.hysteresis (plugins.hysteresis false l1) l2 = true) := by
  have hfold : ∀ (lums : List ℚ) (s : Bool),
      (∀ lum ∈ lums, 45 / 100 ≤ lum ∧ lum ≤ 55 / 100) → lums.foldl plugins.hysteresis s = s := by
    intro lums
    induction lums with
    | nil => intro s _; rfl
    | cons l rest ih =>
      intro s h
      have hl := h l (List.mem_cons_self _ _)
      rw [List.foldl_cons, plugins.hysteresis_dead_zone s l hl.1 hl.2]
      exact ih s (fun x hx => h x (List.mem_cons_of_mem _ hx))
  refine ⟨?_, fun s lums h => hfold lums s h, ?_, ?_, ?_⟩
  · intro name s0 tables
    induction tables generalizing s0 with
    | nil => intro _; rfl
    | cons t rest ih =>
      intro h
      have ht := h t (List.mem_cons_self _ _)
      rw [List.foldl_cons, ih _ (fun x hx => h x (List.mem_cons_of_mem _ hx)),
        plugins.currentIsDark_buildJson _ _ ht.1]
      cases hf : UMap.find t name with
      | none => rfl
      | some lum =>
        have hl := ht.2 lum hf
        exact plugins.hysteresis_dead_zone _ lum hl.1 hl.2
  · intro lums h
    exact hfold lums true (fun x hx => ⟨le_of_lt (h x hx).1, (h x hx).2⟩)
  · intro l1 l2 h1 h2 h3
    rw [plugins.hysteresis_dark_flip l1 h1]
    exact ⟨rfl, plugins.hysteresis_dead_zone false l2 h2 h3⟩
  · intro l1 l2 h1 h2 h3
    rw [plugins.hysteresis_light_flip l1 h1]
    exact ⟨rfl, plugins.hysteresis_dead_zone true l2 h2 h3⟩

/-- Witness of C3: two publish passes holding "notch" at 0.5 and 0.45 from light, the passes
0.45, 0.5, 0.55 from light, the passes 0.5, 0.55 from dark, and a flip followed by 0.5 in
each direction. -/
theorem C3_dead_zone_stable_witness :
    plugins.currentIsDark
        ([[(notch, (1 / 2 : ℚ))], [(notch, 45 / 100), ("bar".toList, 9 / 10)]].foldl
          (fun s t => (plugins.buildJson t s).g_isDarkState) [(notch, false)]) notch
      = plugins.currentIsDark [(notch, false)] notch ∧
    [(45 / 100 : ℚ), 5 / 10, 55 / 100].foldl plugins.hysteresis false = false ∧
    [(5 / 10 : ℚ), 55 / 100].foldl plugins.hysteresis true = true ∧
    (plugins.hysteresis true (6 / 10) = false ∧
      plugins.hysteresis (plugins.hysteresis true (6 / 10)) (5 / 10) = false) ∧
    (plugins.hysteresis false (4 / 10) = true ∧
      plugins.hysteresis (plugins.hysteresis false (4 / 10)) (5 / 10) = true) :=
  ⟨C3_dead_zone_stable.1 notch [(notch, false)]
      [[(notch, 1 / 2)], [(notch, 45 / 100), ("bar".toList, 9 / 10)]] (by
      intro t ht
      simp only [List.mem_cons, List.mem_singleton, List.not_mem_nil, or_false] at ht
      rcases ht with h | h <;> subst h
      · refine ⟨by decide, ?_⟩
        intro lum hl
        rw [UMap.find_cons_self] at hl
        cases hl
        norm_num
      · refine ⟨by decide, ?_⟩
        intro lum hl
        rw [UMap.find_cons_self] at hl
        cases hl
        norm_num),
    C3_dead_zone_stable.2.1 false [45 / 100, 5 / 10, 55 / 100] (by
      intro lum h
      simp only [List.mem_cons, List.mem_singleton, List.not_mem_nil, or_false] at h
      rcases h with h | h | h <;> subst h <;> norm_num),
    C3_dead_zone_stable.2.2.1 [5 / 10, 55 / 100] (by
      intro lum h
      simp only [List.mem_cons, List.mem_singleton, List.not_mem_nil, or_false] at h
      rcases h with h | h <;> subst h <;> norm_num),
    C3_dead_zone_stable.2.2.2.1 (6 / 10) (5 / 10) (by norm_num) (by norm_num) (by norm_num),
    C3_dead_zone_stable.2.2.2.2 (4 / 10) (5 / 10) (by norm_num) (by norm_num) (by norm_num)⟩

/-! ## The `src/effects` variant -/

theorem effects_foldl_json (l : UMap ℚ) (st : effects.JsonLoop) :
    (l.foldl effects.jsonLoopBody st).json
      = st.json ++ (if st.first then List.intercalate ",".toList (effectsEntriesOf l)
          else commaBefore (effectsEntriesOf l)) := by
  induction l generalizing st with
  | nil =>
    cases hf : st.first <;> simp [effectsEntriesOf, commaBefore, List.intercalate]
  | cons e rest ih =>
    obtain ⟨name, lum⟩ := e
    rw [List.foldl_cons, ih]
    have hes : effectsEntriesOf ((name, lum) :: rest)
        = entryJson name lum (decide (lum < 5 / 10)) :: effectsEntriesOf rest := rfl
    have hfirst : (effects.jsonLoopBody st (name, lum)).first = false := rfl
    rw [hfirst, hes]
    cases hf : st.first
    · have hj : (effects.jsonLoopBody st (name, lum)).json = st.json ++ ",".toList
          ++ entryJson name lum (decide (lum < 5 / 10)) := by
        simp [effects.jsonLoopBody, hf]
      rw [hj]
      simp [commaBefore]
    · have hj : (effects.jsonLoopBody st (name, lum)).json = st.json
          ++ entryJson name lum (decide (lum < 5 / 10)) := by
        simp [effects.jsonLoopBody, hf]
      rw [hj, intercalate_cons]
      simp [commaBefore]

theorem effects_buildJson_eq (data : UMap ℚ) :
    effects.buildJson data
      = "\x7b".toList ++ List.intercalate ",".toList (effectsEntriesOf data)
          ++ "\x7d".toList := by
  unfold effects.buildJson
  simp only []
  rw [effects_foldl_json]
  simp

theorem effects_reportLuminance_marker (env : Env) (k : Str) (lum : ℚ) (g : effects.Globals) :
    effects.reportLuminance env (marker ++ k) lum g
      = if g.g_luminanceWriteCounter + 1 < 5 then
          ({ g_luminanceData := UMap.assign g.g_luminanceData k lum,
             g_luminanceWriteCounter := g.g_luminanceWriteCounter + 1 }, [])
        else
          ({ g_luminanceData := UMap.assign g.g_luminanceData k lum,
             g_luminanceWriteCounter := 0 },
           writeAtomically env (effects.buildJson (UMap.assign g.g_luminanceData k lum))) := by
  unfold effects.reportLuminance
  simp only [strFind_marker_append, substr_marker_append, if_true]

theorem effects_reportLuminance_of_not_marker (env : Env) (t : Str) (lum : ℚ)
    (g : effects.Globals) (h : ¬ marker <+: t) : effects.reportLuminance env t lum g = (g, []) := by
  unfold effects.reportLuminance
  have h0 : ¬ strFind t marker = 0 := fun h0 => h ((strFind_eq_zero_iff _ _).mp h0)
  simp only [h0, if_false]

/-! ## Independence of regions, the title marker and the cadence: C4 to C7 -/

theorem infix_intercalate_of_mem (sep e : Str) (es : List Str) (h : e ∈ es) :
    e <:+: List.intercalate sep es := by
  cases es with
  | nil => exact absurd h (List.not_mem_nil _)
  | cons x xs =>
    rw [intercalate_cons]
    rcases List.mem_cons.mp h with h1 | h1
    · rw [h1]
      exact (List.prefix_append _ _).isInfix
    · have hm : sep ++ e ∈ xs.map (fun y => sep ++ y) := List.mem_map_of_mem _ h1
      have h2 : sep ++ e <:+: (xs.map (fun y => sep ++ y)).flatten :=
        List.infix_of_mem_flatten hm
      have h3 : e <:+: sep ++ e := (List.suffix_append sep e).isInfix
      have h4 : (xs.map (fun y => sep ++ y)).flatten
          <:+: x ++ (xs.map (fun y => sep ++ y)).flatten :=
        (List.suffix_append _ _).isInfix
      exact (h3.trans h2).trans h4

theorem plugins_entry_infix_json (data : UMap ℚ) (s : UMap Bool) (hn : (UMap.keys data).Nodup)
    (r : Str) (lum : ℚ) (h : UMap.find data r = some lum) :
    entryJson r lum (plugins.hysteresis (plugins.currentIsDark s r) lum)
      <:+: (plugins.buildJson data s).json := by
  rw [plugins.buildJson_json _ _ hn]
  have hm : entryJson r lum (plugins.hysteresis (plugins.currentIsDark s r) lum)
      ∈ plugins.entriesOf data s := by
    unfold plugins.entriesOf
    exact List.mem_map_of_mem
      (fun e : Str × ℚ =>
        entryJson e.1 e.2 (plugins.hysteresis (plugins.currentIsDark s e.1) e.2))
      (UMap.mem_of_find data r lum h)
  exact (infix_intercalate_of_mem _ _ _ hm).trans (List.infix_append _ _ _)

/-- C4: the hysteresis pass is evaluated per region: two states of the process-wide tables
that agree on region `r`'s stored luminance and on `r`'s previous `isDark` state give `r` the
same stored `isDark` and the same published entry, whatever they hold for other regions. -/
theorem C4_pass_is_per_region (g1 g2 : plugins.Globals) (r : Str) (lum : ℚ)
    (hn1 : (UMap.keys g1.g_luminanceData).Nodup) (hn2 : (UMap.keys g2.g_luminanceData).Nodup)
    (hl1 : UMap.find g1.g_luminanceData r = some lum)
    (hl2 : UMap.find g2.g_luminanceData r = some lum)
    (hs : plugins.currentIsDark g1.g_isDarkState r = plugins.currentIsDark g2.g_isDarkState r) :
    ∃ d : Bool,
      UMap.find (plugins.buildJson g1.g_luminanceData g1.g_isDarkState).g_isDarkState r = some d ∧
      UMap.find (plugins.buildJson g2.g_luminanceData g2.g_isDarkState).g_isDarkState r = some d ∧
      entryJson r lum d <:+: (plugins.buildJson g1.g_luminanceData g1.g_isDarkState).json ∧
      entryJson r lum d <:+: (plugins.buildJson g2.g_luminanceData g2.g_isDarkState).json := by
  refine ⟨plugins.hysteresis (plugins.currentIsDark g1.g_isDarkState r) lum, ?_, ?_, ?_, ?_⟩
  · rw [plugins.buildJson_isDark _ _ hn1, hl1]
  · rw [plugins.buildJson_isDark _ _ hn2, hl2, hs]
  · exact plugins_entry_infix_json _ _ hn1 r lum hl1
  · rw [hs]
    exact plugins_entry_infix_json _ _ hn2 r lum hl2

/-- Witness of C4: two tables that agree on "notch" and differ on the region "bar". -/
theorem C4_pass_is_per_region_witness :
    ∃ d : Bool,
      UMap.find (plugins.buildJson [(notch, 6 / 10), ("bar".toList, 1 / 10)]
        [(notch, true)]).g_isDarkState notch = some d ∧
      UMap.find (plugins.buildJson [("bar".toList, 9 / 10), (notch, 6 / 10)]
        [("bar".toList, false)]).g_isDarkState notch = some d ∧
      entryJson notch (6 / 10) d <:+: (plugins.buildJson [(notch, 6 / 10), ("bar".toList, 1 / 10)]
        [(notch, true)]).json ∧
      entryJson notch (6 / 10) d <:+: (plugins.buildJson [("bar".toList, 9 / 10), (notch, 6 / 10)]
        [("bar".toList, false)]).json :=
  C4_pass_is_per_region
    (plugins.Globals.mk [(notch, 6 / 10), ("bar".toList, 1 / 10)] [(notch, true)] 0)
    (plugins.Globals.mk [("bar".toList, 9 / 10), (notch, 6 / 10)] [("bar".toList, false)] 7)
    notch (6 / 10) (by decide) (by decide) (by rfl) (by rfl) (by decide)

/-- C5: for every string `k`, the empty string included, and every luminance, the call
`reportLuminance("molten-glass-" ++ k, lum)` leaves the region table mapping `k` to `lum`
and every other key to what it was mapped to before (in both variants). -/
theorem C5_table_entry_updated (env : Env) (k : Str) (lum : ℚ) (g : plugins.Globals)
    (ge : effects.Globals) :
    (UMap.find (plugins.reportLuminance env ("molten-glass-".toList ++ k) lum g).1.g_luminanceData k
        = some lum ∧
      ∀ k1, k1 ≠ k →
        UMap.find (plugins.reportLuminance env ("molten-glass-".toList ++ k) lum g).1.g_luminanceData
          k1 = UMap.find g.g_luminanceData k1) ∧
    (UMap.find (effects.reportLuminance env ("molten-glass-".toList ++ k) lum ge).1.g_luminanceData k
        = some lum ∧
      ∀ k1, k1 ≠ k →
        UMap.find (effects.reportLuminance env ("molten-glass-".toList ++ k) lum ge).1.g_luminanceData
          k1 = UMap.find ge.g_luminanceData k1) := by
  have hm : "molten-glass-".toList = marker := rfl
  rw [hm]
  have hp : (plugins.reportLuminance env (marker ++ k) lum g).1.g_luminanceData
      = UMap.assign g.g_luminanceData k lum := by
    rw [plugins.reportLuminance_marker]
    split <;> rfl
  have he : (effects.reportLuminance env (marker ++ k) lum ge).1.g_luminanceData
      = UMap.assign ge.g_luminanceData k lum := by
    rw [effects_reportLuminance_marker]
    split <;> rfl
  rw [hp, he]
  exact ⟨⟨UMap.find_assign_self _ _ _, fun k1 h => UMap.find_assign_ne _ _ _ _ h⟩,
    ⟨UMap.find_assign_self _ _ _, fun k1 h => UMap.find_assign_ne _ _ _ _ h⟩⟩

/-- C6: for a window title that does not begin with "molten-glass-", `reportLuminance` is a
no-op in both variants: the luminance table, the `isDark` table and the report counter are
unchanged and no file operation is issued, whatever the prior state. -/
theorem C6_unmarked_title_is_noop (env : Env) (windowTitle : Str) (lum : ℚ)
    (g : plugins.Globals) (ge : effects.Globals)
    (h : ¬ "molten-glass-".toList <+: windowTitle) :
    plugins.reportLuminance env windowTitle lum g = (g, []) ∧
    effects.reportLuminance env windowTitle lum ge = (ge, []) :=
  ⟨plugins.reportLuminance_of_not_marker env windowTitle lum g h,
    effects_reportLuminance_of_not_marker env windowTitle lum ge h⟩

/-- Witness of C6: the title "kitty" on stored tables. -/
theorem C6_unmarked_title_is_noop_witness :
    ¬ "molten-glass-".toList <+: "kitty".toList ∧
    plugins.reportLuminance ⟨true, true⟩ "kitty".toList (9 / 10)
        (plugins.Globals.mk [(notch, 3 / 10)] [(notch, true)] 14)
      = (plugins.Globals.mk [(notch, 3 / 10)] [(notch, true)] 14, []) ∧
    effects.reportLuminance ⟨true, true⟩ "kitty".toList (9 / 10)
        (effects.Globals.mk [(notch, 3 / 10)] 4)
      = (effects.Globals.mk [(notch, 3 / 10)] 4, []) :=
  ⟨by decide, C6_unmarked_title_is_noop ⟨true, true⟩ "kitty".toList (9 / 10)
    (plugins.Globals.mk [(notch, 3 / 10)] [(notch, true)] 14)
    (effects.Globals.mk [(notch, 3 / 10)] 4) (by decide)⟩

theorem writeAtomically_ne_nil (env : Env) (json : Str) : writeAtomically env json ≠ [] := by
  unfold writeAtomically
  split <;> exact List.cons_ne_nil _ _

theorem countedCalls_cons (c : Str × ℚ) (rest : List (Str × ℚ)) :
    countedCalls (c :: rest) = countedCalls rest + if marker <+: c.1 then 1 else 0 := by
  unfold countedCalls
  rw [List.countP_cons]
  by_cases h : marker <+: c.1 <;> simp [h]

theorem countedCalls_concat (pre : List (Str × ℚ)) (c : Str × ℚ) :
    countedCalls (pre ++ [c]) = countedCalls pre + if marker <+: c.1 then 1 else 0 := by
  unfold countedCalls
  rw [List.countP_append, List.countP_singleton]
  by_cases h : marker <+: c.1 <;> simp [h]

theorem plugins_step_counter (env : Env) (t : Str) (lum : ℚ) (g : plugins.Globals) (c : Nat)
    (hc : g.g_luminanceWriteCounter = (c : Int)) (hlt : c < 15) (hm : marker <+: t) :
    ((plugins.reportLuminance env t lum g).2 ≠ [] ↔ c + 1 = 15) ∧
    (plugins.reportLuminance env t lum g).1.g_luminanceWriteCounter
      = (((c + 1) % 15 : Nat) : Int) := by
  rw [plugins.reportLuminance_of_marker env t lum g hm, plugins.reportLuminance_marker]
  by_cases h : g.g_luminanceWriteCounter + 1 < 15
  · rw [if_pos h]
    simp only [ne_eq, not_true_eq_false, false_iff]
    omega
  · rw [if_neg h]
    simp only [ne_eq, writeAtomically_ne_nil, not_false_eq_true, true_iff]
    omega

theorem plugins_run_counter (env : Env) (calls : List (Str × ℚ)) (g : plugins.Globals) (c : Nat)
    (hc : g.g_luminanceWriteCounter = (c : Int)) (hlt : c < 15) :
    (plugins.runReports env calls g).g_luminanceWriteCounter
      = (((c + countedCalls calls) % 15 : Nat) : Int) := by
  induction calls generalizing g c with
  | nil =>
    have h0 : countedCalls [] = 0 := rfl
    rw [h0, Nat.add_zero, Nat.mod_eq_of_lt hlt]
    exact hc
  | cons x rest ih =>
    have hrun : plugins.runReports env (x :: rest) g
        = plugins.runReports env rest (plugins.reportLuminance env x.1 x.2 g).1 := rfl
    rw [hrun, countedCalls_cons]
    by_cases hm : marker <+: x.1
    · have hstep := (plugins_step_counter env x.1 x.2 g c hc hlt hm).2
      rw [ih _ ((c + 1) % 15) hstep (Nat.mod_lt _ (by decide)), if_pos hm]
      congr 1
      omega
    · rw [plugins.reportLuminance_of_not_marker env x.1 x.2 g hm, if_neg hm]
      exact ih g c hc hlt

theorem effects_reportLuminance_of_marker (env : Env) (t : Str) (lum : ℚ) (g : effects.Globals)
    (h : marker <+: t) :
    effects.reportLuminance env t lum g = effects.reportLuminance env (marker ++ substr t 13) lum g := by
  obtain ⟨k, hk⟩ := h
  rw [← hk, substr_marker_append]

theorem effects_step_counter (env : Env) (t : Str) (lum : ℚ) (g : effects.Globals) (c : Nat)
    (hc : g.g_luminanceWriteCounter = (c : Int)) (hlt : c < 5) (hm : marker <+: t) :
    ((effects.reportLuminance env t lum g).2 ≠ [] ↔ c + 1 = 5) ∧
    (effects.reportLuminance env t lum g).1.g_luminanceWriteCounter
      = (((c + 1) % 5 : Nat) : Int) := by
  rw [effects_reportLuminance_of_marker env t lum g hm, effects_reportLuminance_marker]
  by_cases h : g.g_luminanceWriteCounter + 1 < 5
  · rw [if_pos h]
    simp only [ne_eq, not_true_eq_false, false_iff]
    omega
  · rw [if_neg h]
    simp only [ne_eq, writeAtomically_ne_nil, not_false_eq_true, true_iff]
    omega

theorem effects_run_counter (env : Env) (calls : List (Str × ℚ)) (g : effects.Globals) (c : Nat)
    (hc : g.g_luminanceWriteCounter = (c : Int)) (hlt : c < 5) :
    (effects.runReports env calls g).g_luminanceWriteCounter
      = (((c + countedCalls calls) % 5 : Nat) : Int) := by
  induction calls generalizing g c with
  | nil =>
    have h0 : countedCalls [] = 0 := rfl
    rw [h0, Nat.add_zero, Nat.mod_eq_of_lt hlt]
    exact hc
  | cons x rest ih =>
    have hrun : effects.runReports env (x :: rest) g
        = effects.runReports env rest (effects.reportLuminance env x.1 x.2 g).1 := rfl
    rw [hrun, countedCalls_cons]
    by_cases hm : marker <+: x.1
    · have hstep := (effects_step_counter env x.1 x.2 g c hc hlt hm).2
      rw [ih _ ((c + 1) % 5) hstep (Nat.mod_lt _ (by decide)), if_pos hm]
      congr 1
      omega
    · rw [effects_reportLuminance_of_not_marker env x.1 x.2 g hm, if_neg hm]
      exact ih g c hc hlt

/-- C7: the report counter counts the calls that carry the marker and a publish is triggered
on exactly every N-th of them (N = 15 in `src/plugins`, N = 5 in `src/effects`): starting
from counter 0, after any sequence `pre` of calls the next call `(t, lum)` issues its file
operations if and only if it is a counted call and the number `k` of counted calls so far,
itself included, is a multiple of N; the counter after a counted call is `k mod N`, that is
one more than before, or 0 right after a publish. -/
theorem C7_publish_every_Nth_call (env : Env) (pre : List (Str × ℚ)) (t : Str) (lum : ℚ)
    (g : plugins.Globals) (ge : effects.Globals)
    (hg : g.g_luminanceWriteCounter = 0) (hge : ge.g_luminanceWriteCounter = 0) :
    (((plugins.reportLuminance env t lum (plugins.runReports env pre g)).2 ≠ [] ↔
        (marker <+: t ∧ 15 ∣ countedCalls (pre ++ [(t, lum)]))) ∧
      (plugins.reportLuminance env t lum
          (plugins.runReports env pre g)).1.g_luminanceWriteCounter
        = ((countedCalls (pre ++ [(t, lum)]) % 15 : Nat) : Int) ∧
      (marker <+: t → (plugins.reportLuminance env t lum (plugins.runReports env pre g)).2 = [] →
        (plugins.reportLuminance env t lum
            (plugins.runReports env pre g)).1.g_luminanceWriteCounter
          = (plugins.runReports env pre g).g_luminanceWriteCounter + 1) ∧
      ((plugins.reportLuminance env t lum (plugins.runReports env pre g)).2 ≠ [] →
        (plugins.reportLuminance env t lum
            (plugins.runReports env pre g)).1.g_luminanceWriteCounter = 0)) ∧
    (((effects.reportLuminance env t lum (effects.runReports env pre ge)).2 ≠ [] ↔
        (marker <+: t ∧ 5 ∣ countedCalls (pre ++ [(t, lum)]))) ∧
      (effects.reportLuminance env t lum
          (effects.runReports env pre ge)).1.g_luminanceWriteCounter
        = ((countedCalls (pre ++ [(t, lum)]) % 5 : Nat) : Int) ∧
      (marker <+: t → (effects.reportLuminance env t lum (effects.runReports env pre ge)).2 = [] →
        (effects.reportLuminance env t lum
            (effects.runReports env pre ge)).1.g_luminanceWriteCounter
          = (effects.runReports env pre ge).g_luminanceWriteCounter + 1) ∧
      ((effects.reportLuminance env t lum (effects.runReports env pre ge)).2 ≠ [] →
        (effects.reportLuminance env t lum
            (effects.runReports env pre ge)).1.g_luminanceWriteCounter = 0)) := by
  have hp := plugins_run_counter env pre g 0 (by rw [hg]; rfl) (by decide)
  have he := effects_run_counter env pre ge 0 (by rw [hge]; rfl) (by decide)
  rw [Nat.zero_add] at hp he
  rw [countedCalls_concat]
  constructor
  · by_cases hm : marker <+: t
    · obtain ⟨h1, h2⟩ := plugins_step_counter env t lum _ _ hp (Nat.mod_lt _ (by decide)) hm
      simp only [hm, if_true, true_and, forall_const]
      refine ⟨?_, ?_, ?_, ?_⟩
      · rw [h1]; omega
      · rw [h2]; congr 1; omega
      · intro hnil
        have h3 : ¬ (countedCalls pre % 15 + 1 = 15) := fun h => (h1.mpr h) hnil
        rw [h2, hp]
        omega
      · intro hne
        have h3 := h1.mp hne
        rw [h2]
        omega
    · rw [plugins.reportLuminance_of_not_marker env t lum _ hm]
      simp only [hm, if_false, false_and, ne_eq, not_true_eq_false, Nat.add_zero, false_imp_iff,
        and_true, true_and, iff_self]
      exact hp
  · by_cases hm : marker <+: t
    · obtain ⟨h1, h2⟩ := effects_step_counter env t lum _ _ he (Nat.mod_lt _ (by decide)) hm
      simp only [hm, if_true, true_and, forall_const]
      refine ⟨?_, ?_, ?_, ?_⟩
      · rw [h1]; omega
      · rw [h2]; congr 1; omega
      · intro hnil
        have h3 : ¬ (countedCalls pre % 5 + 1 = 5) := fun h => (h1.mpr h) hnil
        rw [h2, he]
        omega
      · intro hne
        have h3 := h1.mp hne
        rw [h2]
        omega
    · rw [effects_reportLuminance_of_not_marker env t lum _ hm]
      simp only [hm, if_false, false_and, ne_eq, not_true_eq_false, Nat.add_zero, false_imp_iff,
        and_true, true_and, iff_self]
      exact he

/-- Witness of C7: the fifteenth counted call from the initial statics. -/
theorem C7_publish_every_Nth_call_witness :
    plugins.Globals.init.g_luminanceWriteCounter = 0 ∧
    effects.Globals.init.g_luminanceWriteCounter = 0 ∧
    ((plugins.reportLuminance ⟨true, true⟩ notchTitle (1 / 2)
        (plugins.runReports ⟨true, true⟩ (List.replicate 14 (notchTitle, 1 / 2))
          plugins.Globals.init)).2 ≠ [] ↔
      (marker <+: notchTitle ∧
        15 ∣ countedCalls (List.replicate 14 (notchTitle, 1 / 2) ++ [(notchTitle, 1 / 2)]))) :=
  ⟨rfl, rfl,
    (C7_publish_every_Nth_call ⟨true, true⟩ (List.replicate 14 (notchTitle, 1 / 2)) notchTitle
      (1 / 2) plugins.Globals.init effects.Globals.init rfl rfl).1.1⟩

/-! ## The published snapshot: C8 to C10 -/

theorem entryJson_eq_spec (name : Str) (lum : ℚ) (d : Bool) :
    entryJson name lum d = specEntry name lum d := by
  cases d <;> simp [entryJson, specEntry]

theorem entryJson_eq_rest (name : Str) (lum : ℚ) (d : Bool) :
    entryJson name lum d
      = "\"".toList ++ name ++ "\":\x7b\"luminance\":".toList ++ to_string lum ++ ",".toList
        ++ entryRest d := by
  cases d <;> simp [entryJson, entryRest]

theorem plugins_report_keys_nodup (env : Env) (t : Str) (lum : ℚ) (g : plugins.Globals)
    (hn : (UMap.keys g.g_luminanceData).Nodup) :
    (UMap.keys (plugins.reportLuminance env t lum g).1.g_luminanceData).Nodup := by
  by_cases hm : marker <+: t
  · rw [plugins.reportLuminance_of_marker env t lum g hm, plugins.reportLuminance_marker]
    split <;> exact UMap.nodup_keys_assign _ _ _ hn
  · rw [plugins.reportLuminance_of_not_marker env t lum g hm]
    exact hn

theorem plugins_run_keys_nodup (env : Env) (calls : List (Str × ℚ)) (g : plugins.Globals)
    (hn : (UMap.keys g.g_luminanceData).Nodup) :
    (UMap.keys (plugins.runReports env calls g).g_luminanceData).Nodup := by
  induction calls generalizing g with
  | nil => exact hn
  | cons x rest ih => exact ih _ (plugins_report_keys_nodup env x.1 x.2 g hn)

/-- C8: every publish serialises the entire region table: the text written is the object
whose entries are, one for one and in table order, the bindings of the luminance table as it
stands after the assignment of the reported value (its keys are pairwise distinct, the
reported key and every older key are among them), and in each entry the `luminance` field is
`std::to_string` of that region's stored luminance. -/
theorem C8_snapshot_is_whole_table (env : Env) (k : Str) (luminance : ℚ) (g : plugins.Globals)
    (hn : (UMap.keys g.g_luminanceData).Nodup) (hc : 15 ≤ g.g_luminanceWriteCounter + 1) :
    (UMap.keys (plugins.reportLuminance env (marker ++ k) luminance g).1.g_luminanceData).Nodup ∧
    UMap.find (plugins.reportLuminance env (marker ++ k) luminance g).1.g_luminanceData k
      = some luminance ∧
    (∀ name, name ∈ UMap.keys g.g_luminanceData →
      name ∈ UMap.keys (plugins.reportLuminance env (marker ++ k) luminance g).1.g_luminanceData) ∧
    ∃ restOf : Str → Str,
      (plugins.reportLuminance env (marker ++ k) luminance g).2
        = writeAtomically env ("\x7b".toList ++ List.intercalate ",".toList
            ((plugins.reportLuminance env (marker ++ k) luminance g).1.g_luminanceData.map
              (fun e => "\"".toList ++ e.1 ++ "\":\x7b\"luminance\":".toList ++ to_string e.2
                ++ ",".toList ++ restOf e.1))
            ++ "\x7d".toList) := by
  have hn1 := UMap.nodup_keys_assign g.g_luminanceData k luminance hn
  rw [plugins.reportLuminance_publish env k luminance g hc]
  refine ⟨hn1, UMap.find_assign_self _ _ _, ?_, ?_⟩
  · intro name hname
    simp only []
    rw [UMap.keys_assign]
    split
    · exact hname
    · exact List.mem_append_left _ hname
  · refine ⟨fun name => entryRest (plugins.hysteresis (plugins.currentIsDark g.g_isDarkState name)
      ((UMap.find (UMap.assign g.g_luminanceData k luminance) name).getD 0)), ?_⟩
    have hmap : plugins.entriesOf (UMap.assign g.g_luminanceData k luminance) g.g_isDarkState
        = (UMap.assign g.g_luminanceData k luminance).map
            (fun e => "\"".toList ++ e.1 ++ "\":\x7b\"luminance\":".toList ++ to_string e.2
              ++ ",".toList ++ entryRest (plugins.hysteresis
                (plugins.currentIsDark g.g_isDarkState e.1)
                ((UMap.find (UMap.assign g.g_luminanceData k luminance) e.1).getD 0))) := by
      unfold plugins.entriesOf
      apply List.map_congr_left
      intro x hx
      have hf := UMap.find_of_mem _ x.1 x.2 hn1 hx
      simp only [entryJson_eq_rest, hf, Option.getD_some]
    simp only []
    rw [plugins.buildJson_json _ _ hn1, hmap]

/-- Witness of C8: a publishing report for "notch" on a table that also holds "bar". -/
theorem C8_snapshot_is_whole_table_witness :
    (UMap.keys (plugins.Globals.mk [("bar".toList, 1 / 10)] [] 14).g_luminanceData).Nodup ∧
    15 ≤ (plugins.Globals.mk [("bar".toList, 1 / 10)] [] 14).g_luminanceWriteCounter + 1 ∧
    ∀ name, name ∈ UMap.keys (plugins.Globals.mk [("bar".toList, 1 / 10)] [] 14).g_luminanceData →
      name ∈ UMap.keys (plugins.reportLuminance ⟨true, true⟩ (marker ++ notch) (6 / 10)
        (plugins.Globals.mk [("bar".toList, 1 / 10)] [] 14)).1.g_luminanceData :=
  ⟨by decide, by decide,
    (C8_snapshot_is_whole_table ⟨true, true⟩ notch (6 / 10)
      (plugins.Globals.mk [("bar".toList, 1 / 10)] [] 14) (by decide) (by decide)).2.2.1⟩

/-- C9: in every published snapshot of either variant each region's entry is spelled as the
contract says: `isDark` is the literal `true` or `false`, and `textColor` and `iconColor` are
both `#ffffff` when `isDark` is true and both `#000000` when it is false. -/
theorem C9_entry_literals (data : UMap ℚ) (s : UMap Bool) (hn : (UMap.keys data).Nodup) :
    (∃ isDarkOf : Str → Bool,
      (plugins.buildJson data s).json
        = "\x7b".toList ++ List.intercalate ",".toList
            (data.map (fun e => specEntry e.1 e.2 (isDarkOf e.1))) ++ "\x7d".toList) ∧
    effects.buildJson data
      = "\x7b".toList ++ List.intercalate ",".toList
          (data.map (fun e => specEntry e.1 e.2 (decide (e.2 < 5 / 10)))) ++ "\x7d".toList := by
  constructor
  · refine ⟨fun name => plugins.hysteresis (plugins.currentIsDark s name)
      ((UMap.find data name).getD 0), ?_⟩
    have hmap : plugins.entriesOf data s
        = data.map (fun e => specEntry e.1 e.2 (plugins.hysteresis (plugins.currentIsDark s e.1)
            ((UMap.find data e.1).getD 0))) := by
      unfold plugins.entriesOf
      apply List.map_congr_left
      intro x hx
      have hf := UMap.find_of_mem _ x.1 x.2 hn hx
      simp only [entryJson_eq_spec, hf, Option.getD_some]
    rw [plugins.buildJson_json _ _ hn, hmap]
  · have hmap : effectsEntriesOf data
        = data.map (fun e => specEntry e.1 e.2 (decide (e.2 < 5 / 10))) := by
      unfold effectsEntriesOf
      apply List.map_congr_left
      intro x _
      rw [entryJson_eq_spec]
    rw [effects_buildJson_eq, hmap]

/-- Witness of C9: the snapshot of the `src/effects` variant for a light and a dark
region. -/
theorem C9_entry_literals_witness :
    (UMap.keys [(notch, (6 / 10 : ℚ)), ("bar".toList, 1 / 10)]).Nodup ∧
    effects.buildJson [(notch, 6 / 10), ("bar".toList, 1 / 10)]
      = "\x7b".toList ++ List.intercalate ",".toList
          ([(notch, (6 / 10 : ℚ)), ("bar".toList, 1 / 10)].map
            (fun e => specEntry e.1 e.2 (decide (e.2 < 5 / 10)))) ++ "\x7d".toList :=
  ⟨by decide, (C9_entry_literals [(notch, 6 / 10), ("bar".toList, 1 / 10)] [] (by decide)).2⟩

/-- C10 does not hold of the code: the loop copies the region key between quotes without
escaping it. Fifteen reports for the title `molten-glass-a"b` from the initial statics write
a text that is not well-formed JSON, while the same reports for `molten-glass-ab` write a
well-formed object. -/
theorem C10_unescaped_key_breaks_json :
    (plugins.reportLuminance ⟨true, true⟩ quoteTitle (1 / 2)
        (plugins.runReports ⟨true, true⟩ (List.replicate 14 (quoteTitle, 1 / 2))
          plugins.Globals.init)).2
      = writeAtomically ⟨true, true⟩
          ("\x7b\"a\"b\":\x7b\"luminance\":0.500000,\"isDark\":true,".toList
            ++ "\"textColor\":\"#ffffff\",\"iconColor\":\"#ffffff\"\x7d\x7d".toList) ∧
    Json.isJson ("\x7b\"a\"b\":\x7b\"luminance\":0.500000,\"isDark\":true,".toList
      ++ "\"textColor\":\"#ffffff\",\"iconColor\":\"#ffffff\"\x7d\x7d".toList) = false ∧
    (plugins.reportLuminance ⟨true, true⟩ plainTitle (1 / 2)
        (plugins.runReports ⟨true, true⟩ (List.replicate 14 (plainTitle, 1 / 2))
          plugins.Globals.init)).2
      = writeAtomically ⟨true, true⟩
          ("\x7b\"ab\":\x7b\"luminance\":0.500000,\"isDark\":true,".toList
            ++ "\"textColor\":\"#ffffff\",\"iconColor\":\"#ffffff\"\x7d\x7d".toList) ∧
    Json.isJson ("\x7b\"ab\":\x7b\"luminance\":0.500000,\"isDark\":true,".toList
      ++ "\"textColor\":\"#ffffff\",\"iconColor\":\"#ffffff\"\x7d\x7d".toList) = true := by
  refine ⟨by decide!, by decide, by decide!, by decide⟩

/-! ## The atomic replace of the snapshot file: C11 -/

theorem erase_find_ne {V : Type} (m : UMap V) (k k1 : Str) (h : k1 ≠ k) :
    UMap.find (UMap.erase m k) k1 = UMap.find m k1 := by
  induction m with
  | nil => rfl
  | cons e rest ih =>
    obtain ⟨k0, v0⟩ := e
    by_cases h0 : k0 = k
    · subst h0
      simp only [UMap.erase, if_true]
      rw [ih, UMap.find_cons_ne _ _ _ _ (Ne.symm h)]
    · simp only [UMap.erase, h0, if_false]
      by_cases h1 : k0 = k1
      · subst h1
        rw [UMap.find_cons_self, UMap.find_cons_self]
      · rw [UMap.find_cons_ne _ _ _ _ h1, UMap.find_cons_ne _ _ _ _ h1, ih]

theorem not_mem_keys_erase {V : Type} (m : UMap V) (k : Str) :
    k ∉ UMap.keys (UMap.erase m k) := by
  induction m with
  | nil => exact List.not_mem_nil _
  | cons e rest ih =>
    obtain ⟨k0, v0⟩ := e
    by_cases h0 : k0 = k
    · simp only [UMap.erase, h0, if_true]
      exact ih
    · simp only [UMap.erase, h0, if_false]
      rw [UMap.keys_cons]
      intro h
      rcases List.mem_cons.mp h with h1 | h1
      · exact h0 h1.symm
      · exact ih h1

theorem finalPath_ne_tmpPath : finalPath ≠ tmpPath := by decide

theorem find_final_assign_tmp (fs : FileSystem) (c : Str) :
    UMap.find (UMap.assign fs tmpPath c) finalPath = UMap.find fs finalPath :=
  UMap.find_assign_ne fs tmpPath finalPath c finalPath_ne_tmpPath

theorem fsRun_writeAtomically (stored : Nat) (json : Str) (fs : FileSystem) :
    UMap.find (fsRun stored fs (writeAtomically ⟨true, true⟩ json)) finalPath
      = some (json.take stored) ∧
    UMap.find (fsRun stored fs (writeAtomically ⟨true, true⟩ json)) tmpPath = none := by
  have h1 : fsRun stored fs (writeAtomically ⟨true, true⟩ json)
      = UMap.assign
          (UMap.erase (UMap.assign (UMap.assign fs tmpPath []) tmpPath (json.take stored))
            tmpPath)
          finalPath (json.take stored) := by
    simp only [fsRun, writeAtomically, if_true, List.foldl_cons, List.foldl_nil, fsApply,
      UMap.find_assign_self, Option.getD_some, List.nil_append]
  rw [h1]
  refine ⟨UMap.find_assign_self _ _ _, ?_⟩
  rw [UMap.find_assign_ne _ _ _ _ (Ne.symm finalPath_ne_tmpPath)]
  exact (UMap.find_eq_none_iff _ _).mpr (not_mem_keys_erase _ _)

theorem take_ne_of_short (stored : Nat) (json : Str) (h : stored < json.length) :
    json.take stored ≠ json := by
  intro he
  have hl := congrArg List.length he
  rw [List.length_take] at hl
  omega

theorem fsTrace_writeAtomically (stored : Nat) (env : Env) (json : Str) (fs : FileSystem)
    (hfull : json.length ≤ stored) :
    ∀ s ∈ fsTrace stored fs (writeAtomically env json),
      UMap.find s finalPath = UMap.find fs finalPath ∨ UMap.find s finalPath = some json := by
  intro s hs
  have htake : json.take stored = json := List.take_of_length_le hfull
  unfold writeAtomically at hs
  cases hopen : env.openOk
  · rw [hopen] at hs
    simp only [Bool.false_eq_true, if_false, fsTrace, fsDuring, fsApply, List.nil_append,
      List.mem_cons, List.mem_singleton, List.not_mem_nil, or_false, or_self] at hs
    left
    rw [hs]
  · cases hren : env.renameOk
    · rw [hopen, hren] at hs
      simp only [if_true, fsTrace, fsDuring, fsApply, htake, List.nil_append, List.mem_cons,
        List.mem_append, List.mem_map, List.mem_singleton, List.not_mem_nil, or_false,
        UMap.find_assign_self, Option.getD_some, List.nil_append] at hs
      left
      rcases hs with h | h | ⟨p, _, h⟩ | h | h | h
      · rw [h]
      · rw [h, find_final_assign_tmp]
      · rw [← h, find_final_assign_tmp, find_final_assign_tmp]
      · rw [h, find_final_assign_tmp, find_final_assign_tmp]
      · rw [h, find_final_assign_tmp, find_final_assign_tmp]
      · rw [h, find_final_assign_tmp, find_final_assign_tmp]
    · rw [hopen, hren] at hs
      simp only [if_true, fsTrace, fsDuring, fsApply, htake, List.nil_append, List.mem_cons,
        List.mem_append, List.mem_map, List.mem_singleton, List.not_mem_nil, or_false,
        UMap.find_assign_self, Option.getD_some, List.nil_append] at hs
      rcases hs with h | h | ⟨p, _, h⟩ | h | h | h
      · left; rw [h]
      · left; rw [h, find_final_assign_tmp]
      · left; rw [← h, find_final_assign_tmp, find_final_assign_tmp]
      · left; rw [h, find_final_assign_tmp, find_final_assign_tmp]
      · left; rw [h, find_final_assign_tmp, find_final_assign_tmp]
      · right; rw [h, UMap.find_assign_self]

theorem publish_file_operations (env : Env) (k : Str) (luminance : ℚ) (g : plugins.Globals)
    (hc : 15 ≤ g.g_luminanceWriteCounter + 1) :
    (env.openOk = true →
      (plugins.reportLuminance env (marker ++ k) luminance g).2
        = [IoEvent.ofstreamOpen tmpPath true,
           IoEvent.write tmpPath
             (plugins.buildJson (UMap.assign g.g_luminanceData k luminance) g.g_isDarkState).json,
           IoEvent.close tmpPath, IoEvent.rename tmpPath finalPath env.renameOk]) ∧
    (env.openOk = false →
      (plugins.reportLuminance env (marker ++ k) luminance g).2
        = [IoEvent.ofstreamOpen tmpPath false]) := by
  rw [plugins.reportLuminance_publish env k luminance g hc]
  refine ⟨?_, ?_⟩
  · intro ho
    simp only [writeAtomically, ho, if_true]
  · intro ho
    simp only [writeAtomically, ho, Bool.false_eq_true, if_false]

theorem publish_of_complete_write (stored : Nat) (env : Env) (k : Str) (luminance : ℚ)
    (g : plugins.Globals) (fs : FileSystem) (hc : 15 ≤ g.g_luminanceWriteCounter + 1)
    (hfull : (plugins.buildJson (UMap.assign g.g_luminanceData k luminance)
      g.g_isDarkState).json.length ≤ stored) :
    (∀ s ∈ fsTrace stored fs (plugins.reportLuminance env (marker ++ k) luminance g).2,
      UMap.find s finalPath = UMap.find fs finalPath ∨
      UMap.find s finalPath = some
        (plugins.buildJson (UMap.assign g.g_luminanceData k luminance) g.g_isDarkState).json) ∧
    (env.openOk = true → env.renameOk = true →
      UMap.find (fsRun stored fs (plugins.reportLuminance env (marker ++ k) luminance g).2)
          finalPath
        = some
          (plugins.buildJson (UMap.assign g.g_luminanceData k luminance)
            g.g_isDarkState).json) := by
  rw [plugins.reportLuminance_publish env k luminance g hc]
  refine ⟨fsTrace_writeAtomically stored env _ fs hfull, ?_⟩
  intro ho hr
  have henv : env = ⟨true, true⟩ := by
    cases env
    simp only [Env.mk.injEq]
    exact ⟨ho, hr⟩
  rw [henv, (fsRun_writeAtomically stored _ fs).1, List.take_of_length_le hfull]

theorem publish_of_failed_open (stored : Nat) (env : Env) (k : Str) (luminance : ℚ)
    (g : plugins.Globals) (fs : FileSystem) (hc : 15 ≤ g.g_luminanceWriteCounter + 1)
    (ho : env.openOk = false) :
    (∀ s ∈ fsTrace stored fs (plugins.reportLuminance env (marker ++ k) luminance g).2, s = fs) ∧
    UMap.find (plugins.reportLuminance env (marker ++ k) luminance g).1.g_luminanceData k
      = some luminance := by
  rw [plugins.reportLuminance_publish env k luminance g hc]
  refine ⟨?_, UMap.find_assign_self _ _ _⟩
  intro s hs
  simp only [writeAtomically, ho, Bool.false_eq_true, if_false, fsTrace, fsDuring, fsApply,
    List.nil_append, List.mem_cons, List.mem_singleton, List.not_mem_nil, or_false,
    or_self] at hs
  exact hs

theorem publish_of_short_write (stored : Nat) (k : Str) (luminance : ℚ)
    (g : plugins.Globals) (fs : FileSystem) (hc : 15 ≤ g.g_luminanceWriteCounter + 1)
    (hshort : stored < (plugins.buildJson (UMap.assign g.g_luminanceData k luminance)
      g.g_isDarkState).json.length) :
    UMap.find
        (fsRun stored fs (plugins.reportLuminance ⟨true, true⟩ (marker ++ k) luminance g).2)
        finalPath
      = some ((plugins.buildJson (UMap.assign g.g_luminanceData k luminance)
          g.g_isDarkState).json.take stored) ∧
    (plugins.buildJson (UMap.assign g.g_luminanceData k luminance) g.g_isDarkState).json.take
        stored
      ≠ (plugins.buildJson (UMap.assign g.g_luminanceData k luminance) g.g_isDarkState).json := by
  rw [plugins.reportLuminance_publish ⟨true, true⟩ k luminance g hc]
  exact ⟨(fsRun_writeAtomically stored _ fs).1, take_ne_of_short stored _ hshort⟩

/-- C11 does not hold of the code: the section commented "Write atomically" renames the
temporary file over the canonical path without looking at the stream after `file << json` and
`file.close()`. The fifteenth report of 0.6 for `molten-glass-notch` opens the temporary path,
inserts the snapshot text, closes and renames; when only the first 10 characters of the text
reach the file (the open and the rename succeeding), the canonical path, which held `old`,
ends with the partial text `{"notch":{`, neither its previous content nor the complete
snapshot, and that state is among the observable ones. With the whole text stored the
canonical path ends with the complete snapshot. -/
theorem C11_short_write_reaches_canonical_path :
    (plugins.reportLuminance ⟨true, true⟩ notchTitle (6 / 10) ⟨[], [], 14⟩).2
      = [IoEvent.ofstreamOpen tmpPath true, IoEvent.write tmpPath notchSnapshot,
          IoEvent.close tmpPath, IoEvent.rename tmpPath finalPath true] ∧
    UMap.find
        (fsRun 10 [(finalPath, "old".toList)]
          (plugins.reportLuminance ⟨true, true⟩ notchTitle (6 / 10) ⟨[], [], 14⟩).2) finalPath
      = some "\x7b\"notch\":\x7b".toList ∧
    "\x7b\"notch\":\x7b".toList ≠ "old".toList ∧
    "\x7b\"notch\":\x7b".toList ≠ notchSnapshot ∧
    fsRun 10 [(finalPath, "old".toList)]
        (plugins.reportLuminance ⟨true, true⟩ notchTitle (6 / 10) ⟨[], [], 14⟩).2
      ∈ fsTrace 10 [(finalPath, "old".toList)]
          (plugins.reportLuminance ⟨true, true⟩ notchTitle (6 / 10) ⟨[], [], 14⟩).2 ∧
    UMap.find
        (fsRun notchSnapshot.length [(finalPath, "old".toList)]
          (plugins.reportLuminance ⟨true, true⟩ notchTitle (6 / 10) ⟨[], [], 14⟩).2) finalPath
      = some notchSnapshot := by
  refine ⟨by decide!, by decide!, by decide, by decide, by decide!, by decide!⟩

/-! ## The luminance estimator: C12 to C15 -/

theorem loopPoints_succ (limit step : Int) (fuel : Nat) (v : Int) :
    loopPoints limit step (fuel + 1) v
      = if v < limit then v :: loopPoints limit step fuel (v + step) else [] := rfl

theorem sampleRow_succ (rp : Int → Int → Pixel) (width stepX y : Int) (fuel : Nat) (x : Int)
    (acc : plugins.SampleAcc) :
    plugins.sampleRow rp width stepX y (fuel + 1) x acc
      = if x < width then
          plugins.sampleRow rp width stepX y fuel (x + stepX) (plugins.sampleStep rp acc x y)
        else acc := rfl

theorem sampleRows_succ (rp : Int → Int → Pixel) (width height stepX stepY : Int) (fuel : Nat)
    (y : Int) (acc : plugins.SampleAcc) :
    plugins.sampleRows rp width height stepX stepY (fuel + 1) y acc
      = if y < height then
          plugins.sampleRows rp width height stepX stepY fuel (y + stepY)
            (plugins.sampleRow rp width stepX y width.toNat 0 acc)
        else acc := rfl

theorem sampleRow_eq_foldl (rp : Int → Int → Pixel) (width stepX y : Int) (fuel : Nat) (x : Int)
    (acc : plugins.SampleAcc) :
    plugins.sampleRow rp width stepX y fuel x acc
      = (loopPoints width stepX fuel x).foldl (fun a v => plugins.sampleStep rp a v y) acc := by
  induction fuel generalizing x acc with
  | zero => rfl
  | succ n ih =>
    rw [sampleRow_succ, loopPoints_succ]
    by_cases h : x < width
    · rw [if_pos h, if_pos h, List.foldl_cons]
      exact ih _ _
    · rw [if_neg h, if_neg h]
      rfl

theorem sampleRows_eq_foldl (rp : Int → Int → Pixel) (width height stepX stepY : Int) (fuel : Nat)
    (y : Int) (acc : plugins.SampleAcc) :
    plugins.sampleRows rp width height stepX stepY fuel y acc
      = (loopPoints height stepY fuel y).foldl
          (fun a v => (loopPoints width stepX width.toNat 0).foldl
            (fun a1 u => plugins.sampleStep rp a1 u v) a) acc := by
  induction fuel generalizing y acc with
  | zero => rfl
  | succ n ih =>
    rw [sampleRows_succ, loopPoints_succ]
    by_cases h : y < height
    · rw [if_pos h, if_pos h, List.foldl_cons, sampleRow_eq_foldl]
      exact ih _ _
    · rw [if_neg h, if_neg h]
      rfl

theorem rowFold_total (rp : Int → Int → Pixel) (y : Int) (xs : List Int) (acc : plugins.SampleAcc) :
    (xs.foldl (fun a v => plugins.sampleStep rp a v y) acc).totalLuminance
      = acc.totalLuminance + (xs.map (fun x => plugins.relativeLuminance (rp x y))).sum := by
  induction xs generalizing acc with
  | nil => simp
  | cons x rest ih =>
    rw [List.foldl_cons, ih]
    simp only [plugins.sampleStep, List.map_cons, List.sum_cons]
    ring

theorem rowFold_count (rp : Int → Int → Pixel) (y : Int) (xs : List Int) (acc : plugins.SampleAcc) :
    (xs.foldl (fun a v => plugins.sampleStep rp a v y) acc).sampleCount
      = acc.sampleCount + (xs.length : Int) := by
  induction xs generalizing acc with
  | nil => simp
  | cons x rest ih =>
    rw [List.foldl_cons, ih]
    simp only [plugins.sampleStep, List.length_cons, Nat.cast_add, Nat.cast_one]
    ring

theorem rowFold_calls (rp : Int → Int → Pixel) (y : Int) (xs : List Int) (acc : plugins.SampleAcc) :
    (xs.foldl (fun a v => plugins.sampleStep rp a v y) acc).calls
      = acc.calls ++ xs.map (fun x => GlCall.readPixels x y) := by
  induction xs generalizing acc with
  | nil => simp
  | cons x rest ih =>
    rw [List.foldl_cons, ih]
    simp only [plugins.sampleStep, List.map_cons, List.append_assoc, List.singleton_append]

theorem gridFold_total (rp : Int → Int → Pixel) (xs ys : List Int) (acc : plugins.SampleAcc) :
    (ys.foldl (fun a v => xs.foldl (fun a1 u => plugins.sampleStep rp a1 u v) a)
        acc).totalLuminance
      = acc.totalLuminance
        + (ys.map (fun y => (xs.map (fun x => plugins.relativeLuminance (rp x y))).sum)).sum := by
  induction ys generalizing acc with
  | nil => simp
  | cons y rest ih =>
    rw [List.foldl_cons, ih, rowFold_total]
    simp only [List.map_cons, List.sum_cons]
    ring

theorem gridFold_count (rp : Int → Int → Pixel) (xs ys : List Int) (acc : plugins.SampleAcc) :
    (ys.foldl (fun a v => xs.foldl (fun a1 u => plugins.sampleStep rp a1 u v) a)
        acc).sampleCount
      = acc.sampleCount + ((ys.length * xs.length : Nat) : Int) := by
  induction ys generalizing acc with
  | nil => simp
  | cons y rest ih =>
    rw [List.foldl_cons, ih, rowFold_count]
    simp only [List.length_cons, Nat.cast_mul, Nat.cast_add, Nat.cast_one]
    ring

theorem gridFold_calls (rp : Int → Int → Pixel) (xs ys : List Int) (acc : plugins.SampleAcc) :
    (ys.foldl (fun a v => xs.foldl (fun a1 u => plugins.sampleStep rp a1 u v) a) acc).calls
      = acc.calls ++ (ys.map (fun y => xs.map (fun x => GlCall.readPixels x y))).flatten := by
  induction ys generalizing acc with
  | nil => simp
  | cons y rest ih =>
    rw [List.foldl_cons, ih, rowFold_calls]
    simp only [List.map_cons, List.flatten_cons, List.append_assoc]

theorem loopPoints_eq_filter (limit step : Int) (hs : 0 ≤ step) (fuel k : Nat) :
    loopPoints limit step fuel ((k : Int) * step)
      = ((List.range' k fuel).map (fun (i : Nat) => (i : Int) * step)).filter
          (fun v => decide (v < limit)) := by
  induction fuel generalizing k with
  | zero => simp [loopPoints]
  | succ n ih =>
    rw [loopPoints_succ, List.range'_succ, List.map_cons]
    have hnext : (k : Int) * step + step = ((k + 1 : Nat) : Int) * step := by
      push_cast
      ring
    by_cases h : (k : Int) * step < limit
    · rw [if_pos h, List.filter_cons_of_pos (by simpa using h), hnext, ih]
    · rw [if_neg h, List.filter_cons_of_neg (by simpa using h)]
      symm
      rw [List.filter_eq_nil_iff]
      intro a ha
      rw [List.mem_map] at ha
      obtain ⟨i, hi, rfl⟩ := ha
      have hki : k + 1 ≤ i := (List.mem_range'_1.mp hi).1
      have h1 : (k : Int) * step ≤ (i : Int) * step :=
        Int.mul_le_mul_of_nonneg_right (by exact_mod_cast (by omega : k ≤ i)) hs
      simp only [decide_eq_true_eq, not_lt]
      omega

theorem loopPoints_eq_specGrid (dim step : Int) (hs : 0 ≤ step) :
    loopPoints dim step dim.toNat 0 = specGrid dim step := by
  have h := loopPoints_eq_filter dim step hs dim.toNat 0
  simp only [Nat.cast_zero, zero_mul] at h
  rw [h, specGrid, List.range_eq_range']

theorem loopPoints_length_le (limit step : Int) (n fuel : Nat) (v : Int)
    (h : limit ≤ v + (n : Int) * step) : (loopPoints limit step fuel v).length ≤ n := by
  induction fuel generalizing n v with
  | zero => exact Nat.zero_le _
  | succ f ih =>
    rw [loopPoints_succ]
    by_cases hv : v < limit
    · rw [if_pos hv]
      cases n with
      | zero =>
        simp only [Nat.cast_zero, zero_mul, add_zero] at h
        omega
      | succ m =>
        have h1 : limit ≤ v + step + (m : Int) * step := by
          push_cast at h
          linarith
        have := ih m (v + step) h1
        simp only [List.length_cons]
        omega
    · rw [if_neg hv]
      exact Nat.zero_le _

theorem step_bound (w : Int) : w ≤ 0 + ((9 : Nat) : Int) * max 16 (w / 8) := by
  have h1 : (16 : Int) ≤ max 16 (w / 8) := le_max_left _ _
  have h2 : w / 8 ≤ max 16 (w / 8) := le_max_right _ _
  push_cast
  omega

theorem calculateLuminance_quiet (rp : Int → Int → Pixel) (box : CBox) (d : plugins.Decoration)
    (hc : d.m_luminanceUpdateCounter + 1 < 10) :
    plugins.calculateLuminance rp box d
      = ({ d with m_luminanceUpdateCounter := d.m_luminanceUpdateCounter + 1 },
          d.m_lastLuminance, []) := by
  unfold plugins.calculateLuminance
  simp only [hc, if_true]

theorem calculateLuminance_degenerate (rp : Int → Int → Pixel) (box : CBox)
    (d : plugins.Decoration) (hc : 10 ≤ d.m_luminanceUpdateCounter + 1)
    (hbox : toInt box.width ≤ 0 ∨ toInt box.height ≤ 0) :
    plugins.calculateLuminance rp box d
      = ({ d with m_luminanceUpdateCounter := 0 }, d.m_lastLuminance, []) := by
  unfold plugins.calculateLuminance
  simp only [not_lt.mpr hc, if_false, hbox, if_true]

theorem specGrid_length_pos (dim step : Int) (hs : 0 ≤ step) (hd : 0 < dim) :
    0 < (specGrid dim step).length := by
  rw [← loopPoints_eq_specGrid dim step hs]
  obtain ⟨n, hn⟩ : ∃ n, dim.toNat = n + 1 := ⟨dim.toNat - 1, by omega⟩
  rw [hn, loopPoints_succ, if_pos hd]
  exact Nat.succ_pos _

theorem step_nonneg (w : Int) : 0 ≤ max 16 (w / 8) :=
  le_trans (by decide) (le_max_left 16 (w / 8))

theorem specGrid_length_le_nine (w : Int) : (specGrid w (max 16 (w / 8))).length ≤ 9 := by
  rw [← loopPoints_eq_specGrid w _ (step_nonneg w)]
  exact loopPoints_length_le w _ 9 _ 0 (step_bound w)

theorem calculateLuminance_compute (rp : Int → Int → Pixel) (box : CBox) (d : plugins.Decoration)
    (hc : 10 ≤ d.m_luminanceUpdateCounter + 1)
    (hw : 0 < toInt box.width) (hh : 0 < toInt box.height) :
    plugins.calculateLuminance rp box d
      = ({ d with
            m_luminanceUpdateCounter := 0
            m_lastLuminance :=
              ((specGrid (toInt box.height) (max 16 (toInt box.height / 8))).map (fun y =>
                ((specGrid (toInt box.width) (max 16 (toInt box.width / 8))).map (fun x =>
                  plugins.relativeLuminance (rp x y))).sum)).sum
              / (((specGrid (toInt box.height) (max 16 (toInt box.height / 8))).length
                  * (specGrid (toInt box.width) (max 16 (toInt box.width / 8))).length : Nat) : ℚ) },
          ((specGrid (toInt box.height) (max 16 (toInt box.height / 8))).map (fun y =>
            ((specGrid (toInt box.width) (max 16 (toInt box.width / 8))).map (fun x =>
              plugins.relativeLuminance (rp x y))).sum)).sum
            / (((specGrid (toInt box.height) (max 16 (toInt box.height / 8))).length
                * (specGrid (toInt box.width) (max 16 (toInt box.width / 8))).length : Nat) : ℚ),
          GlCall.bindFramebuffer FbTarget.GL_READ_FRAMEBUFFER d.m_sampleFB.fbID
            :: ((specGrid (toInt box.height) (max 16 (toInt box.height / 8))).map (fun y =>
                (specGrid (toInt box.width) (max 16 (toInt box.width / 8))).map (fun x =>
                  GlCall.readPixels x y))).flatten) := by
  have hpos : 0 < (specGrid (toInt box.height) (max 16 (toInt box.height / 8))).length
      * (specGrid (toInt box.width) (max 16 (toInt box.width / 8))).length :=
    Nat.mul_pos (specGrid_length_pos _ _ (step_nonneg _) hh)
      (specGrid_length_pos _ _ (step_nonneg _) hw)
  have hbox : ¬ (toInt box.width ≤ 0 ∨ toInt box.height ≤ 0) := by omega
  unfold plugins.calculateLuminance
  simp only [not_lt.mpr hc, if_false, hbox]
  rw [sampleRows_eq_foldl, loopPoints_eq_specGrid _ _ (step_nonneg _),
    loopPoints_eq_specGrid _ _ (step_nonneg _)]
  simp only [gridFold_count, gridFold_total, gridFold_calls, zero_add, List.singleton_append]
  have hcnt : (0 : Int) < (((specGrid (toInt box.height) (max 16 (toInt box.height / 8))).length
      * (specGrid (toInt box.width) (max 16 (toInt box.width / 8))).length : Nat) : Int) := by
    exact_mod_cast hpos
  simp only [gt_iff_lt, hcnt, if_true, Int.cast_natCast]

theorem calculateLuminance_counter (rp : Int → Int → Pixel) (box : CBox) (d : plugins.Decoration)
    (c : Nat) (hc : d.m_luminanceUpdateCounter = (c : Int)) (hlt : c < 10) :
    (plugins.calculateLuminance rp box d).1.m_luminanceUpdateCounter = (((c + 1) % 10 : Nat) : Int) ∧
    ((plugins.calculateLuminance rp box d).2.2 ≠ [] → c + 1 = 10) := by
  by_cases h : d.m_luminanceUpdateCounter + 1 < 10
  · rw [calculateLuminance_quiet rp box d h]
    refine ⟨?_, fun hne => absurd rfl hne⟩
    simp only []
    omega
  · have h10 : 10 ≤ d.m_luminanceUpdateCounter + 1 := not_lt.mp h
    refine ⟨?_, fun _ => by omega⟩
    by_cases hbox : toInt box.width ≤ 0 ∨ toInt box.height ≤ 0
    · rw [calculateLuminance_degenerate rp box d h10 hbox]
      simp only []
      omega
    · rw [calculateLuminance_compute rp box d h10 (by omega) (by omega)]
      simp only []
      omega

theorem runCalculate_counter (calls : List ((Int → Int → Pixel) × CBox)) (d : plugins.Decoration)
    (c : Nat) (hc : d.m_luminanceUpdateCounter = (c : Int)) (hlt : c < 10) :
    (plugins.runCalculate calls d).m_luminanceUpdateCounter
      = (((c + calls.length) % 10 : Nat) : Int) := by
  induction calls generalizing d c with
  | nil =>
    rw [List.length_nil, Nat.add_zero, Nat.mod_eq_of_lt hlt]
    exact hc
  | cons x rest ih =>
    have hrun : plugins.runCalculate (x :: rest) d
        = plugins.runCalculate rest (plugins.calculateLuminance x.1 x.2 d).1 := rfl
    rw [hrun, ih _ ((c + 1) % 10) (calculateLuminance_counter x.1 x.2 d c hc hlt).1
      (Nat.mod_lt _ (by decide)), List.length_cons]
    congr 1
    omega

theorem calcLogs_count (calls : List ((Int → Int → Pixel) × CBox)) (d : plugins.Decoration)
    (c : Nat) (hc : d.m_luminanceUpdateCounter = (c : Int)) (hlt : c < 10) :
    (calcLogs calls d).countP (fun l => !l.isEmpty) ≤ (c + calls.length) / 10 := by
  induction calls generalizing d c with
  | nil => exact Nat.zero_le _
  | cons x rest ih =>
    obtain ⟨h1, h2⟩ := calculateLuminance_counter x.1 x.2 d c hc hlt
    have hrest := ih _ ((c + 1) % 10) h1 (Nat.mod_lt _ (by decide))
    rw [calcLogs, List.countP_cons, List.length_cons]
    by_cases hne : (plugins.calculateLuminance x.1 x.2 d).2.2 = []
    · rw [hne]
      simp only [List.isEmpty_nil, Bool.not_true, Bool.false_eq_true, if_false, Nat.add_zero]
      omega
    · have h10 := h2 hne
      have : (if (!(plugins.calculateLuminance x.1 x.2 d).2.2.isEmpty) = true then 1 else 0)
          ≤ 1 := by split <;> omega
      omega

/-- C12: for a decoration whose cadence counter is 0 (a fresh one in particular), the k-th
call of `calculateLuminance` issues read-backs only if k is a multiple of 10; on every other
call it issues no call at all, returns the cached luminance and leaves it unchanged; the
counter after the k-th call is `k mod 10`; hence among 100 consecutive calls at most 10
recompute, and those are among the calls 10, 20, ..., 100. -/
theorem C12_recompute_every_tenth_call (pre : List ((Int → Int → Pixel) × CBox))
    (rp : Int → Int → Pixel) (box : CBox) (d : plugins.Decoration)
    (hd : d.m_luminanceUpdateCounter = 0) :
    ((plugins.calculateLuminance rp box (plugins.runCalculate pre d)).2.2 ≠ [] →
      10 ∣ pre.length + 1) ∧
    (¬ 10 ∣ pre.length + 1 →
      (plugins.calculateLuminance rp box (plugins.runCalculate pre d)).2.2 = [] ∧
      (plugins.calculateLuminance rp box (plugins.runCalculate pre d)).2.1
        = (plugins.runCalculate pre d).m_lastLuminance ∧
      (plugins.calculateLuminance rp box (plugins.runCalculate pre d)).1.m_lastLuminance
        = (plugins.runCalculate pre d).m_lastLuminance) ∧
    (plugins.calculateLuminance rp box (plugins.runCalculate pre d)).1.m_luminanceUpdateCounter
      = (((pre.length + 1) % 10 : Nat) : Int) ∧
    (∀ calls : List ((Int → Int → Pixel) × CBox), calls.length = 100 →
      (calcLogs calls d).countP (fun l => !l.isEmpty) ≤ 10) := by
  have hrun := runCalculate_counter pre d 0 (by rw [hd]; rfl) (by decide)
  rw [Nat.zero_add] at hrun
  obtain ⟨h1, h2⟩ := calculateLuminance_counter rp box (plugins.runCalculate pre d)
    (pre.length % 10) hrun (Nat.mod_lt _ (by decide))
  refine ⟨?_, ?_, ?_, ?_⟩
  · intro hne
    have := h2 hne
    omega
  · intro hnd
    have hq : (plugins.runCalculate pre d).m_luminanceUpdateCounter + 1 < 10 := by
      rw [hrun]
      omega
    rw [calculateLuminance_quiet rp box _ hq]
    exact ⟨rfl, rfl, rfl⟩
  · rw [h1]
    congr 1
    omega
  · intro calls hlen
    have := calcLogs_count calls d 0 (by rw [hd]; rfl) (by decide)
    rw [hlen] at this
    omega

/-- Witness of C12: the tenth call on a fresh decoration, after nine calls on a 129 x 129
box. -/
theorem C12_recompute_every_tenth_call_witness :
    plugins.Decoration.fresh.m_luminanceUpdateCounter = 0 ∧
    (plugins.calculateLuminance (fun _ _ => ⟨128, 128, 128, 255⟩) ⟨0, 0, 129, 129⟩
      (plugins.runCalculate
        (List.replicate 9 ((fun _ _ => ⟨128, 128, 128, 255⟩), ⟨0, 0, 129, 129⟩))
        plugins.Decoration.fresh)).1.m_luminanceUpdateCounter
      = (((List.replicate 9 (((fun _ _ => ⟨128, 128, 128, 255⟩) : Int → Int → Pixel),
          (⟨0, 0, 129, 129⟩ : CBox))).length + 1) % 10 : Nat) :=
  ⟨rfl,
    (C12_recompute_every_tenth_call
      (List.replicate 9 ((fun _ _ => ⟨128, 128, 128, 255⟩), ⟨0, 0, 129, 129⟩))
      (fun _ _ => ⟨128, 128, 128, 255⟩) ⟨0, 0, 129, 129⟩ plugins.Decoration.fresh rfl).2.2.1⟩

theorem readbacks_append (a b : List GlCall) : readbacks (a ++ b) = readbacks a + readbacks b := by
  unfold readbacks
  exact List.countP_append _ _ _

theorem readbacks_row (y : Int) (xs : List Int) :
    readbacks (xs.map (fun x => GlCall.readPixels x y)) = xs.length := by
  induction xs with
  | nil => rfl
  | cons x rest ih =>
    have h : readbacks (GlCall.readPixels x y :: rest.map (fun x => GlCall.readPixels x y))
        = readbacks (rest.map (fun x => GlCall.readPixels x y)) + 1 := by
      unfold readbacks
      rw [List.countP_cons]
      rfl
    rw [List.map_cons, h, ih, List.length_cons]

theorem readbacks_grid (xs ys : List Int) :
    readbacks ((ys.map (fun y => xs.map (fun x => GlCall.readPixels x y))).flatten)
      = ys.length * xs.length := by
  induction ys with
  | nil => simp [readbacks]
  | cons y rest ih =>
    rw [List.map_cons, List.flatten_cons, readbacks_append, readbacks_row, ih, List.length_cons]
    ring

theorem specGrid_length_le_eight (w : Int) (h : w ≤ 128 ∨ 8 ∣ w) :
    (specGrid w (max 16 (w / 8))).length ≤ 8 := by
  rw [← loopPoints_eq_specGrid w _ (step_nonneg w)]
  apply loopPoints_length_le w _ 8 _ 0
  have h1 : (16 : Int) ≤ max 16 (w / 8) := le_max_left _ _
  have h2 : w / 8 ≤ max 16 (w / 8) := le_max_right _ _
  push_cast
  rcases h with h | h <;> omega

theorem calculateLuminance_readbacks_le (rp : Int → Int → Pixel) (box : CBox)
    (d : plugins.Decoration) : readbacks (plugins.calculateLuminance rp box d).2.2 ≤ 81 := by
  by_cases h : d.m_luminanceUpdateCounter + 1 < 10
  · rw [calculateLuminance_quiet rp box d h]
    exact Nat.zero_le _
  · have h10 : 10 ≤ d.m_luminanceUpdateCounter + 1 := not_lt.mp h
    by_cases hbox : toInt box.width ≤ 0 ∨ toInt box.height ≤ 0
    · rw [calculateLuminance_degenerate rp box d h10 hbox]
      exact Nat.zero_le _
    · rw [calculateLuminance_compute rp box d h10 (by omega) (by omega)]
      have hcons : ∀ (c : GlCall) (l : List GlCall), readbacks (c :: l)
          = readbacks [c] + readbacks l := fun c l => readbacks_append [c] l
      simp only []
      rw [hcons, readbacks_grid]
      have hx := specGrid_length_le_nine (toInt box.width)
      have hy := specGrid_length_le_nine (toInt box.height)
      have hb : readbacks [GlCall.bindFramebuffer FbTarget.GL_READ_FRAMEBUFFER d.m_sampleFB.fbID]
          = 0 := rfl
      rw [hb]
      calc 0 + (specGrid (toInt box.height) (max 16 (toInt box.height / 8))).length
              * (specGrid (toInt box.width) (max 16 (toInt box.width / 8))).length
          ≤ 0 + 9 * 9 := by
            apply Nat.add_le_add_left
            exact Nat.mul_le_mul hy hx
        _ = 81 := rfl

/-- C13 fails as stated: a compute frame on a 129 x 129 box has step 16 on both axes and
reads back the 9 x 9 = 81 pixels at 0, 16, ..., 128, more than 64. -/
theorem C13_counterexample :
    readbacks (plugins.calculateLuminance (fun _ _ => ⟨0, 0, 0, 255⟩) ⟨0, 0, 129, 129⟩
      ⟨CFramebuffer.fresh, 5 / 10, 9⟩).2.2 = 81 ∧
    specGrid (toInt 129) (max 16 (toInt 129 / 8)) = [0, 16, 32, 48, 64, 80, 96, 112, 128] := by
  constructor <;> decide!

/-- C13 (amended): for every box with positive width and height, with
`step = max(16, dimension / 8)` in each axis, a compute frame of `calculateLuminance` reads
back the grid of the multiples of the step below the dimension: at most 9 points per axis
(at most 8 when the dimension is at most 128 or a multiple of 8), that is at most
9 x 9 = 81 pixels, regardless of buffer size; no call reads back more. -/
theorem C13_readback_bound (rp : Int → Int → Pixel) (box : CBox) (d : plugins.Decoration)
    (hw : 0 < toInt box.width) (hh : 0 < toInt box.height) :
    (specGrid (toInt box.width) (max 16 (toInt box.width / 8))).length ≤ 9 ∧
    (specGrid (toInt box.height) (max 16 (toInt box.height / 8))).length ≤ 9 ∧
    (toInt box.width ≤ 128 ∨ 8 ∣ toInt box.width →
      (specGrid (toInt box.width) (max 16 (toInt box.width / 8))).length ≤ 8) ∧
    (toInt box.height ≤ 128 ∨ 8 ∣ toInt box.height →
      (specGrid (toInt box.height) (max 16 (toInt box.height / 8))).length ≤ 8) ∧
    (10 ≤ d.m_luminanceUpdateCounter + 1 →
      (plugins.calculateLuminance rp box d).2.2
        = GlCall.bindFramebuffer FbTarget.GL_READ_FRAMEBUFFER d.m_sampleFB.fbID
          :: ((specGrid (toInt box.height) (max 16 (toInt box.height / 8))).map (fun y =>
              (specGrid (toInt box.width) (max 16 (toInt box.width / 8))).map (fun x =>
                GlCall.readPixels x y))).flatten) ∧
    readbacks (plugins.calculateLuminance rp box d).2.2 ≤ 81 := by
  refine ⟨specGrid_length_le_nine _, specGrid_length_le_nine _, specGrid_length_le_eight _,
    specGrid_length_le_eight _, ?_, calculateLuminance_readbacks_le rp box d⟩
  intro hc
  rw [calculateLuminance_compute rp box d hc hw hh]

/-- Witness of C13 (amended): a compute frame on a 1920 x 1080 box. -/
theorem C13_readback_bound_witness :
    0 < toInt (CBox.mk 0 0 1920 1080).width ∧ 0 < toInt (CBox.mk 0 0 1920 1080).height ∧
    readbacks (plugins.calculateLuminance (fun _ _ => ⟨0, 0, 0, 255⟩) (CBox.mk 0 0 1920 1080)
      ⟨CFramebuffer.fresh, 5 / 10, 9⟩).2.2 ≤ 81 :=
  ⟨by decide!, by decide!,
    (C13_readback_bound (fun _ _ => ⟨0, 0, 0, 255⟩) (CBox.mk 0 0 1920 1080)
      ⟨CFramebuffer.fresh, 5 / 10, 9⟩ (by decide!) (by decide!)).2.2.2.2.2⟩

theorem mem_specGrid (dim step v : Int) (hs : 1 ≤ step) :
    v ∈ specGrid dim step ↔ ∃ i : Nat, v = (i : Int) * step ∧ v < dim := by
  unfold specGrid
  simp only [List.mem_filter, List.mem_map, List.mem_range, decide_eq_true_eq]
  constructor
  · rintro ⟨⟨i, _, hi⟩, hv⟩
    exact ⟨i, hi.symm, hv⟩
  · rintro ⟨i, hi, hv⟩
    refine ⟨⟨i, ?_, hi.symm⟩, hv⟩
    have h1 : (i : Int) ≤ (i : Int) * step :=
      le_mul_of_one_le_right (Int.natCast_nonneg i) hs
    omega

theorem step_pos (w : Int) : 1 ≤ max 16 (w / 8) :=
  le_trans (by decide) (le_max_left 16 (w / 8))

theorem sum_map_const (l : List Int) (f : Int → ℚ) (a : ℚ) (h : ∀ x, f x = a) :
    (l.map f).sum = (l.length : ℚ) * a := by
  induction l with
  | nil => simp
  | cons x rest ih =>
    rw [List.map_cons, List.sum_cons, ih, h x, List.length_cons]
    push_cast
    ring

theorem relativeLuminance_gray (p : Pixel) (c : Fin 256) (hr : p.r = c) (hg : p.g = c)
    (hb : p.b = c) : plugins.relativeLuminance p = (c.val : ℚ) / 255 := by
  unfold plugins.relativeLuminance
  rw [hr, hg, hb]
  ring

/-- C14: on a compute frame with positive width and height `calculateLuminance` returns, and
caches, the arithmetic mean of `0.2126 * R / 255 + 0.7152 * G / 255 + 0.0722 * B / 255` over
the pixels read at the grid points `(x, y)`, `x` a multiple of `stepX` below the width and
`y` a multiple of `stepY` below the height; for a buffer that is uniformly `(c, c, c)` this
is exactly `c / 255`: 1 for 255, 0 for 0 and 128/255 for 128. -/
theorem C14_mean_over_grid (rp : Int → Int → Pixel) (box : CBox) (d : plugins.Decoration)
    (hc : 10 ≤ d.m_luminanceUpdateCounter + 1)
    (hw : 0 < toInt box.width) (hh : 0 < toInt box.height) :
    (plugins.calculateLuminance rp box d).2.1
      = ((specGrid (toInt box.height) (max 16 (toInt box.height / 8))).map (fun y =>
          ((specGrid (toInt box.width) (max 16 (toInt box.width / 8))).map (fun x =>
            2126 / 10000 * (((rp x y).r.val : ℚ) / 255)
              + 7152 / 10000 * (((rp x y).g.val : ℚ) / 255)
              + 722 / 10000 * (((rp x y).b.val : ℚ) / 255))).sum)).sum
        / (((specGrid (toInt box.height) (max 16 (toInt box.height / 8))).length
            * (specGrid (toInt box.width) (max 16 (toInt box.width / 8))).length : Nat) : ℚ) ∧
    (plugins.calculateLuminance rp box d).1.m_lastLuminance
      = (plugins.calculateLuminance rp box d).2.1 ∧
    (∀ x, x ∈ specGrid (toInt box.width) (max 16 (toInt box.width / 8)) ↔
      ∃ i : Nat, x = (i : Int) * max 16 (toInt box.width / 8) ∧ x < toInt box.width) ∧
    (∀ y, y ∈ specGrid (toInt box.height) (max 16 (toInt box.height / 8)) ↔
      ∃ i : Nat, y = (i : Int) * max 16 (toInt box.height / 8) ∧ y < toInt box.height) ∧
    (∀ c : Fin 256, (∀ x y, (rp x y).r = c ∧ (rp x y).g = c ∧ (rp x y).b = c) →
      (plugins.calculateLuminance rp box d).2.1 = (c.val : ℚ) / 255) ∧
    ((∀ x y, (rp x y).r = 255 ∧ (rp x y).g = 255 ∧ (rp x y).b = 255) →
      (plugins.calculateLuminance rp box d).2.1 = 1) ∧
    ((∀ x y, (rp x y).r = 0 ∧ (rp x y).g = 0 ∧ (rp x y).b = 0) →
      (plugins.calculateLuminance rp box d).2.1 = 0) ∧
    ((∀ x y, (rp x y).r = 128 ∧ (rp x y).g = 128 ∧ (rp x y).b = 128) →
      (plugins.calculateLuminance rp box d).2.1 = 128 / 255) := by
  have hpos : 0 < (specGrid (toInt box.height) (max 16 (toInt box.height / 8))).length
      * (specGrid (toInt box.width) (max 16 (toInt box.width / 8))).length :=
    Nat.mul_pos (specGrid_length_pos _ _ (step_nonneg _) hh)
      (specGrid_length_pos _ _ (step_nonneg _) hw)
  have hgray : ∀ c : Fin 256, (∀ x y, (rp x y).r = c ∧ (rp x y).g = c ∧ (rp x y).b = c) →
      (plugins.calculateLuminance rp box d).2.1 = (c.val : ℚ) / 255 := by
    intro c hu
    rw [calculateLuminance_compute rp box d hc hw hh]
    simp only []
    have hrow : ∀ y : Int,
        ((specGrid (toInt box.width) (max 16 (toInt box.width / 8))).map (fun x =>
          plugins.relativeLuminance (rp x y))).sum
        = ((specGrid (toInt box.width) (max 16 (toInt box.width / 8))).length : ℚ)
            * ((c.val : ℚ) / 255) := by
      intro y
      exact sum_map_const _ _ _ (fun x =>
        relativeLuminance_gray (rp x y) c (hu x y).1 (hu x y).2.1 (hu x y).2.2)
    rw [sum_map_const _ _ _ hrow]
    have hne : ((((specGrid (toInt box.height) (max 16 (toInt box.height / 8))).length
        * (specGrid (toInt box.width) (max 16 (toInt box.width / 8))).length : Nat)) : ℚ) ≠ 0 := by
      exact_mod_cast Nat.pos_iff_ne_zero.mp hpos
    rw [div_eq_iff hne]
    push_cast
    ring
  refine ⟨?_, ?_, fun x => mem_specGrid _ _ x (step_pos _), fun y => mem_specGrid _ _ y (step_pos _),
    hgray, ?_, ?_, ?_⟩
  · rw [calculateLuminance_compute rp box d hc hw hh]
    rfl
  · rw [calculateLuminance_compute rp box d hc hw hh]
  · intro hu
    rw [hgray 255 hu]
    have hv : ((255 : Fin 256).val : ℚ) = 255 := by
      have : (255 : Fin 256).val = 255 := rfl
      rw [this]
      norm_num
    rw [hv]
    norm_num
  · intro hu
    rw [hgray 0 hu]
    have hv : ((0 : Fin 256).val : ℚ) = 0 := by
      have : (0 : Fin 256).val = 0 := rfl
      rw [this]
      norm_num
    rw [hv]
    norm_num
  · intro hu
    rw [hgray 128 hu]
    have hv : ((128 : Fin 256).val : ℚ) = 128 := by
      have : (128 : Fin 256).val = 128 := rfl
      rw [this]
      norm_num
    rw [hv]

/-- Witness of C14: a compute frame on a 300 x 200 buffer that is uniformly mid-gray. -/
theorem C14_mean_over_grid_witness :
    10 ≤ (plugins.Decoration.mk CFramebuffer.fresh (5 / 10) 9).m_luminanceUpdateCounter + 1 ∧
    0 < toInt (CBox.mk 10 20 300 200).width ∧ 0 < toInt (CBox.mk 10 20 300 200).height ∧
    (plugins.calculateLuminance (fun _ _ => ⟨128, 128, 128, 255⟩) (CBox.mk 10 20 300 200)
      (plugins.Decoration.mk CFramebuffer.fresh (5 / 10) 9)).2.1 = 128 / 255 :=
  ⟨by decide, by decide!, by decide!,
    (C14_mean_over_grid (fun _ _ => ⟨128, 128, 128, 255⟩) (CBox.mk 10 20 300 200)
      (plugins.Decoration.mk CFramebuffer.fresh (5 / 10) 9) (by decide) (by decide!)
      (by decide!)).2.2.2.2.2.2.2 (fun _ _ => ⟨rfl, rfl, rfl⟩)⟩

theorem relativeLuminance_bounds (p : Pixel) :
    0 ≤ plugins.relativeLuminance p ∧ plugins.relativeLuminance p ≤ 1 := by
  unfold plugins.relativeLuminance
  have hr : ((p.r.val : ℚ)) ≤ 255 := by exact_mod_cast Nat.le_of_lt_succ p.r.isLt
  have hg : ((p.g.val : ℚ)) ≤ 255 := by exact_mod_cast Nat.le_of_lt_succ p.g.isLt
  have hb : ((p.b.val : ℚ)) ≤ 255 := by exact_mod_cast Nat.le_of_lt_succ p.b.isLt
  have hr0 : (0 : ℚ) ≤ (p.r.val : ℚ) := Nat.cast_nonneg _
  have hg0 : (0 : ℚ) ≤ (p.g.val : ℚ) := Nat.cast_nonneg _
  have hb0 : (0 : ℚ) ≤ (p.b.val : ℚ) := Nat.cast_nonneg _
  constructor
  · simp only []
    linarith
  · simp only []
    linarith

theorem sum_map_bounds (l : List Int) (f : Int → ℚ) (n : ℚ)
    (h : ∀ x, 0 ≤ f x ∧ f x ≤ n) :
    0 ≤ (l.map f).sum ∧ (l.map f).sum ≤ (l.length : ℚ) * n := by
  induction l with
  | nil => simp
  | cons x rest ih =>
    rw [List.map_cons, List.sum_cons, List.length_cons]
    push_cast
    have := h x
    constructor
    · linarith [ih.1]
    · linarith [ih.2]

theorem calculateLuminance_bounds (rp : Int → Int → Pixel) (box : CBox) (d : plugins.Decoration)
    (h0 : 0 ≤ d.m_lastLuminance) (h1 : d.m_lastLuminance ≤ 1) :
    (0 ≤ (plugins.calculateLuminance rp box d).2.1 ∧
      (plugins.calculateLuminance rp box d).2.1 ≤ 1) ∧
    (0 ≤ (plugins.calculateLuminance rp box d).1.m_lastLuminance ∧
      (plugins.calculateLuminance rp box d).1.m_lastLuminance ≤ 1) := by
  by_cases h : d.m_luminanceUpdateCounter + 1 < 10
  · rw [calculateLuminance_quiet rp box d h]
    exact ⟨⟨h0, h1⟩, ⟨h0, h1⟩⟩
  · have h10 : 10 ≤ d.m_luminanceUpdateCounter + 1 := not_lt.mp h
    by_cases hbox : toInt box.width ≤ 0 ∨ toInt box.height ≤ 0
    · rw [calculateLuminance_degenerate rp box d h10 hbox]
      exact ⟨⟨h0, h1⟩, ⟨h0, h1⟩⟩
    · have hw : 0 < toInt box.width := by omega
      have hh : 0 < toInt box.height := by omega
      rw [calculateLuminance_compute rp box d h10 hw hh]
      simp only []
      have hpos : 0 < (specGrid (toInt box.height) (max 16 (toInt box.height / 8))).length
          * (specGrid (toInt box.width) (max 16 (toInt box.width / 8))).length :=
        Nat.mul_pos (specGrid_length_pos _ _ (step_nonneg _) hh)
          (specGrid_length_pos _ _ (step_nonneg _) hw)
      have hposq : (0 : ℚ) < (((specGrid (toInt box.height)
          (max 16 (toInt box.height / 8))).length
          * (specGrid (toInt box.width) (max 16 (toInt box.width / 8))).length : Nat) : ℚ) := by
        exact_mod_cast hpos
      have hrow : ∀ y : Int,
          0 ≤ ((specGrid (toInt box.width) (max 16 (toInt box.width / 8))).map (fun x =>
            plugins.relativeLuminance (rp x y))).sum ∧
          ((specGrid (toInt box.width) (max 16 (toInt box.width / 8))).map (fun x =>
            plugins.relativeLuminance (rp x y))).sum
          ≤ ((specGrid (toInt box.width) (max 16 (toInt box.width / 8))).length : ℚ) := by
        intro y
        have := sum_map_bounds (specGrid (toInt box.width) (max 16 (toInt box.width / 8)))
          (fun x => plugins.relativeLuminance (rp x y)) 1
          (fun x => relativeLuminance_bounds (rp x y))
        rw [mul_one] at this
        exact this
      have hall := sum_map_bounds (specGrid (toInt box.height) (max 16 (toInt box.height / 8)))
        (fun y => ((specGrid (toInt box.width) (max 16 (toInt box.width / 8))).map (fun x =>
            plugins.relativeLuminance (rp x y))).sum)
        ((specGrid (toInt box.width) (max 16 (toInt box.width / 8))).length : ℚ) hrow
      have hres : 0 ≤ ((specGrid (toInt box.height) (max 16 (toInt box.height / 8))).map (fun y =>
            ((specGrid (toInt box.width) (max 16 (toInt box.width / 8))).map (fun x =>
              plugins.relativeLuminance (rp x y))).sum)).sum
            / (((specGrid (toInt box.height) (max 16 (toInt box.height / 8))).length
              * (specGrid (toInt box.width) (max 16 (toInt box.width / 8))).length : Nat) : ℚ) ∧
          ((specGrid (toInt box.height) (max 16 (toInt box.height / 8))).map (fun y =>
            ((specGrid (toInt box.width) (max 16 (toInt box.width / 8))).map (fun x =>
              plugins.relativeLuminance (rp x y))).sum)).sum
            / (((specGrid (toInt box.height) (max 16 (toInt box.height / 8))).length
              * (specGrid (toInt box.width) (max 16 (toInt box.width / 8))).length : Nat) : ℚ)
            ≤ 1 := by
        constructor
        · exact div_nonneg hall.1 (le_of_lt hposq)
        · rw [div_le_one hposq]
          push_cast
          exact hall.2
      exact ⟨hres, hres⟩

/-- C15: over every sequence of `calculateLuminance` calls on a decoration whose cached
luminance lies in [0, 1] (the default 0.5 does), with any boxes and any pixel bytes, every
returned value and the cached luminance after every call lie in [0, 1], in exact
arithmetic. -/
theorem C15_luminance_in_unit_interval (pre : List ((Int → Int → Pixel) × CBox))
    (rp : Int → Int → Pixel) (box : CBox) (d : plugins.Decoration)
    (h0 : 0 ≤ d.m_lastLuminance) (h1 : d.m_lastLuminance ≤ 1) :
    (0 ≤ (plugins.calculateLuminance rp box (plugins.runCalculate pre d)).2.1 ∧
      (plugins.calculateLuminance rp box (plugins.runCalculate pre d)).2.1 ≤ 1) ∧
    (0 ≤ (plugins.calculateLuminance rp box (plugins.runCalculate pre d)).1.m_lastLuminance ∧
      (plugins.calculateLuminance rp box (plugins.runCalculate pre d)).1.m_lastLuminance ≤ 1) := by
  have hrun : 0 ≤ (plugins.runCalculate pre d).m_lastLuminance ∧
      (plugins.runCalculate pre d).m_lastLuminance ≤ 1 := by
    induction pre generalizing d with
    | nil => exact ⟨h0, h1⟩
    | cons x rest ih =>
      have hstep := (calculateLuminance_bounds x.1 x.2 d h0 h1).2
      exact ih _ hstep.1 hstep.2
  exact calculateLuminance_bounds rp box _ hrun.1 hrun.2

/-- Witness of C15: the tenth call on a fresh decoration, on a white 300 x 200 buffer. -/
theorem C15_luminance_in_unit_interval_witness :
    0 ≤ plugins.Decoration.fresh.m_lastLuminance ∧ plugins.Decoration.fresh.m_lastLuminance ≤ 1 ∧
    (0 ≤ (plugins.calculateLuminance (fun _ _ => ⟨255, 255, 255, 255⟩) (CBox.mk 0 0 300 200)
        (plugins.runCalculate
          (List.replicate 9 ((fun _ _ => ⟨255, 255, 255, 255⟩), CBox.mk 0 0 300 200))
          plugins.Decoration.fresh)).2.1 ∧
      (plugins.calculateLuminance (fun _ _ => ⟨255, 255, 255, 255⟩) (CBox.mk 0 0 300 200)
        (plugins.runCalculate
          (List.replicate 9 ((fun _ _ => ⟨255, 255, 255, 255⟩), CBox.mk 0 0 300 200))
          plugins.Decoration.fresh)).2.1 ≤ 1) :=
  ⟨by decide!, by decide!,
    (C15_luminance_in_unit_interval
      (List.replicate 9 ((fun _ _ => ⟨255, 255, 255, 255⟩), CBox.mk 0 0 300 200))
      (fun _ _ => ⟨255, 255, 255, 255⟩) (CBox.mk 0 0 300 200) plugins.Decoration.fresh
      (by decide!) (by decide!)).1⟩

/-! ## The background sampler: C16 to C18 -/

theorem plugins_sampleBackground_degenerate (allocOk : Bool) (sourceFB : CFramebuffer)
    (box : CBox) (d : plugins.Decoration) (hbox : box.width ≤ 0 ∨ box.height ≤ 0) :
    plugins.sampleBackground allocOk sourceFB box d = (d, []) := by
  unfold plugins.sampleBackground
  rw [if_pos hbox]

theorem buffer_store (st : LayerEffect.LayerState) (ls k : Nat) (fb : CFramebuffer) :
    (st.store ls fb).buffer k = if k = ls then fb else st.buffer k := by
  unfold LayerEffect.LayerState.store LayerEffect.LayerState.buffer
  by_cases h : k = ls <;> simp [h]

theorem buffer_getOrCreate (st : LayerEffect.LayerState) (ls k : Nat) :
    (LayerEffect.getOrCreateSampleFB st ls).1.buffer k = st.buffer k := by
  unfold LayerEffect.getOrCreateSampleFB
  rw [buffer_store]
  by_cases h : k = ls
  · rw [if_pos h, h]
  · rw [if_neg h]

/-- C16: for every box with width <= 0 or height <= 0 and every prior capture-buffer state,
never allocated included, both samplers reject the call: `src/plugins`
`CLiquidGlassDecoration::sampleBackground` leaves the decoration as it is and issues no call,
and `CLiquidGlassLayerEffect::sampleBackground` issues no call (no reallocation, no blit) and
leaves the capture buffer of every surface with the size and allocation state it had, an
absent map entry counting as a never-allocated buffer. -/
theorem C16_degenerate_box_rejected (allocOk hasGlobalState : Bool) (sourceFB : CFramebuffer)
    (currentFB : Option CFramebuffer) (gl : GlBindings) (layerSurface : Option Nat) (box : CBox)
    (d : plugins.Decoration) (st : LayerEffect.LayerState)
    (hbox : box.width ≤ 0 ∨ box.height ≤ 0) :
    plugins.sampleBackground allocOk sourceFB box d = (d, []) ∧
    (LayerEffect.sampleBackground allocOk hasGlobalState currentFB gl layerSurface box st).2
      = [] ∧
    ∀ k, (LayerEffect.sampleBackground allocOk hasGlobalState currentFB gl layerSurface box
        st).1.buffer k = st.buffer k := by
  refine ⟨plugins_sampleBackground_degenerate allocOk sourceFB box d hbox, ?_, ?_⟩
  · unfold LayerEffect.sampleBackground
    cases layerSurface with
    | none => rfl
    | some ls =>
      cases hasGlobalState
      · rfl
      · cases currentFB with
        | none => rfl
        | some current =>
          by_cases ha : current.allocated = true
          · simp only [Bool.not_true, Bool.false_eq_true, if_false, ha, hbox, if_true]
          · simp only [Bool.not_true, Bool.false_eq_true, if_false, ha, Bool.not_false,
              Bool.not_eq_true] at ha ⊢
            simp only [ha, Bool.not_false, if_true]
  · intro k
    unfold LayerEffect.sampleBackground
    cases layerSurface with
    | none => rfl
    | some ls =>
      cases hasGlobalState
      · rfl
      · cases currentFB with
        | none => exact buffer_getOrCreate st ls k
        | some current =>
          by_cases ha : current.allocated = true
          · simp only [Bool.not_true, Bool.false_eq_true, if_false, ha, hbox, if_true]
            exact buffer_getOrCreate st ls k
          · simp only [Bool.not_eq_true] at ha
            simp only [Bool.not_true, Bool.false_eq_true, if_false, ha, Bool.not_false, if_true]
            exact buffer_getOrCreate st ls k

/-- Witness of C16: a box of width 0 given to both samplers while a capture buffer of an
earlier frame exists. -/
theorem C16_degenerate_box_rejected_witness :
    ((CBox.mk 10 20 0 50).width ≤ 0 ∨ (CBox.mk 10 20 0 50).height ≤ 0) ∧
    plugins.sampleBackground true screenFB (CBox.mk 10 20 0 50) ⟨captureFB, 5 / 10, 0⟩
      = (⟨captureFB, 5 / 10, 0⟩, []) ∧
    (LayerEffect.sampleBackground true true (some screenFB) ⟨3, 3⟩ (some 1) (CBox.mk 10 20 0 50)
      ⟨fun _ => some captureFB⟩).2 = [] :=
  ⟨by decide!,
    (C16_degenerate_box_rejected true true screenFB (some screenFB) ⟨3, 3⟩ (some 1)
      (CBox.mk 10 20 0 50) ⟨captureFB, 5 / 10, 0⟩ ⟨fun _ => some captureFB⟩ (by decide!)).1,
    (C16_degenerate_box_rejected true true screenFB (some screenFB) ⟨3, 3⟩ (some 1)
      (CBox.mk 10 20 0 50) ⟨captureFB, 5 / 10, 0⟩ ⟨fun _ => some captureFB⟩ (by decide!)).2.1⟩

/-- C17 fails as stated: called with a 100.5 x 50 box on a never-allocated capture buffer,
`sampleBackground` requests a 100 x 50 allocation (the `double`s are converted to `int`),
reaches the blit, and leaves the stored size at 100 x 50, not the size of the box. -/
theorem C17_counterexample :
    allocRequests (plugins.sampleBackground true screenFB (CBox.mk 0 0 (201 / 2) 50)
      plugins.Decoration.fresh).2 = [(100, 50, 1)] ∧
    blits (plugins.sampleBackground true screenFB (CBox.mk 0 0 (201 / 2) 50)
      plugins.Decoration.fresh).2 = 1 ∧
    (plugins.sampleBackground true screenFB (CBox.mk 0 0 (201 / 2) 50)
      plugins.Decoration.fresh).1.m_sampleFB.m_size = (100, 50) ∧
    (plugins.sampleBackground true screenFB (CBox.mk 0 0 (201 / 2) 50)
      plugins.Decoration.fresh).1.m_sampleFB.m_size
      ≠ ((CBox.mk 0 0 (201 / 2) 50).width, (CBox.mk 0 0 (201 / 2) 50).height) := by
  refine ⟨by decide!, by decide!, by decide!, by decide!⟩

/-- C17 (amended): for every box with positive width and height, `src/plugins`
`sampleBackground` reallocates the capture buffer exactly when its stored size differs from
the box's size, requesting the box's width and height converted to `int` and the source
buffer's pixel format, and does not reallocate when the sizes are equal; after every call
that reaches the blit the stored size is the requested one after a reallocation and the
box's size otherwise, so it equals the size of the box whenever the box's width and height
are integral. -/
theorem C17_realloc_on_size_change (allocOk : Bool) (sourceFB : CFramebuffer) (box : CBox)
    (d : plugins.Decoration) (hw : 0 < box.width) (hh : 0 < box.height) :
    (d.m_sampleFB.m_size ≠ (box.width, box.height) →
      allocRequests (plugins.sampleBackground allocOk sourceFB box d).2
        = [(toInt box.width, toInt box.height, sourceFB.m_drmFormat)]) ∧
    (d.m_sampleFB.m_size = (box.width, box.height) →
      allocRequests (plugins.sampleBackground allocOk sourceFB box d).2 = []) ∧
    (0 < blits (plugins.sampleBackground allocOk sourceFB box d).2 →
      (plugins.sampleBackground allocOk sourceFB box d).1.m_sampleFB.m_size
        = if d.m_sampleFB.m_size ≠ (box.width, box.height) then
            (((toInt box.width : Int) : ℚ), ((toInt box.height : Int) : ℚ))
          else (box.width, box.height)) ∧
    (0 < blits (plugins.sampleBackground allocOk sourceFB box d).2 →
      box.width = ((toInt box.width : Int) : ℚ) → box.height = ((toInt box.height : Int) : ℚ) →
      (plugins.sampleBackground allocOk sourceFB box d).1.m_sampleFB.m_size
        = (box.width, box.height)) := by
  have hbox : ¬ (box.width ≤ 0 ∨ box.height ≤ 0) := by
    rintro (h | h)
    · exact absurd hw (not_lt.mpr h)
    · exact absurd hh (not_lt.mpr h)
  have hsize : d.m_sampleFB.m_size ≠ (box.width, box.height) ↔
      (d.m_sampleFB.m_size.1 ≠ box.width ∨ d.m_sampleFB.m_size.2 ≠ box.height) := by
    rw [Ne, Prod.ext_iff, not_and_or]
  have key : (d.m_sampleFB.m_size ≠ (box.width, box.height) →
        allocRequests (plugins.sampleBackground allocOk sourceFB box d).2
          = [(toInt box.width, toInt box.height, sourceFB.m_drmFormat)]) ∧
      (d.m_sampleFB.m_size = (box.width, box.height) →
        allocRequests (plugins.sampleBackground allocOk sourceFB box d).2 = []) ∧
      (0 < blits (plugins.sampleBackground allocOk sourceFB box d).2 →
        (plugins.sampleBackground allocOk sourceFB box d).1.m_sampleFB.m_size
          = if d.m_sampleFB.m_size ≠ (box.width, box.height) then
              (((toInt box.width : Int) : ℚ), ((toInt box.height : Int) : ℚ))
            else (box.width, box.height)) := by
    by_cases hdiff : d.m_sampleFB.m_size.1 ≠ box.width ∨ d.m_sampleFB.m_size.2 ≠ box.height
    · have hne := hsize.mpr hdiff
      cases allocOk
      · unfold plugins.sampleBackground
        simp [hbox, hdiff, hne, CFramebuffer.alloc, allocRequests, blits]
      · unfold plugins.sampleBackground
        simp [hbox, hdiff, hne, CFramebuffer.alloc, allocRequests, blits]
    · have heq : d.m_sampleFB.m_size = (box.width, box.height) := by
        by_contra hne
        exact hdiff (hsize.mp hne)
      cases hal : d.m_sampleFB.allocated
      · unfold plugins.sampleBackground
        simp [hbox, hdiff, heq, hal, allocRequests, blits]
      · unfold plugins.sampleBackground
        simp [hbox, hdiff, heq, hal, allocRequests, blits]
  refine ⟨key.1, key.2.1, key.2.2, ?_⟩
  intro hblit hwi hhi
  rw [key.2.2 hblit]
  split
  · rw [← hwi, ← hhi]
  · rfl

/-- Witness of C17 (amended): a never-allocated capture buffer and a 100 x 50 box. -/
theorem C17_realloc_on_size_change_witness :
    0 < (CBox.mk 0 0 100 50).width ∧ 0 < (CBox.mk 0 0 100 50).height ∧
    (0 < blits (plugins.sampleBackground true screenFB (CBox.mk 0 0 100 50)
        plugins.Decoration.fresh).2 →
      (CBox.mk 0 0 100 50).width = ((toInt (CBox.mk 0 0 100 50).width : Int) : ℚ) →
      (CBox.mk 0 0 100 50).height = ((toInt (CBox.mk 0 0 100 50).height : Int) : ℚ) →
      (plugins.sampleBackground true screenFB (CBox.mk 0 0 100 50)
        plugins.Decoration.fresh).1.m_sampleFB.m_size
        = ((CBox.mk 0 0 100 50).width, (CBox.mk 0 0 100 50).height)) :=
  ⟨by decide!, by decide!,
    (C17_realloc_on_size_change true screenFB (CBox.mk 0 0 100 50) plugins.Decoration.fresh
      (by decide!) (by decide!)).2.2.2⟩

/-- C18 does not hold of the code: neither sampler saves the read binding. With framebuffer 9
bound for reading and the current framebuffer 3 bound for drawing, a call that blits leaves
framebuffer 3 bound to both targets, in `src/plugins` `sampleBackground` as in
`CLiquidGlassLayerEffect::sampleBackground`; the `src/plugins` sampler, which rebinds the
source buffer without looking at the prior state, also turns the bindings (7, 7) into
(3, 3). -/
theorem C18_bindings_not_restored :
    blits (plugins.sampleBackground true screenFB (CBox.mk 0 0 100 50)
      ⟨captureFB, 5 / 10, 0⟩).2 = 1 ∧
    glRun ⟨9, 3⟩ (plugins.sampleBackground true screenFB (CBox.mk 0 0 100 50)
      ⟨captureFB, 5 / 10, 0⟩).2 = ⟨3, 3⟩ ∧
    glRun ⟨7, 7⟩ (plugins.sampleBackground true screenFB (CBox.mk 0 0 100 50)
      ⟨captureFB, 5 / 10, 0⟩).2 = ⟨3, 3⟩ ∧
    blits (LayerEffect.sampleBackground true true (some screenFB) ⟨9, 3⟩ (some 1)
      (CBox.mk 0 0 100 50) ⟨fun _ => some captureFB⟩).2 = 1 ∧
    glRun ⟨9, 3⟩ (LayerEffect.sampleBackground true true (some screenFB) ⟨9, 3⟩ (some 1)
      (CBox.mk 0 0 100 50) ⟨fun _ => some captureFB⟩).2 = ⟨3, 3⟩ := by
  refine ⟨by decide!, by decide!, by decide!, by decide!, by decide!⟩

/-! ## The render pass and the compositor: C19 and C20 -/

theorem toInt_nonpos (q : ℚ) (h : q ≤ 0) : toInt q ≤ 0 := by
  unfold toInt
  split
  · have h0 : q = 0 := le_antisymm h (by assumption)
    rw [h0]
    simp
  · exact Int.ceil_le.mpr (by exact_mod_cast h)

theorem apply_no_sampling_calls (cfg : plugins.Config) (time : ℚ) (rounding : Option ℚ)
    (sourceFB targetFB : CFramebuffer) (rawBox transformedBox : CBox) (windowAlpha : ℚ) :
    allocRequests (plugins.applyLiquidGlassEffect cfg time rounding sourceFB targetFB rawBox
      transformedBox windowAlpha) = [] ∧
    blits (plugins.applyLiquidGlassEffect cfg time rounding sourceFB targetFB rawBox
      transformedBox windowAlpha) = 0 ∧
    readbacks (plugins.applyLiquidGlassEffect cfg time rounding sourceFB targetFB rawBox
      transformedBox windowAlpha) = 0 := by
  unfold plugins.applyLiquidGlassEffect
  split
  · exact ⟨rfl, rfl, rfl⟩
  · split
    · exact ⟨rfl, rfl, rfl⟩
    · exact ⟨rfl, rfl, rfl⟩

theorem apply_unallocated (cfg : plugins.Config) (time : ℚ) (rounding : Option ℚ)
    (sourceFB targetFB : CFramebuffer) (rawBox transformedBox : CBox) (windowAlpha : ℚ)
    (h : sourceFB.allocated = false ∨ targetFB.allocated = false ∨ sourceFB.tex = none) :
    plugins.applyLiquidGlassEffect cfg time rounding sourceFB targetFB rawBox transformedBox
      windowAlpha = [] := by
  unfold plugins.applyLiquidGlassEffect
  rcases h with h | h | h
  · simp [h]
  · simp [h]
  · split
    · rfl
    · rw [h]

theorem calculateLuminance_nonpos_box (rp : Int → Int → Pixel) (box : CBox)
    (d : plugins.Decoration) (hbox : box.width ≤ 0 ∨ box.height ≤ 0) :
    plugins.calculateLuminance rp box d
      = ({ d with m_luminanceUpdateCounter :=
            if d.m_luminanceUpdateCounter + 1 < 10 then d.m_luminanceUpdateCounter + 1 else 0 },
          d.m_lastLuminance, []) := by
  by_cases h : d.m_luminanceUpdateCounter + 1 < 10
  · rw [calculateLuminance_quiet rp box d h, if_pos h]
  · have hb : toInt box.width ≤ 0 ∨ toInt box.height ≤ 0 := by
      rcases hbox with h1 | h1
      · exact Or.inl (toInt_nonpos _ h1)
      · exact Or.inr (toInt_nonpos _ h1)
    rw [calculateLuminance_degenerate rp box d (not_lt.mp h) hb, if_neg h]

/-- C19 fails as stated: a frame whose computed boxes have width 0, for the window titled
`molten-glass-notch`, on a decoration that holds a capture buffer of an earlier frame and on
the initial statics, advances the cadence counter to 1, enters the cached luminance 0.5 for
"notch" in the region table, advances the report counter to 1, and issues a draw call. -/
theorem C19_counterexample :
    (plugins.renderPass zeroWidthFrame 1 ⟨captureFB, 5 / 10, 0⟩
      plugins.Globals.init).deco.m_luminanceUpdateCounter = 1 ∧
    (plugins.renderPass zeroWidthFrame 1 ⟨captureFB, 5 / 10, 0⟩
      plugins.Globals.init).globals.g_luminanceData = [(notch, 5 / 10)] ∧
    (plugins.renderPass zeroWidthFrame 1 ⟨captureFB, 5 / 10, 0⟩
      plugins.Globals.init).globals.g_luminanceWriteCounter = 1 ∧
    draws (plugins.renderPass zeroWidthFrame 1 ⟨captureFB, 5 / 10, 0⟩
      plugins.Globals.init).calls = 1 := by
  refine ⟨by decide!, by decide!, by decide!, by decide!⟩

/-- C19 (amended): in a frame of `src/plugins` `renderPass` whose computed box has zero (or
negative) width or height, with the window alive and the target buffer allocated, the
sampling stage does nothing (the capture buffer keeps its state; no reallocation, no blit, no
pixel read-back) and the cached luminance is unchanged; the frame still counts as a call of
the luminance cadence (the counter goes up by one, or back to 0 from 9) and still reports the
cached luminance under the window's title, so the region table and the report counter change
as by any report call, and stay as they are when the title lacks the marker; the only calls
issued are those of the compositing stage, and none is issued when the capture buffer is
unallocated. -/
theorem C19_zero_box_frame (f : plugins.Frame) (a : ℚ) (d : plugins.Decoration)
    (g : plugins.Globals) (window : plugins.Window) (target : CFramebuffer)
    (hwin : f.window = some window) (hfb : f.currentFB = some target)
    (hal : target.allocated = true)
    (hbox : f.transformBox.width ≤ 0 ∨ f.transformBox.height ≤ 0) :
    (plugins.renderPass f a d g).deco.m_sampleFB = d.m_sampleFB ∧
    (plugins.renderPass f a d g).deco.m_lastLuminance = d.m_lastLuminance ∧
    (plugins.renderPass f a d g).deco.m_luminanceUpdateCounter
      = (if d.m_luminanceUpdateCounter + 1 < 10 then d.m_luminanceUpdateCounter + 1 else 0) ∧
    ((plugins.renderPass f a d g).globals, (plugins.renderPass f a d g).fileOps)
      = plugins.reportLuminance f.env window.m_title d.m_lastLuminance g ∧
    (¬ marker <+: window.m_title →
      (plugins.renderPass f a d g).globals = g ∧ (plugins.renderPass f a d g).fileOps = []) ∧
    (plugins.renderPass f a d g).calls
      = plugins.applyLiquidGlassEffect f.cfg f.time (some window.rounding) d.m_sampleFB target
          f.wlrbox f.transformBox a ∧
    allocRequests (plugins.renderPass f a d g).calls = [] ∧
    blits (plugins.renderPass f a d g).calls = 0 ∧
    readbacks (plugins.renderPass f a d g).calls = 0 ∧
    (d.m_sampleFB.allocated = false → (plugins.renderPass f a d g).calls = []) := by
  have hr : plugins.renderPass f a d g
      = ⟨{ d with m_luminanceUpdateCounter :=
            if d.m_luminanceUpdateCounter + 1 < 10 then d.m_luminanceUpdateCounter + 1 else 0 },
          (plugins.reportLuminance f.env window.m_title d.m_lastLuminance g).1,
          plugins.applyLiquidGlassEffect f.cfg f.time (some window.rounding) d.m_sampleFB target
            f.wlrbox f.transformBox a,
          (plugins.reportLuminance f.env window.m_title d.m_lastLuminance g).2⟩ := by
    unfold plugins.renderPass
    simp only [hwin, hfb, hal, Bool.not_true, Bool.false_eq_true, if_false,
      plugins_sampleBackground_degenerate _ _ _ _ hbox,
      calculateLuminance_nonpos_box _ _ _ hbox, List.nil_append]
  rw [hr]
  have hcalls := apply_no_sampling_calls f.cfg f.time (some window.rounding) d.m_sampleFB target
    f.wlrbox f.transformBox a
  refine ⟨rfl, rfl, rfl, rfl, ?_, rfl, hcalls.1, hcalls.2.1, hcalls.2.2, ?_⟩
  · intro hm
    simp only []
    rw [plugins.reportLuminance_of_not_marker _ _ _ _ hm]
    exact ⟨rfl, rfl⟩
  · intro hun
    exact apply_unallocated _ _ _ _ _ _ _ _ (Or.inl hun)

/-- Witness of C19 (amended): the zero-width frame on a fresh decoration. -/
theorem C19_zero_box_frame_witness :
    zeroWidthFrame.window = some ⟨notchTitle, 8⟩ ∧ zeroWidthFrame.currentFB = some screenFB ∧
    screenFB.allocated = true ∧
    (zeroWidthFrame.transformBox.width ≤ 0 ∨ zeroWidthFrame.transformBox.height ≤ 0) ∧
    (plugins.renderPass zeroWidthFrame 1 plugins.Decoration.fresh
      plugins.Globals.init).deco.m_lastLuminance = plugins.Decoration.fresh.m_lastLuminance ∧
    (plugins.renderPass zeroWidthFrame 1 plugins.Decoration.fresh
      plugins.Globals.init).calls = [] :=
  ⟨rfl, rfl, rfl, by decide!,
    (C19_zero_box_frame zeroWidthFrame 1 plugins.Decoration.fresh plugins.Globals.init
      ⟨notchTitle, 8⟩ screenFB rfl rfl rfl (by decide!)).2.1,
    (C19_zero_box_frame zeroWidthFrame 1 plugins.Decoration.fresh plugins.Globals.init
      ⟨notchTitle, 8⟩ screenFB rfl rfl rfl (by decide!)).2.2.2.2.2.2.2.2.2 rfl⟩

/-- C20: `src/plugins` `applyLiquidGlassEffect` is a no-op whenever the capture buffer is
unallocated, the target buffer is unallocated, or the capture buffer has no texture: in each
of these cases it issues no call at all, so it binds nothing, changes no blend or scissor
state, sets no uniform and draws nothing. -/
theorem C20_compositor_guards (cfg : plugins.Config) (time : ℚ) (rounding : Option ℚ)
    (sourceFB targetFB : CFramebuffer) (rawBox transformedBox : CBox) (windowAlpha : ℚ)
    (h : sourceFB.allocated = false ∨ targetFB.allocated = false ∨ sourceFB.tex = none) :
    plugins.applyLiquidGlassEffect cfg time rounding sourceFB targetFB rawBox transformedBox
      windowAlpha = [] :=
  apply_unallocated cfg time rounding sourceFB targetFB rawBox transformedBox windowAlpha h

/-- Witness of C20: a never-allocated capture buffer over an allocated target. -/
theorem C20_compositor_guards_witness :
    (CFramebuffer.fresh.allocated = false ∨ screenFB.allocated = false ∨
      CFramebuffer.fresh.tex = none) ∧
    plugins.applyLiquidGlassEffect sampleConfig 0 (some 8) CFramebuffer.fresh screenFB
      (CBox.mk 0 0 100 50) (CBox.mk 0 0 100 50) 1 = [] :=
  ⟨Or.inl rfl,
    C20_compositor_guards sampleConfig 0 (some 8) CFramebuffer.fresh screenFB
      (CBox.mk 0 0 100 50) (CBox.mk 0 0 100 50) 1 (Or.inl rfl)⟩


/-! ## The enable gate and the expired window handle: C21 and C24 -/

theorem draw_disabled (cfg : plugins.Config) (self : Nat) (a : ℚ) (h : cfg.enabled = false) :
    plugins.draw cfg self a = [] := by
  simp [plugins.draw, h]

theorem drawFrame_disabled (f : plugins.Frame) (self : Nat) (a : ℚ) (d : plugins.Decoration)
    (g : plugins.Globals) (h : f.cfg.enabled = false) :
    plugins.drawFrame f self a d g = ⟨d, g, [], []⟩ := by
  simp [plugins.drawFrame, draw_disabled f.cfg self a h]

theorem renderPass_expired (f : plugins.Frame) (a : ℚ) (d : plugins.Decoration)
    (g : plugins.Globals) (h : f.window = none) :
    plugins.renderPass f a d g = ⟨d, g, [], []⟩ := by
  simp [plugins.renderPass, h]

theorem drawFrame_expired (f : plugins.Frame) (self : Nat) (a : ℚ) (d : plugins.Decoration)
    (g : plugins.Globals) (h : f.window = none) :
    plugins.drawFrame f self a d g = ⟨d, g, [], []⟩ := by
  by_cases he : f.cfg.enabled = true
  · simp [plugins.drawFrame, plugins.draw, he, plugins.PassElement.draw,
      renderPass_expired f a d g h]
  · exact drawFrame_disabled f self a d g (by simpa using he)

/-- C21: with the enable flag off, `draw` adds no pass element, so the draw opportunity
issues no call (no sampling, no read-back, no draw), leaves the decoration as it was (capture
buffer, cached luminance and cadence counter), leaves the statics as they were (region table,
isDark states and report counter) and touches no file. -/
theorem C21_disabled_skips_frame (f : plugins.Frame) (self : Nat) (a : ℚ)
    (d : plugins.Decoration) (g : plugins.Globals) (h : f.cfg.enabled = false) :
    plugins.draw f.cfg self a = [] ∧
    (plugins.drawFrame f self a d g).calls = [] ∧
    (plugins.drawFrame f self a d g).deco = d ∧
    (plugins.drawFrame f self a d g).globals = g ∧
    (plugins.drawFrame f self a d g).fileOps = [] := by
  rw [drawFrame_disabled f self a d g h]
  exact ⟨draw_disabled f.cfg self a h, rfl, rfl, rfl, rfl⟩

/-- Witness of C21: the frame `liveFrame` with the flag switched off, on a decoration that is
one call short of a luminance update and on statics one call short of a publish. -/
theorem C21_disabled_skips_frame_witness :
    ({ liveFrame with cfg := { sampleConfig with enabled := false } } : plugins.Frame).cfg.enabled
      = false ∧
    (plugins.draw
        ({ liveFrame with cfg := { sampleConfig with enabled := false } } : plugins.Frame).cfg
        0 1 = [] ∧
      (plugins.drawFrame { liveFrame with cfg := { sampleConfig with enabled := false } }
        0 1 ⟨captureFB, 5 / 10, 9⟩ ⟨[], [], 14⟩).calls = [] ∧
      (plugins.drawFrame { liveFrame with cfg := { sampleConfig with enabled := false } }
        0 1 ⟨captureFB, 5 / 10, 9⟩ ⟨[], [], 14⟩).deco = ⟨captureFB, 5 / 10, 9⟩ ∧
      (plugins.drawFrame { liveFrame with cfg := { sampleConfig with enabled := false } }
        0 1 ⟨captureFB, 5 / 10, 9⟩ ⟨[], [], 14⟩).globals = ⟨[], [], 14⟩ ∧
      (plugins.drawFrame { liveFrame with cfg := { sampleConfig with enabled := false } }
        0 1 ⟨captureFB, 5 / 10, 9⟩ ⟨[], [], 14⟩).fileOps = []) :=
  ⟨rfl, C21_disabled_skips_frame _ 0 1 ⟨captureFB, 5 / 10, 9⟩ ⟨[], [], 14⟩ rfl⟩

/-- C24: when the weak window handle no longer resolves, `renderPass` returns at once (no
call, so no sampling and no draw; decoration and statics unchanged, so no luminance update and
no report; no file operation), also when reached through the pass element, `damageEntire` and
`updateWindow` request no damage, and `boundingBox` returns no box. -/
theorem C24_expired_handle_aborts (f : plugins.Frame) (a : ℚ) (d : plugins.Decoration)
    (g : plugins.Globals) (pe : plugins.PassElement) (owner : Option plugins.WindowGeometry)
    (hwin : f.window = none) (hown : owner = none) :
    (plugins.renderPass f a d g).calls = [] ∧
    (plugins.renderPass f a d g).deco = d ∧
    (plugins.renderPass f a d g).globals = g ∧
    (plugins.renderPass f a d g).fileOps = [] ∧
    (pe.draw f d g).calls = [] ∧
    (pe.draw f d g).deco = d ∧
    (pe.draw f d g).globals = g ∧
    (pe.draw f d g).fileOps = [] ∧
    plugins.damageEntire owner = [] ∧
    plugins.updateWindow owner = [] ∧
    pe.boundingBox owner = none := by
  subst hown
  have hp : pe.draw f d g = ⟨d, g, [], []⟩ := by
    unfold plugins.PassElement.draw
    cases pe.deco with
    | none => rfl
    | some _ => exact renderPass_expired f pe.a d g hwin
  rw [renderPass_expired f a d g hwin, hp]
  refine ⟨rfl, rfl, rfl, rfl, rfl, rfl, rfl, rfl, rfl, rfl, ?_⟩
  unfold plugins.PassElement.boundingBox
  cases pe.deco <;> rfl

/-- Witness of C24: the frame `liveFrame` once its window is gone, on a decoration that is one
call short of a luminance update and on statics one call short of a publish. -/
theorem C24_expired_handle_aborts_witness :
    ({ liveFrame with window := none } : plugins.Frame).window = none ∧
    (none : Option plugins.WindowGeometry) = none ∧
    (plugins.renderPass { liveFrame with window := none } 1 ⟨captureFB, 5 / 10, 9⟩
      ⟨[], [], 14⟩).calls = [] ∧
    plugins.damageEntire none = [] ∧
    (plugins.PassElement.mk (some 0) 1).boundingBox none = none :=
  have h := C24_expired_handle_aborts { liveFrame with window := none } 1
    ⟨captureFB, 5 / 10, 9⟩ ⟨[], [], 14⟩ ⟨some 0, 1⟩ none rfl rfl
  ⟨rfl, rfl, h.1, h.2.2.2.2.2.2.2.2.1, h.2.2.2.2.2.2.2.2.2.2⟩

/-! ## Attach and detach: C22 and C23 -/

theorem find_ident_append_ne (objs : List DecoObject) (o : DecoObject) (deco : Nat)
    (h : o.ident ≠ deco) :
    List.find? (fun x => x.ident == deco) (objs ++ [o])
      = List.find? (fun x => x.ident == deco) objs := by
  have hn : List.find? (fun x => x.ident == deco) [o] = none := by
    rw [List.find?_eq_none]
    intro x hx
    rw [List.mem_singleton] at hx
    subst hx
    simpa using h
  rw [List.find?_append, hn, Option.or_none]

theorem find_ident_fresh (objs : List DecoObject) (n : Nat) (h : ∀ o ∈ objs, o.ident < n) :
    List.find? (fun x => x.ident == n) objs = none := by
  rw [List.find?_eq_none]
  intro x hx
  have := h x hx
  simp only [beq_iff_eq]
  omega

theorem find_ident_append_fresh (objs : List DecoObject) (o : DecoObject)
    (h : ∀ x ∈ objs, x.ident < o.ident) :
    List.find? (fun x => x.ident == o.ident) (objs ++ [o]) = some o := by
  rw [List.find?_append, find_ident_fresh objs o.ident h]
  simp [List.find?]

theorem onNewWindow_of_present (PWINDOW : Nat) (world : PluginWorld)
    (h : (world.windowDecorations PWINDOW).any (fun d => d.displayName == liquidGlassName)
      = true) :
    onNewWindow PWINDOW world = world := by
  unfold onNewWindow
  rw [if_pos h]

theorem onNewWindow_of_absent (PWINDOW : Nat) (world : PluginWorld)
    (h : (world.windowDecorations PWINDOW).any (fun d => d.displayName == liquidGlassName)
      = false) :
    onNewWindow PWINDOW world
      = { objects := world.objects ++ [⟨world.nextId, PWINDOW, liquidGlassName⟩]
          decorations := world.decorations ++ [world.nextId]
          nextId := world.nextId + 1 } := by
  unfold onNewWindow
  rw [if_neg (by simp [h])]

theorem present_iff_count (world : PluginWorld) (PWINDOW : Nat) :
    (world.windowDecorations PWINDOW).any (fun d => d.displayName == liquidGlassName) = true
      ↔ 0 < liquidGlassCount world PWINDOW := by
  unfold liquidGlassCount
  rw [List.length_pos, ne_eq, List.filter_eq_nil_iff, List.any_eq_true]
  push_neg
  rfl

theorem absent_iff_count (world : PluginWorld) (PWINDOW : Nat) :
    (world.windowDecorations PWINDOW).any (fun d => d.displayName == liquidGlassName) = false
      ↔ liquidGlassCount world PWINDOW = 0 := by
  rw [← Bool.not_eq_true, present_iff_count]
  omega

theorem liquidGlassCount_attached (world : PluginWorld) (B A : Nat) :
    liquidGlassCount
        { objects := world.objects ++ [⟨world.nextId, B, liquidGlassName⟩]
          decorations := world.decorations ++ [world.nextId]
          nextId := world.nextId + 1 } A
      = liquidGlassCount world A + (if B = A then 1 else 0) := by
  unfold liquidGlassCount PluginWorld.windowDecorations
  simp only [List.filter_append, List.length_append]
  congr 1
  by_cases h : B = A
  · simp [h, List.filter_cons]
  · simp [h, List.filter_cons]

theorem trackedCount_attached (world : PluginWorld) (B A : Nat)
    (ho : ∀ o ∈ world.objects, o.ident < world.nextId)
    (hd : ∀ deco ∈ world.decorations, deco < world.nextId) :
    trackedCount
        { objects := world.objects ++ [⟨world.nextId, B, liquidGlassName⟩]
          decorations := world.decorations ++ [world.nextId]
          nextId := world.nextId + 1 } A
      = trackedCount world A + (if B = A then 1 else 0) := by
  have hnew : List.find? (fun x => x.ident == world.nextId)
      (world.objects ++ [(⟨world.nextId, B, liquidGlassName⟩ : DecoObject)])
        = some ⟨world.nextId, B, liquidGlassName⟩ :=
    find_ident_append_fresh world.objects ⟨world.nextId, B, liquidGlassName⟩ ho
  unfold trackedCount
  simp only [List.filter_append, List.length_append]
  congr 1
  · congr 1
    apply List.filter_congr
    intro deco hmem
    have hlt := hd deco hmem
    simp only [PluginWorld.lock]
    rw [find_ident_append_ne world.objects ⟨world.nextId, B, liquidGlassName⟩ deco
      (by simp only; omega)]
  · rw [List.filter_cons, List.filter_nil]
    simp only [PluginWorld.lock, hnew]
    by_cases h : B = A
    · simp [h]
    · simp [h]

theorem onNewWindow_consistent (B : Nat) (world : PluginWorld) (h : world.consistent) :
    (onNewWindow B world).consistent := by
  by_cases hp : (world.windowDecorations B).any (fun d => d.displayName == liquidGlassName)
      = true
  · rw [onNewWindow_of_present B world hp]
    exact h
  · have ha : (world.windowDecorations B).any (fun d => d.displayName == liquidGlassName)
        = false := by simpa using hp
    rw [onNewWindow_of_absent B world ha]
    obtain ⟨ho, hd, hc⟩ := h
    refine ⟨?_, ?_, ?_⟩
    · intro o hmem
      simp only [List.mem_append, List.mem_singleton] at hmem
      rcases hmem with hmem | hmem
      · have := ho o hmem
        simp only
        omega
      · subst hmem
        simp
    · intro deco hmem
      simp only [List.mem_append, List.mem_singleton] at hmem
      rcases hmem with hmem | hmem
      · have := hd deco hmem
        simp only
        omega
      · subst hmem
        simp
    · intro A
      rw [liquidGlassCount_attached, trackedCount_attached world B A ho hd]
      have hA := hc A
      have h0 := (absent_iff_count world B).mp ha
      by_cases hBA : B = A
      · subst hBA
        simp only [if_true]
        omega
      · simp only [if_neg hBA]
        omega

theorem onNewWindow_count (B A : Nat) (world : PluginWorld) (h : world.consistent) :
    liquidGlassCount (onNewWindow B world) A
      = if A = B then 1 else liquidGlassCount world A := by
  by_cases hp : (world.windowDecorations B).any (fun d => d.displayName == liquidGlassName)
      = true
  · rw [onNewWindow_of_present B world hp]
    by_cases hAB : A = B
    · subst hAB
      have h1 := (present_iff_count world A).mp hp
      have h2 := (h.2.2 A).2
      simp only [if_true]
      omega
    · simp [hAB]
  · have ha : (world.windowDecorations B).any (fun d => d.displayName == liquidGlassName)
        = false := by simpa using hp
    rw [onNewWindow_of_absent B world ha, liquidGlassCount_attached]
    have h0 := (absent_iff_count world B).mp ha
    by_cases hAB : A = B
    · subst hAB
      simp [h0]
    · have hBA : ¬ B = A := fun e => hAB e.symm
      simp [hAB, hBA]

theorem attachAll_cons (B : Nat) (rest : List Nat) (world : PluginWorld) :
    attachAll (B :: rest) world = attachAll rest (onNewWindow B world) := rfl

theorem attachAll_consistent (windows : List Nat) (world : PluginWorld)
    (h : world.consistent) : (attachAll windows world).consistent := by
  induction windows generalizing world with
  | nil => exact h
  | cons B rest ih =>
    rw [attachAll_cons]
    exact ih _ (onNewWindow_consistent B world h)

theorem attachAll_count (windows : List Nat) (world : PluginWorld) (h : world.consistent)
    (A : Nat) :
    liquidGlassCount (attachAll windows world) A
      = if A ∈ windows then 1 else liquidGlassCount world A := by
  induction windows generalizing world with
  | nil => simp [attachAll]
  | cons B rest ih =>
    rw [attachAll_cons, ih _ (onNewWindow_consistent B world h), onNewWindow_count B A world h]
    by_cases h1 : A ∈ rest
    · simp [h1]
    · by_cases h2 : A = B
      · simp [h2]
      · simp [h1, h2]

theorem onNewWindow_twice (surfaceA : Nat) (world : PluginWorld) :
    onNewWindow surfaceA (onNewWindow surfaceA world) = onNewWindow surfaceA world := by
  by_cases hp : (world.windowDecorations surfaceA).any
      (fun d => d.displayName == liquidGlassName) = true
  · rw [onNewWindow_of_present surfaceA world hp, onNewWindow_of_present surfaceA world hp]
  · have ha : (world.windowDecorations surfaceA).any
        (fun d => d.displayName == liquidGlassName) = false := by simpa using hp
    apply onNewWindow_of_present
    rw [onNewWindow_of_absent surfaceA world ha, present_iff_count,
      liquidGlassCount_attached]
    simp

theorem init_consistent : PluginWorld.init.consistent := by
  refine ⟨?_, ?_, ?_⟩
  · intro o ho
    simp [PluginWorld.init] at ho
  · intro o ho
    simp [PluginWorld.init] at ho
  · intro A
    simp [PluginWorld.init, trackedCount, liquidGlassCount, PluginWorld.windowDecorations]

/-- C22: a second `openWindow` notification for the same window changes nothing; and from a
consistent state (such as the state at plugin start), after any sequence of notifications in
which the window occurs, in particular after two in a row, the tracking list holds exactly one
decoration owned by the window and the window carries exactly one decoration named
"LiquidGlass". -/
theorem C22_duplicate_attach_single_instance (world : PluginWorld) (surfaceA : Nat)
    (hw : world.consistent) :
    onNewWindow surfaceA (onNewWindow surfaceA world) = onNewWindow surfaceA world ∧
    trackedCount (onNewWindow surfaceA (onNewWindow surfaceA world)) surfaceA = 1 ∧
    liquidGlassCount (onNewWindow surfaceA (onNewWindow surfaceA world)) surfaceA = 1 ∧
    ∀ attaches : List Nat, surfaceA ∈ attaches →
      trackedCount (attachAll attaches world) surfaceA = 1 ∧
      liquidGlassCount (attachAll attaches world) surfaceA = 1 := by
  have hall : ∀ attaches : List Nat, surfaceA ∈ attaches →
      trackedCount (attachAll attaches world) surfaceA = 1 ∧
      liquidGlassCount (attachAll attaches world) surfaceA = 1 := by
    intro attaches hmem
    have hc := attachAll_count attaches world hw surfaceA
    rw [if_pos hmem] at hc
    have hk := ((attachAll_consistent attaches world hw).2.2 surfaceA).1
    exact ⟨by rw [hk, hc], hc⟩
  have h2 := hall [surfaceA, surfaceA] (by simp)
  exact ⟨onNewWindow_twice surfaceA world, h2.1, h2.2, hall⟩

/-- Witness of C22: two notifications for window 1 on the state at plugin start leave one
tracked decoration, owned by window 1. -/
theorem C22_duplicate_attach_single_instance_witness :
    PluginWorld.init.consistent ∧
    onNewWindow 1 (onNewWindow 1 PluginWorld.init)
      = ⟨[⟨0, 1, liquidGlassName⟩], [0], 1⟩ ∧
    trackedCount (onNewWindow 1 (onNewWindow 1 PluginWorld.init)) 1 = 1 ∧
    liquidGlassCount (onNewWindow 1 (onNewWindow 1 PluginWorld.init)) 1 = 1 :=
  have h := C22_duplicate_attach_single_instance PluginWorld.init 1 init_consistent
  ⟨init_consistent, by decide, h.2.1, h.2.2.1⟩

theorem mem_onCloseWindow (PWINDOW : Nat) (world : PluginWorld) (deco : Nat) :
    deco ∈ (onCloseWindow PWINDOW world).decorations ↔
      deco ∈ world.decorations ∧
        ∃ locked, world.lock deco = some locked ∧ locked.owner ≠ PWINDOW := by
  unfold onCloseWindow
  simp only [List.mem_filter]
  constructor
  · rintro ⟨hmem, hk⟩
    refine ⟨hmem, ?_⟩
    cases hl : world.lock deco with
    | none => simp [hl] at hk
    | some locked =>
      refine ⟨locked, rfl, ?_⟩
      simpa [hl] using hk
  · rintro ⟨hmem, locked, hl, hne⟩
    refine ⟨hmem, ?_⟩
    simp [hl, hne]

theorem lock_onCloseWindow (PWINDOW : Nat) (world : PluginWorld) (deco : Nat) :
    (onCloseWindow PWINDOW world).lock deco = world.lock deco := rfl

theorem trackedCount_onCloseWindow (PWINDOW B : Nat) (world : PluginWorld) :
    trackedCount (onCloseWindow PWINDOW world) B
      = if B = PWINDOW then 0 else trackedCount world B := by
  unfold trackedCount
  simp only [lock_onCloseWindow]
  unfold onCloseWindow
  simp only [List.filter_filter]
  by_cases h : B = PWINDOW
  · rw [if_pos h, List.length_eq_zero, List.filter_eq_nil_iff]
    intro deco _
    cases hl : world.lock deco with
    | none => simp
    | some locked =>
      by_cases ho : locked.owner = PWINDOW
      · simp [ho]
      · simp [ho, h]
  · rw [if_neg h]
    congr 1
    apply List.filter_congr
    intro deco _
    cases hl : world.lock deco with
    | none => simp
    | some locked =>
      by_cases ho : locked.owner = B
      · have : ¬ locked.owner = PWINDOW := fun e => h (ho.symm.trans e)
        simp [ho, h]
      · simp [ho]

/-- C23 fails as stated: after `openWindow` and then `closeWindow` for window 1 the tracking
list is empty, but the decoration object is still among the decorations of the window, and a
draw opportunity on it while the window handle resolves (the frame `liveFrame`) keeps the
capture buffer allocated, blits into it, enters "notch" in the region table and issues a draw
call. -/
theorem C23_counterexample :
    (onCloseWindow 1 (onNewWindow 1 PluginWorld.init)).decorations = [] ∧
    (onCloseWindow 1 (onNewWindow 1 PluginWorld.init)).objects = [⟨0, 1, liquidGlassName⟩] ∧
    (plugins.drawFrame liveFrame 0 1 ⟨captureFB, 5 / 10, 0⟩
      plugins.Globals.init).deco.m_sampleFB.allocated = true ∧
    blits (plugins.drawFrame liveFrame 0 1 ⟨captureFB, 5 / 10, 0⟩
      plugins.Globals.init).calls = 1 ∧
    (plugins.drawFrame liveFrame 0 1 ⟨captureFB, 5 / 10, 0⟩
      plugins.Globals.init).globals.g_luminanceData = [(notch, 5 / 10)] ∧
    draws (plugins.drawFrame liveFrame 0 1 ⟨captureFB, 5 / 10, 0⟩
      plugins.Globals.init).calls = 1 := by
  refine ⟨by decide, by decide, by decide!, by decide!, by decide!, by decide!⟩

/-- C23 (amended): `onCloseWindow` only edits the tracking list. Afterwards every tracked entry
resolves to a decoration owned by another window (none owned by the closed window, none
expired), every entry that resolved to a decoration of another window is kept, in the order it
had, and the decorations alive on the windows are the same as before: the handler destroys no
decoration and releases no capture buffer, which stays with the decoration until the host
destroys it with its window. A later draw opportunity is a no-op when the window handle no
longer resolves or the enable flag is off. -/
theorem C23_detach_untracks (world : PluginWorld) (surfaceA : Nat) :
    (∀ deco ∈ (onCloseWindow surfaceA world).decorations,
      ∃ locked, (onCloseWindow surfaceA world).lock deco = some locked ∧
        locked.owner ≠ surfaceA) ∧
    trackedCount (onCloseWindow surfaceA world) surfaceA = 0 ∧
    (∀ deco ∈ world.decorations, ∀ locked, world.lock deco = some locked →
      locked.owner ≠ surfaceA → deco ∈ (onCloseWindow surfaceA world).decorations) ∧
    (∀ B, B ≠ surfaceA →
      trackedCount (onCloseWindow surfaceA world) B = trackedCount world B) ∧
    (onCloseWindow surfaceA world).decorations.Sublist world.decorations ∧
    (onCloseWindow surfaceA world).objects = world.objects ∧
    (∀ (f : plugins.Frame) (self : Nat) (a : ℚ) (d : plugins.Decoration)
      (g : plugins.Globals), f.window = none ∨ f.cfg.enabled = false →
      plugins.drawFrame f self a d g = ⟨d, g, [], []⟩) := by
  refine ⟨?_, ?_, ?_, ?_, ?_, rfl, ?_⟩
  · intro deco hmem
    rw [lock_onCloseWindow]
    exact ((mem_onCloseWindow surfaceA world deco).mp hmem).2
  · rw [trackedCount_onCloseWindow, if_pos rfl]
  · intro deco hmem locked hl hne
    exact (mem_onCloseWindow surfaceA world deco).mpr ⟨hmem, locked, hl, hne⟩
  · intro B hB
    rw [trackedCount_onCloseWindow, if_neg hB]
  · exact List.filter_sublist _
  · intro f self a d g h
    rcases h with h | h
    · exact drawFrame_expired f self a d g h
    · exact drawFrame_disabled f self a d g h

/-- Witness of C23 (amended): windows 1 and 2 both carry a tracked decoration and the list
also holds an expired entry 7; closing window 1 leaves exactly the entry of window 2. -/
theorem C23_detach_untracks_witness :
    (onCloseWindow 1 ⟨[⟨0, 1, liquidGlassName⟩, ⟨1, 2, liquidGlassName⟩], [0, 7, 1], 8⟩).decorations
      = [1] ∧
    trackedCount
      (onCloseWindow 1 ⟨[⟨0, 1, liquidGlassName⟩, ⟨1, 2, liquidGlassName⟩], [0, 7, 1], 8⟩) 1
      = 0 ∧
    (onCloseWindow 1 ⟨[⟨0, 1, liquidGlassName⟩, ⟨1, 2, liquidGlassName⟩], [0, 7, 1], 8⟩).objects
      = [⟨0, 1, liquidGlassName⟩, ⟨1, 2, liquidGlassName⟩] :=
  have h := C23_detach_untracks
    ⟨[⟨0, 1, liquidGlassName⟩, ⟨1, 2, liquidGlassName⟩], [0, 7, 1], 8⟩ 1
  ⟨by decide, h.2.1, h.2.2.2.2.2.1⟩

/-! ## The plain threshold of `src/effects` and idempotence of the hysteresis pass: C25, C27 -/

theorem mem_assign_self {V : Type} (m : UMap V) (k : Str) (v : V) :
    (k, v) ∈ UMap.assign m k v := by
  induction m with
  | nil => simp [UMap.assign]
  | cons x rest ih =>
    obtain ⟨k0, v0⟩ := x
    by_cases h : k0 = k
    · simp [UMap.assign, h]
    · simp only [UMap.assign, if_neg h]
      exact List.mem_cons_of_mem _ ih

theorem mem_write_writeAtomically (env : Env) (json text : Str) (p : Str)
    (h : IoEvent.write p text ∈ writeAtomically env json) : text = json := by
  unfold writeAtomically at h
  by_cases ho : env.openOk = true
  · rw [if_pos ho] at h
    simp at h
    exact h.2
  · rw [if_neg ho] at h
    simp at h

/-- C25 fails as stated: in the `src/effects` variant, five reports of luminance 0.3 for
"notch" publish it as dark, and five further reports of 0.52, a value inside [0.45, 0.55],
publish it as light. -/
theorem C25_counterexample :
    (effects.reportLuminance ⟨true, true⟩ notchTitle (3 / 10)
        (effects.runReports ⟨true, true⟩ (List.replicate 4 (notchTitle, 3 / 10))
          effects.Globals.init)).2
      = writeAtomically ⟨true, true⟩
          ("\x7b".toList ++ specEntry notch (3 / 10) true ++ "\x7d".toList) ∧
    ((45 : ℚ) / 100 ≤ 52 / 100 ∧ (52 : ℚ) / 100 ≤ 55 / 100) ∧
    (effects.reportLuminance ⟨true, true⟩ notchTitle (52 / 100)
        (effects.runReports ⟨true, true⟩
          (List.replicate 5 (notchTitle, 3 / 10) ++ List.replicate 4 (notchTitle, 52 / 100))
          effects.Globals.init)).2
      = writeAtomically ⟨true, true⟩
          ("\x7b".toList ++ specEntry notch (52 / 100) false ++ "\x7d".toList) := by
  refine ⟨by decide!, ⟨by norm_num, by norm_num⟩, by decide!⟩

/-- C25 (amended): in the `src/effects` variant the `isDark` published for a region depends
on its stored luminance alone, whatever was published before: every publish writes, for each
binding of the table, the entry with `isDark` true exactly when the luminance is below 0.5.
So a luminance in [0.45, 0.5) is published dark and one in [0.5, 0.55] light. -/
theorem C25_effects_plain_threshold (env : Env) (k : Str) (luminance : ℚ)
    (g : effects.Globals) (hc : 5 ≤ g.g_luminanceWriteCounter + 1) :
    (effects.reportLuminance env (marker ++ k) luminance g).2
      = writeAtomically env ("\x7b".toList ++ List.intercalate ",".toList
          ((UMap.assign g.g_luminanceData k luminance).map
            (fun e => specEntry e.1 e.2 (decide (e.2 < 5 / 10)))) ++ "\x7d".toList) ∧
    (∀ text, IoEvent.write tmpPath text
        ∈ (effects.reportLuminance env (marker ++ k) luminance g).2 →
      (45 / 100 ≤ luminance → luminance < 5 / 10 → specEntry k luminance true <:+: text) ∧
      (5 / 10 ≤ luminance → luminance ≤ 55 / 100 → specEntry k luminance false <:+: text)) := by
  have hmap : effectsEntriesOf (UMap.assign g.g_luminanceData k luminance)
      = (UMap.assign g.g_luminanceData k luminance).map
          (fun e => specEntry e.1 e.2 (decide (e.2 < 5 / 10))) := by
    unfold effectsEntriesOf
    apply List.map_congr_left
    intro x _
    rw [entryJson_eq_spec]
  have hpub : (effects.reportLuminance env (marker ++ k) luminance g).2
      = writeAtomically env ("\x7b".toList ++ List.intercalate ",".toList
          ((UMap.assign g.g_luminanceData k luminance).map
            (fun e => specEntry e.1 e.2 (decide (e.2 < 5 / 10)))) ++ "\x7d".toList) := by
    rw [effects_reportLuminance_marker, if_neg (not_lt.mpr hc)]
    simp only []
    rw [effects_buildJson_eq, hmap]
  refine ⟨hpub, ?_⟩
  intro text hmem
  rw [hpub] at hmem
  have ht := mem_write_writeAtomically env _ text tmpPath hmem
  have hin : specEntry k luminance (decide (luminance < 5 / 10)) <:+: text := by
    rw [ht]
    have hm : specEntry k luminance (decide (luminance < 5 / 10))
        ∈ (UMap.assign g.g_luminanceData k luminance).map
            (fun e => specEntry e.1 e.2 (decide (e.2 < 5 / 10))) :=
      List.mem_map.mpr ⟨(k, luminance), mem_assign_self _ _ _, rfl⟩
    have h1 := infix_intercalate_of_mem ",".toList _ _ hm
    exact (h1.trans (List.suffix_append _ _).isInfix).trans (List.prefix_append _ _).isInfix
  constructor
  · intro _ h2
    simpa [h2] using hin
  · intro h1 _
    simpa [not_lt.mpr h1] using hin

/-- Witness of C25 (amended): the publish of the counterexample, light at 0.52 although the
table comes from a dark publish. -/
theorem C25_effects_plain_threshold_witness :
    5 ≤ (effects.Globals.mk [(notch, 3 / 10)] 4).g_luminanceWriteCounter + 1 ∧
    (effects.reportLuminance ⟨true, true⟩ (marker ++ notch) (52 / 100)
        (effects.Globals.mk [(notch, 3 / 10)] 4)).2
      = writeAtomically ⟨true, true⟩ ("\x7b".toList ++ List.intercalate ",".toList
          ((UMap.assign (effects.Globals.mk [(notch, 3 / 10)] 4).g_luminanceData notch
              (52 / 100)).map
            (fun e => specEntry e.1 e.2 (decide (e.2 < 5 / 10)))) ++ "\x7d".toList) :=
  ⟨by decide,
    (C25_effects_plain_threshold ⟨true, true⟩ notch (52 / 100)
      (effects.Globals.mk [(notch, 3 / 10)] 4) (by decide)).1⟩

theorem hysteresis_idem (s : Bool) (lum : ℚ) :
    plugins.hysteresis (plugins.hysteresis s lum) lum = plugins.hysteresis s lum := by
  rw [plugins.hysteresis_eq_spec, plugins.hysteresis_eq_spec]
  unfold specIsDark
  cases s
  · by_cases h : lum < 45 / 100
    · have h2 : ¬ (55 : ℚ) / 100 < lum := by
        intro h3
        have : (45 : ℚ) / 100 < 55 / 100 := by norm_num
        linarith
      simp [h, h2]
    · simp [h]
  · by_cases h : (55 : ℚ) / 100 < lum
    · have h2 : ¬ lum < 45 / 100 := by
        intro h3
        have : (45 : ℚ) / 100 < 55 / 100 := by norm_num
        linarith
      simp [h, h2]
    · simp [h]

theorem report_keeps_region (env : Env) (t : Str) (l : ℚ) (g : plugins.Globals) (r : Str)
    (lum : ℚ) (d : Bool) (hn : (UMap.keys g.g_luminanceData).Nodup)
    (hf : UMap.find g.g_luminanceData r = some lum)
    (hd : plugins.currentIsDark g.g_isDarkState r = d) (hfix : plugins.hysteresis d lum = d)
    (ht : t ≠ marker ++ r) :
    UMap.find (plugins.reportLuminance env t l g).1.g_luminanceData r = some lum ∧
    plugins.currentIsDark (plugins.reportLuminance env t l g).1.g_isDarkState r = d ∧
    ∀ text, IoEvent.write tmpPath text ∈ (plugins.reportLuminance env t l g).2 →
      entryJson r lum d <:+: text := by
  by_cases hm : marker <+: t
  · obtain ⟨k, hk⟩ := hm
    subst hk
    have hrk : r ≠ k := fun e => ht (by rw [e])
    have hn1 := UMap.nodup_keys_assign g.g_luminanceData k l hn
    have hf1 : UMap.find (UMap.assign g.g_luminanceData k l) r = some lum := by
      rw [UMap.find_assign_ne _ _ _ _ hrk, hf]
    by_cases hc : g.g_luminanceWriteCounter + 1 < 15
    · rw [plugins.reportLuminance_quiet env k l g hc]
      refine ⟨hf1, hd, ?_⟩
      intro text hmem
      simp at hmem
    · rw [plugins.reportLuminance_publish env k l g (not_lt.mp hc)]
      refine ⟨hf1, ?_, ?_⟩
      · simp only []
        rw [plugins.currentIsDark_buildJson _ _ hn1, hf1]
        simp only []
        rw [hd, hfix]
      · intro text hmem
        have ht2 := mem_write_writeAtomically env _ text tmpPath hmem
        rw [ht2]
        have h1 := plugins_entry_infix_json (UMap.assign g.g_luminanceData k l)
          g.g_isDarkState hn1 r lum hf1
        rw [hd, hfix] at h1
        exact h1
  · rw [plugins.reportLuminance_of_not_marker env t l g hm]
    refine ⟨hf, hd, ?_⟩
    intro text hmem
    simp at hmem

theorem run_keeps_region (env : Env) (calls : List (Str × ℚ)) (g : plugins.Globals) (r : Str)
    (lum : ℚ) (d : Bool) (hn : (UMap.keys g.g_luminanceData).Nodup)
    (hf : UMap.find g.g_luminanceData r = some lum)
    (hd : plugins.currentIsDark g.g_isDarkState r = d) (hfix : plugins.hysteresis d lum = d)
    (ht : ∀ c ∈ calls, c.1 ≠ marker ++ r) :
    (UMap.keys (plugins.runReports env calls g).g_luminanceData).Nodup ∧
    UMap.find (plugins.runReports env calls g).g_luminanceData r = some lum ∧
    plugins.currentIsDark (plugins.runReports env calls g).g_isDarkState r = d := by
  induction calls generalizing g with
  | nil => exact ⟨hn, hf, hd⟩
  | cons c rest ih =>
    have hstep := report_keeps_region env c.1 c.2 g r lum d hn hf hd hfix
      (ht c (List.mem_cons_self _ _))
    exact ih _ (plugins_report_keys_nodup env c.1 c.2 g hn) hstep.1 hstep.2.1
      (fun x hx => ht x (List.mem_cons_of_mem _ hx))

/-- C27: the hysteresis pass is idempotent in the luminance. Hence, once a region `r` with
stored luminance `lum` has been through a publish (its stored state is the pass of some state
`s` on `lum`), any further reports for other titles leave its stored luminance and its stored
state as they are, and every snapshot written by those reports shows the region with that
same `isDark`. -/
theorem C27_hysteresis_idempotent (env : Env) (calls : List (Str × ℚ)) (g : plugins.Globals)
    (r : Str) (lum : ℚ) (s : Bool) (hn : (UMap.keys g.g_luminanceData).Nodup)
    (hf : UMap.find g.g_luminanceData r = some lum)
    (hd : plugins.currentIsDark g.g_isDarkState r = plugins.hysteresis s lum)
    (ht : ∀ c ∈ calls, c.1 ≠ marker ++ r) :
    (∀ (s0 : Bool) (l : ℚ),
      plugins.hysteresis (plugins.hysteresis s0 l) l = plugins.hysteresis s0 l) ∧
    UMap.find (plugins.runReports env calls g).g_luminanceData r = some lum ∧
    plugins.currentIsDark (plugins.runReports env calls g).g_isDarkState r
      = plugins.hysteresis s lum ∧
    ∀ (t : Str) (l : ℚ) (text : Str), t ≠ marker ++ r →
      IoEvent.write tmpPath text
        ∈ (plugins.reportLuminance env t l (plugins.runReports env calls g)).2 →
      entryJson r lum (plugins.hysteresis s lum) <:+: text := by
  have hrun := run_keeps_region env calls g r lum (plugins.hysteresis s lum) hn hf hd
    (hysteresis_idem s lum) ht
  refine ⟨hysteresis_idem, hrun.2.1, hrun.2.2, ?_⟩
  intro t l text htne hmem
  exact (report_keeps_region env t l (plugins.runReports env calls g) r lum
    (plugins.hysteresis s lum) hrun.1 hrun.2.1 hrun.2.2 (hysteresis_idem s lum) htne).2.2
    text hmem

/-- Witness of C27: "notch" stored at 0.6 and published light; fourteen reports for
`molten-glass-bar` follow, the last of which publishes; "notch" is still stored light. -/
theorem C27_hysteresis_idempotent_witness :
    (UMap.keys (plugins.Globals.mk [(notch, 6 / 10)] [(notch, false)] 1).g_luminanceData).Nodup ∧
    plugins.currentIsDark
      (plugins.runReports ⟨true, true⟩
        (List.replicate 14 ("molten-glass-bar".toList, 2 / 10))
        (plugins.Globals.mk [(notch, 6 / 10)] [(notch, false)] 1)).g_isDarkState notch
      = plugins.hysteresis true (6 / 10) ∧
    plugins.hysteresis true (6 / 10) = false :=
  ⟨by decide,
    (C27_hysteresis_idempotent ⟨true, true⟩
      (List.replicate 14 ("molten-glass-bar".toList, 2 / 10))
      (plugins.Globals.mk [(notch, 6 / 10)] [(notch, false)] 1) notch (6 / 10) true
      (by decide) (by decide!) (by decide!) (by decide)).2.2.1,
    by decide!⟩

/-! ## The sampling loops terminate with `samplesX * samplesY` samples: C28 -/

theorem loopPoints_fuel_stable (limit step : Int) (fuel extra : Nat) (v : Int)
    (h : limit ≤ v + (fuel : Int) * step) :
    loopPoints limit step (fuel + extra) v = loopPoints limit step fuel v := by
  induction fuel generalizing v with
  | zero =>
    simp only [Nat.cast_zero, zero_mul, add_zero] at h
    cases extra with
    | zero => rfl
    | succ e =>
      rw [Nat.zero_add, loopPoints_succ, if_neg (not_lt.mpr h)]
      rfl
  | succ f ih =>
    have he : f + 1 + extra = (f + extra) + 1 := by omega
    rw [he, loopPoints_succ, loopPoints_succ]
    by_cases hv : v < limit
    · rw [if_pos hv, if_pos hv, ih]
      push_cast at h
      linarith
    · rw [if_neg hv, if_neg hv]

theorem limit_le_fuel (limit step : Int) (hs : 1 ≤ step) :
    limit ≤ 0 + (limit.toNat : Int) * step := by
  have h1 : limit ≤ (limit.toNat : Int) := Int.self_le_toNat limit
  have h2 : (limit.toNat : Int) ≤ (limit.toNat : Int) * step :=
    le_mul_of_one_le_right (Int.natCast_nonneg _) hs
  omega

theorem loopPoints_length_ge (limit step : Int) (hs : 0 ≤ step) (n fuel : Nat) (v : Int)
    (h : n = 0 ∨ v + ((n : Int) - 1) * step < limit) (hf : n ≤ fuel) :
    n ≤ (loopPoints limit step fuel v).length := by
  induction n generalizing fuel v with
  | zero => exact Nat.zero_le _
  | succ m ih =>
    obtain ⟨f, rfl⟩ : ∃ f, fuel = f + 1 := ⟨fuel - 1, by omega⟩
    have h1 : v + (m : Int) * step < limit := by
      rcases h with h | h
      · omega
      · push_cast at h
        simpa using h
    have h2 : 0 ≤ (m : Int) * step := mul_nonneg (Int.natCast_nonneg m) hs
    rw [loopPoints_succ, if_pos (by omega), List.length_cons]
    have h3 : m = 0 ∨ v + step + ((m : Int) - 1) * step < limit := by
      right
      have : v + step + ((m : Int) - 1) * step = v + (m : Int) * step := by ring
      rw [this]
      exact h1
    have := ih f (v + step) h3 (by omega)
    omega

theorem samplesAlong_bounds (dim step : Int) (hd : 0 < dim) (hs : 1 ≤ step) :
    1 ≤ samplesAlong dim step ∧ samplesAlong dim step ≤ dim ∧
    (samplesAlong dim step - 1) * step < dim ∧ dim ≤ samplesAlong dim step * step := by
  unfold samplesAlong
  have hpos : 0 < step := by omega
  have h1 : 1 ≤ (dim + step - 1) / step :=
    Int.le_ediv_of_mul_le hpos (by omega)
  have h2 : (dim + step - 1) / step * step ≤ dim + step - 1 :=
    Int.ediv_mul_le _ (by omega)
  have h3 : dim + step - 1 < ((dim + step - 1) / step + 1) * step :=
    Int.lt_ediv_add_one_mul_self _ hpos
  have h4 : ((dim + step - 1) / step - 1) * step < dim := by
    have : ((dim + step - 1) / step - 1) * step = (dim + step - 1) / step * step - step := by
      ring
    omega
  have h5 : dim ≤ (dim + step - 1) / step * step := by
    have : ((dim + step - 1) / step + 1) * step = (dim + step - 1) / step * step + step := by
      ring
    omega
  have h6 : (dim + step - 1) / step - 1 ≤ ((dim + step - 1) / step - 1) * step :=
    le_mul_of_one_le_right (by omega) hs
  exact ⟨h1, by omega, h4, h5⟩

theorem specGrid_length_eq (dim step : Int) (hd : 0 < dim) (hs : 1 ≤ step) :
    ((specGrid dim step).length : Int) = samplesAlong dim step := by
  obtain ⟨h1, h2, h3, h4⟩ := samplesAlong_bounds dim step hd hs
  have hn : ((samplesAlong dim step).toNat : Int) = samplesAlong dim step :=
    Int.toNat_of_nonneg (by omega)
  rw [← loopPoints_eq_specGrid dim step (by omega)]
  have hle : (loopPoints dim step dim.toNat 0).length ≤ (samplesAlong dim step).toNat :=
    loopPoints_length_le dim step _ _ 0 (by rw [hn]; omega)
  have hge : (samplesAlong dim step).toNat ≤ (loopPoints dim step dim.toNat 0).length :=
    loopPoints_length_ge dim step (by omega) _ _ 0 (Or.inr (by rw [hn]; omega)) (by omega)
  omega

/-- C28: on a compute frame with integer width and height above zero, the two sampling loops
of `calculateLuminance` leave by their own conditions (more fuel than the model gives them
changes nothing), they take exactly `samplesX * samplesY` samples, with
`samplesX = (width + stepX - 1) / stepX` and `samplesY = (height + stepY - 1) / stepY`, one
pixel read-back each, and both factors are at least 1; so the sample count the mean is
divided by is positive, and the cached luminance is the quotient (the branch that keeps the
old value is not taken). -/
theorem C28_sample_count (rp : Int → Int → Pixel) (box : CBox) (d : plugins.Decoration)
    (width height stepX stepY : Int)
    (hc : 10 ≤ d.m_luminanceUpdateCounter + 1)
    (hwd : width = toInt box.width) (hht : height = toInt box.height)
    (hsx : stepX = max 16 (width / 8)) (hsy : stepY = max 16 (height / 8))
    (hw : 0 < width) (hh : 0 < height) :
    (∀ (extra : Nat) (acc : plugins.SampleAcc),
      plugins.sampleRows rp width height stepX stepY (height.toNat + extra) 0 acc
        = plugins.sampleRows rp width height stepX stepY height.toNat 0 acc) ∧
    (∀ (extra : Nat) (y : Int) (acc : plugins.SampleAcc),
      plugins.sampleRow rp width stepX y (width.toNat + extra) 0 acc
        = plugins.sampleRow rp width stepX y width.toNat 0 acc) ∧
    (plugins.sampleRows rp width height stepX stepY height.toNat 0
        ⟨0, 0, [GlCall.bindFramebuffer FbTarget.GL_READ_FRAMEBUFFER d.m_sampleFB.fbID]⟩).sampleCount
      = samplesAlong width stepX * samplesAlong height stepY ∧
    1 ≤ samplesAlong width stepX ∧ 1 ≤ samplesAlong height stepY ∧
    0 < (plugins.sampleRows rp width height stepX stepY height.toNat 0
        ⟨0, 0, [GlCall.bindFramebuffer FbTarget.GL_READ_FRAMEBUFFER d.m_sampleFB.fbID]⟩).sampleCount ∧
    ((readbacks (plugins.calculateLuminance rp box d).2.2 : Nat) : Int)
      = samplesAlong width stepX * samplesAlong height stepY ∧
    (plugins.calculateLuminance rp box d).1.m_lastLuminance
      = (plugins.sampleRows rp width height stepX stepY height.toNat 0
          ⟨0, 0, [GlCall.bindFramebuffer FbTarget.GL_READ_FRAMEBUFFER
            d.m_sampleFB.fbID]⟩).totalLuminance
        / ((samplesAlong width stepX * samplesAlong height stepY : Int) : ℚ) := by
  have hx1 : 1 ≤ stepX := by rw [hsx]; exact step_pos width
  have hy1 : 1 ≤ stepY := by rw [hsy]; exact step_pos height
  have hbx := samplesAlong_bounds width stepX hw hx1
  have hby := samplesAlong_bounds height stepY hh hy1
  have hlx := specGrid_length_eq width stepX hw hx1
  have hly := specGrid_length_eq height stepY hh hy1
  have hcount : (plugins.sampleRows rp width height stepX stepY height.toNat 0
        ⟨0, 0, [GlCall.bindFramebuffer FbTarget.GL_READ_FRAMEBUFFER d.m_sampleFB.fbID]⟩).sampleCount
      = samplesAlong width stepX * samplesAlong height stepY := by
    rw [sampleRows_eq_foldl, loopPoints_eq_specGrid _ _ (by omega),
      loopPoints_eq_specGrid _ _ (by omega), gridFold_count]
    push_cast
    rw [hlx, hly]
    ring
  have hprod : 0 < samplesAlong width stepX * samplesAlong height stepY :=
    mul_pos (by omega) (by omega)
  refine ⟨?_, ?_, hcount, hbx.1, hby.1, by rw [hcount]; exact hprod, ?_, ?_⟩
  · intro extra acc
    rw [sampleRows_eq_foldl, sampleRows_eq_foldl,
      loopPoints_fuel_stable height stepY _ extra 0 (limit_le_fuel height stepY hy1)]
  · intro extra y acc
    rw [sampleRow_eq_foldl, sampleRow_eq_foldl,
      loopPoints_fuel_stable width stepX _ extra 0 (limit_le_fuel width stepX hx1)]
  · subst hwd hht hsx hsy
    rw [calculateLuminance_compute rp box d hc hw hh]
    simp only []
    have hcons : ∀ (c : GlCall) (l : List GlCall), readbacks (c :: l)
        = readbacks [c] + readbacks l := fun c l => readbacks_append [c] l
    have hb : readbacks [GlCall.bindFramebuffer FbTarget.GL_READ_FRAMEBUFFER d.m_sampleFB.fbID]
        = 0 := rfl
    rw [hcons, readbacks_grid, hb]
    push_cast
    rw [hlx, hly]
    ring
  · subst hwd hht hsx hsy
    rw [calculateLuminance_compute rp box d hc hw hh]
    simp only []
    rw [sampleRows_eq_foldl, loopPoints_eq_specGrid _ _ (by omega),
      loopPoints_eq_specGrid _ _ (by omega), gridFold_total]
    simp only [zero_add]
    congr 1
    push_cast
    rw [← hlx, ← hly]
    push_cast
    ring

/-- Witness of C28: a compute frame on a 100 x 50 box: steps 16 and 16, 7 x 4 = 28
samples. -/
theorem C28_sample_count_witness :
    (10 : Int) ≤ (plugins.Decoration.mk captureFB (5 / 10) 9).m_luminanceUpdateCounter + 1 ∧
    (100 : Int) = toInt (CBox.mk 10 20 100 50).width ∧
    (50 : Int) = toInt (CBox.mk 10 20 100 50).height ∧
    samplesAlong 100 16 * samplesAlong 50 16 = 28 ∧
    ((readbacks (plugins.calculateLuminance (fun _ _ => ⟨0, 0, 0, 255⟩) (CBox.mk 10 20 100 50)
        (plugins.Decoration.mk captureFB (5 / 10) 9)).2.2 : Nat) : Int)
      = samplesAlong 100 16 * samplesAlong 50 16 :=
  ⟨by decide, by decide!, by decide!, by decide,
    (C28_sample_count (fun _ _ => ⟨0, 0, 0, 255⟩) (CBox.mk 10 20 100 50)
      (plugins.Decoration.mk captureFB (5 / 10) 9) 100 50 16 16 (by decide) (by decide!)
      (by decide!) (by decide) (by decide) (by decide) (by decide)).2.2.2.2.2.2.1⟩

/-! ## Namespace patterns: C26 and C29 -/

theorem prefixTest_ok (p ns : Str) (h : p ≠ []) :
    LayerEffect.prefixTest p ns
      = .ok (decide (p.getLast? = some '*' ∧ p.dropLast <+: ns)) := by
  unfold LayerEffect.prefixTest LayerEffect.back
  rw [List.getLast?_eq_getLast p h]
  simp only []
  by_cases hl : p.getLast h = '*'
  · have h1 : LayerEffect.substrLen p 0 (p.length - 1) = .ok p.dropLast := by
      unfold LayerEffect.substrLen
      rw [if_pos (Nat.zero_le _), List.drop_zero, List.dropLast_eq_take]
    have h2 : LayerEffect.substrLen ns 0 p.dropLast.length
        = .ok (ns.take p.dropLast.length) := by
      unfold LayerEffect.substrLen
      rw [if_pos (Nat.zero_le _), List.drop_zero]
    rw [if_pos hl, h1]
    simp only []
    rw [h2]
    simp only []
    congr 1
    rw [decide_eq_decide]
    constructor
    · intro he
      exact ⟨by rw [hl], List.prefix_iff_eq_take.mpr he.symm⟩
    · intro he
      exact (List.prefix_iff_eq_take.mp he.2).symm
  · rw [if_neg hl]
    congr 1
    symm
    rw [decide_eq_false_iff_not]
    intro he
    exact hl (Option.some.inj he.1)

theorem suffixTest_ok (p ns : Str) (h : p ≠ []) :
    LayerEffect.suffixTest p ns
      = .ok (decide (p.head? = some '*' ∧ p.tail <:+ ns)) := by
  cases p with
  | nil => exact absurd rfl h
  | cons c t =>
    unfold LayerEffect.suffixTest LayerEffect.front
    simp only [List.head?_cons, List.tail_cons]
    by_cases hc : c = '*'
    · have h1 : LayerEffect.substrFrom (c :: t) 1 = .ok t := by
        unfold LayerEffect.substrFrom
        rw [if_pos (by simp)]
        rfl
      rw [if_pos hc, h1]
      simp only []
      by_cases hlen : t.length ≤ ns.length
      · have h2 : LayerEffect.substrFrom ns (ns.length - t.length)
            = .ok (ns.drop (ns.length - t.length)) := by
          unfold LayerEffect.substrFrom
          rw [if_pos (Nat.sub_le _ _)]
        rw [if_pos hlen, h2]
        simp only []
        congr 1
        rw [decide_eq_decide]
        constructor
        · intro he
          exact ⟨by rw [hc], List.suffix_iff_eq_drop.mpr he.symm⟩
        · intro he
          exact (List.suffix_iff_eq_drop.mp he.2).symm
      · rw [if_neg hlen]
        congr 1
        symm
        rw [decide_eq_false_iff_not]
        intro he
        exact hlen he.2.length_le
    · rw [if_neg hc]
      congr 1
      symm
      rw [decide_eq_false_iff_not]
      intro he
      exact hc (Option.some.inj he.1)

theorem matchOne_ok (p ns : Str) (h : p ≠ []) :
    ∃ b, LayerEffect.matchOne p ns = .ok b ∧ (b = true ↔ specMatches p ns) := by
  unfold LayerEffect.matchOne specMatches
  by_cases he : p = ns
  · exact ⟨true, by rw [if_pos he], by simp [he]⟩
  · rw [if_neg he, prefixTest_ok p ns h]
    by_cases h1 : p.getLast? = some '*' ∧ p.dropLast <+: ns
    · refine ⟨true, by simp [h1], ?_⟩
      simp only [true_iff]
      exact Or.inr (Or.inl h1)
    · have hd : decide (p.getLast? = some '*' ∧ p.dropLast <+: ns) = false :=
        decide_eq_false h1
      rw [hd]
      simp only []
      rw [suffixTest_ok p ns h]
      refine ⟨_, rfl, ?_⟩
      rw [decide_eq_true_iff]
      constructor
      · intro h2
        exact Or.inr (Or.inr h2)
      · rintro (h2 | h2 | h2)
        · exact absurd h2 he
        · exact absurd h2 h1
        · exact h2

theorem matchesPattern_ok (patterns : List Str) (ns : Str) (h : ∀ p ∈ patterns, p ≠ []) :
    ∃ b, LayerEffect.matchesPattern patterns ns = .ok b ∧
      (b = true ↔ ∃ p ∈ patterns, specMatches p ns) := by
  induction patterns with
  | nil => exact ⟨false, rfl, by simp⟩
  | cons q rest ih =>
    obtain ⟨b, hb, hiff⟩ := matchOne_ok q ns (h q (List.mem_cons_self _ _))
    obtain ⟨b2, hb2, hiff2⟩ := ih (fun p hp => h p (List.mem_cons_of_mem _ hp))
    unfold LayerEffect.matchesPattern
    rw [hb]
    cases b with
    | true =>
      refine ⟨true, rfl, ?_⟩
      simp only [true_iff]
      exact ⟨q, List.mem_cons_self _ _, hiff.mp rfl⟩
    | false =>
      refine ⟨b2, hb2, ?_⟩
      rw [hiff2]
      constructor
      · rintro ⟨p, hp, hm⟩
        exact ⟨p, List.mem_cons_of_mem _ hp, hm⟩
      · rintro ⟨p, hp, hm⟩
        rcases List.mem_cons.mp hp with h1 | h1
        · subst h1
          have := hiff.mpr hm
          exact absurd this (by simp)
        · exact ⟨p, h1, hm⟩

theorem specMatches_trailing_star (ns : Str) :
    specMatches "molten-*".toList ns ↔ "molten-".toList <+: ns := by
  unfold specMatches
  constructor
  · rintro (h | h | h)
    · rw [← h]
      exact ⟨['*'], rfl⟩
    · exact h.2
    · exact absurd h.1 (by decide)
  · intro h
    exact Or.inr (Or.inl ⟨rfl, h⟩)

theorem specMatches_leading_star (ns : Str) :
    specMatches "*-bar".toList ns ↔ "-bar".toList <:+ ns := by
  unfold specMatches
  constructor
  · rintro (h | h | h)
    · rw [← h]
      exact ⟨['*'], rfl⟩
    · exact absurd h.1 (by decide)
    · exact h.2
  · intro h
    exact Or.inr (Or.inr ⟨rfl, h⟩)

/-- C26: with only non-empty patterns registered, `matchesPattern` returns a truth value, and
it is `true` exactly when some registered pattern equals the namespace, or ends with `*` and
the namespace starts with the pattern minus its last character, or starts with `*` and the
namespace ends with the pattern minus its first character. So the single pattern `molten-*`
matches exactly the namespaces that begin with `molten-`, the single pattern `*-bar` exactly
those that end with `-bar`, and with no pattern registered nothing matches. -/
theorem C26_matches_iff (patterns : List Str) (ns : Str) (h : ∀ p ∈ patterns, p ≠ []) :
    (LayerEffect.matchesPattern patterns ns = .ok true ∨
      LayerEffect.matchesPattern patterns ns = .ok false) ∧
    (LayerEffect.matchesPattern patterns ns = .ok true ↔ ∃ p ∈ patterns, specMatches p ns) ∧
    (LayerEffect.matchesPattern ["molten-*".toList] ns = .ok true ↔ "molten-".toList <+: ns) ∧
    (LayerEffect.matchesPattern ["molten-*".toList] ns = .ok false ↔
      ¬ "molten-".toList <+: ns) ∧
    (LayerEffect.matchesPattern ["*-bar".toList] ns = .ok true ↔ "-bar".toList <:+ ns) ∧
    (LayerEffect.matchesPattern ["*-bar".toList] ns = .ok false ↔ ¬ "-bar".toList <:+ ns) ∧
    LayerEffect.matchesPattern [] ns = .ok false := by
  have key : ∀ ps : List Str, (∀ p ∈ ps, p ≠ []) →
      (LayerEffect.matchesPattern ps ns = .ok true ∨
        LayerEffect.matchesPattern ps ns = .ok false) ∧
      (LayerEffect.matchesPattern ps ns = .ok true ↔ ∃ p ∈ ps, specMatches p ns) ∧
      (LayerEffect.matchesPattern ps ns = .ok false ↔ ¬ ∃ p ∈ ps, specMatches p ns) := by
    intro ps hps
    obtain ⟨b, hb, hiff⟩ := matchesPattern_ok ps ns hps
    rw [hb]
    cases b with
    | true =>
      have hm := hiff.mp rfl
      exact ⟨Or.inl rfl, by simp [hm], by simpa using hm⟩
    | false =>
      have hm : ¬ ∃ p ∈ ps, specMatches p ns := fun hx => by simpa using hiff.mpr hx
      exact ⟨Or.inr rfl, by simpa using hm, by simpa using hm⟩
  have k1 := key ["molten-*".toList] (by
    intro p hp
    rw [List.mem_singleton] at hp
    rw [hp]
    decide)
  have k2 := key ["*-bar".toList] (by
    intro p hp
    rw [List.mem_singleton] at hp
    rw [hp]
    decide)
  have e1 : (∃ p ∈ ["molten-*".toList], specMatches p ns) ↔ "molten-".toList <+: ns := by
    simp only [List.mem_singleton, exists_eq_left]
    exact specMatches_trailing_star ns
  have e2 : (∃ p ∈ ["*-bar".toList], specMatches p ns) ↔ "-bar".toList <:+ ns := by
    simp only [List.mem_singleton, exists_eq_left]
    exact specMatches_leading_star ns
  refine ⟨(key patterns h).1, (key patterns h).2.1, ?_, ?_, ?_, ?_, rfl⟩
  · rw [k1.2.1, e1]
  · rw [k1.2.2, e1]
  · rw [k2.2.1, e2]
  · rw [k2.2.2, e2]

/-- Witness of C26: the patterns `molten-*` and `*-bar` against the namespace `waybar-bar`,
matched by the second one only. -/
theorem C26_matches_iff_witness :
    (∀ p ∈ ["molten-*".toList, "*-bar".toList], p ≠ []) ∧
    LayerEffect.matchesPattern ["molten-*".toList, "*-bar".toList] "waybar-bar".toList
      = .ok true ∧
    (LayerEffect.matchesPattern ["molten-*".toList, "*-bar".toList] "waybar-bar".toList
        = .ok true ↔
      ∃ p ∈ ["molten-*".toList, "*-bar".toList], specMatches p "waybar-bar".toList) :=
  ⟨by decide, by rfl,
    (C26_matches_iff ["molten-*".toList, "*-bar".toList] "waybar-bar".toList (by decide)).2.1⟩

/-- C29 does not hold of the code: `addNamespacePattern` accepts the empty string, and with
the empty pattern registered `matchesPattern` of any non-empty namespace, such as `waybar`,
goes past the equality test and calls `back()` on the empty pattern. -/
theorem C29_empty_pattern_reads_back :
    LayerEffect.addNamespacePattern [] "".toList = ["".toList] ∧
    LayerEffect.matchesPattern (LayerEffect.addNamespacePattern [] "".toList) "waybar".toList
      = .error LayerEffect.StrFault.backOfEmpty ∧
    ∀ ns : Str, ns ≠ [] →
      LayerEffect.matchesPattern ["".toList] ns = .error LayerEffect.StrFault.backOfEmpty := by
  refine ⟨by rfl, by rfl, ?_⟩
  intro ns hns
  have hne : ¬ ("".toList = ns) := fun e => hns e.symm
  unfold LayerEffect.matchesPattern LayerEffect.matchOne
  rw [if_neg hne]
  rfl

/-! ## The source rectangle of the layer capture: C30 -/

theorem toInt_intCast (z : Int) : toInt (z : ℚ) = z := by
  unfold toInt
  split
  · exact Int.floor_intCast z
  · exact Int.ceil_intCast z

theorem layer_blit_rect (allocOk hasGlobalState : Bool) (currentFB : Option CFramebuffer)
    (gl : GlBindings) (layerSurface : Option Nat) (box : CBox) (st : LayerEffect.LayerState)
    (c : GlCall)
    (hmem : c ∈ (LayerEffect.sampleBackground allocOk hasGlobalState currentFB gl layerSurface
      box st).2)
    (hblit : blits [c] = 1) :
    c = GlCall.blitFramebuffer (max 0 (toInt box.x)) (max 0 (toInt box.y))
      (toInt (box.x + box.width)) (toInt (box.y + box.height)) 0 0 (toInt box.width)
      (toInt box.height) := by
  unfold LayerEffect.sampleBackground at hmem
  cases layerSurface with
  | none => simp at hmem
  | some ls =>
    cases hasGlobalState
    · simp at hmem
    · cases currentFB with
      | none => simp at hmem
      | some current =>
        by_cases ha : current.allocated = true
        · by_cases hb : box.width ≤ 0 ∨ box.height ≤ 0
          · simp [ha, hb] at hmem
          · simp only [Bool.not_true, Bool.false_eq_true, if_false, ha, hb] at hmem
            split at hmem
            · split at hmem
              · rw [List.mem_singleton] at hmem
                rw [hmem] at hblit
                exact absurd (show (0 : Nat) = 1 from hblit) Nat.zero_ne_one
              · simp only [List.mem_append, List.mem_cons, List.mem_singleton,
                  List.mem_nil_iff, or_false] at hmem
                rcases hmem with h | h | h | h | h | h
                · rw [h] at hblit
                  exact absurd (show (0 : Nat) = 1 from hblit) Nat.zero_ne_one
                · rw [h] at hblit
                  exact absurd (show (0 : Nat) = 1 from hblit) Nat.zero_ne_one
                · rw [h] at hblit
                  exact absurd (show (0 : Nat) = 1 from hblit) Nat.zero_ne_one
                · rw [h] at hblit
                  exact absurd (show (0 : Nat) = 1 from hblit) Nat.zero_ne_one
                · exact h
                · rw [h] at hblit
                  exact absurd (show (0 : Nat) = 1 from hblit) Nat.zero_ne_one
            · split at hmem
              · exact absurd hmem (List.not_mem_nil _)
              · simp only [List.nil_append, List.mem_cons, List.mem_singleton,
                  List.mem_nil_iff, or_false] at hmem
                rcases hmem with h | h | h | h | h
                · rw [h] at hblit
                  exact absurd (show (0 : Nat) = 1 from hblit) Nat.zero_ne_one
                · rw [h] at hblit
                  exact absurd (show (0 : Nat) = 1 from hblit) Nat.zero_ne_one
                · rw [h] at hblit
                  exact absurd (show (0 : Nat) = 1 from hblit) Nat.zero_ne_one
                · exact h
                · rw [h] at hblit
                  exact absurd (show (0 : Nat) = 1 from hblit) Nat.zero_ne_one
        · simp [ha] at hmem

/-- C30 fails as stated: for the box at (-10, 0) of size 100 x 50, whose coordinates are
integral and whose width and height are positive, the blit reads the source rectangle
(0, 0)-(90, 50), 90 wide, into the destination rectangle (0, 0)-(100, 50), 100 wide. -/
theorem C30_counterexample :
    (LayerEffect.sampleBackground true true (some screenFB) ⟨3, 3⟩ (some 1)
      (CBox.mk (-10) 0 100 50) ⟨fun _ => none⟩).2
      = [GlCall.fbAlloc 100 50 1, GlCall.getFramebufferBinding,
          GlCall.bindFramebuffer FbTarget.GL_READ_FRAMEBUFFER 3,
          GlCall.bindFramebuffer FbTarget.GL_DRAW_FRAMEBUFFER 0,
          GlCall.blitFramebuffer 0 0 90 50 0 0 100 50,
          GlCall.bindFramebuffer FbTarget.GL_FRAMEBUFFER 3] ∧
    toInt (CBox.mk (-10) 0 100 50).width = 100 ∧ (90 : Int) - 0 ≠ 100 := by
  refine ⟨by decide!, by decide!, by decide⟩

/-- C30 (amended): for a box with integral coordinates, whatever blit
`CLiquidGlassLayerEffect::sampleBackground` issues has the destination rectangle
(0, 0)-(int(width), int(height)) and the source rectangle from (max(0, x), max(0, y)) to
(x + width, y + height). So for `x ≥ 0` and `y ≥ 0` the source rectangle has the size of the
destination and the copy is unscaled, while a negative `x` (or `y`) makes the source narrower
(or lower) than the destination by `-x` (or `-y`). -/
theorem C30_blit_source_rect (allocOk hasGlobalState : Bool) (currentFB : Option CFramebuffer)
    (gl : GlBindings) (layerSurface : Option Nat) (box : CBox) (st : LayerEffect.LayerState)
    (x y w h : Int) (hx : box.x = (x : ℚ)) (hy : box.y = (y : ℚ)) (hw : box.width = (w : ℚ))
    (hh : box.height = (h : ℚ))
    (sx0 sy0 sx1 sy1 dx0 dy0 dx1 dy1 : Int)
    (hmem : GlCall.blitFramebuffer sx0 sy0 sx1 sy1 dx0 dy0 dx1 dy1
      ∈ (LayerEffect.sampleBackground allocOk hasGlobalState currentFB gl layerSurface
          box st).2) :
    (dx0 = 0 ∧ dy0 = 0 ∧ dx1 = w ∧ dy1 = h) ∧
    (sx0 = max 0 x ∧ sy0 = max 0 y ∧ sx1 = x + w ∧ sy1 = y + h) ∧
    (0 ≤ x → sx1 - sx0 = w) ∧ (0 ≤ y → sy1 - sy0 = h) ∧
    (x < 0 → sx1 - sx0 = w + x) ∧ (y < 0 → sy1 - sy0 = h + y) := by
  have hc := layer_blit_rect allocOk hasGlobalState currentFB gl layerSurface box st _ hmem
    rfl
  have hxw : toInt (box.x + box.width) = x + w := by
    rw [hx, hw, ← Int.cast_add, toInt_intCast]
  have hyh : toInt (box.y + box.height) = y + h := by
    rw [hy, hh, ← Int.cast_add, toInt_intCast]
  rw [hxw, hyh, hx, hy, hw, hh, toInt_intCast, toInt_intCast, toInt_intCast, toInt_intCast] at hc
  injection hc with e1 e2 e3 e4 e5 e6 e7 e8
  subst e1 e2 e3 e4 e5 e6 e7 e8
  refine ⟨⟨rfl, rfl, rfl, rfl⟩, ⟨rfl, rfl, rfl, rfl⟩, ?_, ?_, ?_, ?_⟩
  · intro h0
    rw [max_eq_right h0]
    ring
  · intro h0
    rw [max_eq_right h0]
    ring
  · intro h0
    rw [max_eq_left (le_of_lt h0)]
    ring
  · intro h0
    rw [max_eq_left (le_of_lt h0)]
    ring

/-- Witness of C30 (amended): the box at (10, 20) of size 100 x 50 is copied unscaled from
(10, 20)-(110, 70). -/
theorem C30_blit_source_rect_witness :
    GlCall.blitFramebuffer 10 20 110 70 0 0 100 50
      ∈ (LayerEffect.sampleBackground true true (some screenFB) ⟨3, 3⟩ (some 1)
          (CBox.mk 10 20 100 50) ⟨fun _ => none⟩).2 ∧
    ((0 : Int) ≤ 10 → (110 : Int) - 10 = 100) :=
  ⟨by decide!,
    (C30_blit_source_rect true true (some screenFB) ⟨3, 3⟩ (some 1) (CBox.mk 10 20 100 50)
      ⟨fun _ => none⟩ 10 20 100 50 (by norm_num) (by norm_num) (by norm_num) (by norm_num)
      10 20 110 70 0 0 100 50 (by decide!)).2.2.1⟩
end Molten
